import Mathlib

/-!
Verification development for the `fantasy-terrain-generator` repository
(`regiongen.py`), a deterministic procedural region generator.

The Python program is shallowly embedded:

* Python floats are modelled as exact rationals (the `Frac` type below).
  `math.sqrt` is modelled by a fixed computable rational approximation
  `sqrtQ`; `round(v, 3)` by `round3` (round half to even on thousandths).
* `random.Random(seed)` is modelled as an abstract deterministic stream
  (`Rng`): a tape of natural-number draws together with a position.
  `random()` is `tape pos % 2^53 / 2^53` (CPython's `random()` really is
  `getrandbits(53) / 2^53`), `_randbelow n` is `tape pos % n`, and the
  derived operations (`randint`, `choice`, `shuffle`, `uniform`) consume
  draws in exactly the order and number the CPython implementations do.
  Theorems quantify over the tape, so they hold for every seed.
* Mutation of the tile grid is explicit state passing on `GenState`;
  lists keep Python's ordering semantics (dicts are insertion ordered).
* `random.randint(a, b)` raises `ValueError` when `a > b`; this is the
  only reachable exception in the pipeline and is modelled by
  `Rng.randintChecked` returning `none`, which propagates to
  `generate_region : … → Option RegionDoc`.
-/

/-- Exact rational numbers with an explicit (unnormalised) numerator and
positive denominator, modelling Python floats.  A custom type is used
instead of Mathlib's `ℚ` so that every arithmetic operation is plain
`Int`/`Nat` arithmetic that the kernel evaluates directly (Mathlib's `ℚ`
normalises through `Nat.gcd`, which does not reduce definitionally). -/
structure Frac where
  num : Int
  den : Nat
deriving DecidableEq, Repr

/-- Shorthand constructor: the rational `n / d`. -/
def fr (n : Int) (d : Nat) : Frac := ⟨n, d⟩

instance : Add Frac :=
  ⟨fun a b => ⟨a.num * b.den + b.num * a.den, a.den * b.den⟩⟩

instance : Neg Frac := ⟨fun a => ⟨-a.num, a.den⟩⟩

instance : Sub Frac :=
  ⟨fun a b => ⟨a.num * b.den - b.num * a.den, a.den * b.den⟩⟩

instance : Mul Frac := ⟨fun a b => ⟨a.num * b.num, a.den * b.den⟩⟩

/-- Reciprocal (`(1 : Frac) / 0` is `0`, matching Lean's convention; the
generator never divides by zero except in `latFactor` on one-row grids,
where Python would raise instead). -/
def Frac.inv (a : Frac) : Frac :=
  if 0 < a.num then ⟨(a.den : Int), a.num.toNat⟩
  else if a.num < 0 then ⟨-(a.den : Int), (-a.num).toNat⟩
  else ⟨0, 1⟩

instance : Div Frac := ⟨fun a b => a * b.inv⟩

instance : LT Frac := ⟨fun a b => a.num * b.den < b.num * a.den⟩

instance : LE Frac := ⟨fun a b => a.num * b.den ≤ b.num * a.den⟩

instance (a b : Frac) : Decidable (a < b) :=
  inferInstanceAs (Decidable (a.num * b.den < b.num * a.den))

instance (a b : Frac) : Decidable (a ≤ b) :=
  inferInstanceAs (Decidable (a.num * b.den ≤ b.num * a.den))

/-- Value equality of fractions (representations may differ). -/
def Frac.eqv (a b : Frac) : Prop := a.num * b.den = b.num * a.den

instance (a b : Frac) : Decidable (a.eqv b) :=
  inferInstanceAs (Decidable (a.num * b.den = b.num * a.den))

/-- Cast a natural number. -/
def natF (n : Nat) : Frac := ⟨(n : Int), 1⟩

/-- Python `max` on two floats (first argument wins ties by identity; the
value is the same either way). -/
def maxF (a b : Frac) : Frac := if a ≤ b then b else a

/-- Python `min` on two floats. -/
def minF (a b : Frac) : Frac := if a ≤ b then a else b

/-- Absolute value. -/
def absF (a : Frac) : Frac := if a.num < 0 then -a else a

/-- Floor to an integer (denominators are positive). -/
def Frac.floorI (a : Frac) : Int := Int.fdiv a.num (a.den : Int)

/-- Abstract model of the single seeded random stream `random.Random(seed)`:
an infinite tape of raw draws and a current position.  The tape is the
function of the seed; all theorems below hold for every tape. -/
structure Rng where
  tape : Nat → Nat
  pos : Nat

/-- Pull one raw value off the stream. -/
def Rng.next (r : Rng) : Nat × Rng :=
  (r.tape r.pos, { r with pos := r.pos + 1 })

/-- `random.random()`: a 53-bit draw scaled into `[0, 1)`. -/
def Rng.random (r : Rng) : Frac × Rng :=
  let (k, r') := r.next
  (⟨((k % 2 ^ 53 : ℕ) : Int), 2 ^ 53⟩, r')

/-- `Random._randbelow n`: one draw reduced below `n` (model of CPython's
rejection sampling; every result below `n` is realisable). -/
def Rng.randbelow (r : Rng) (n : Nat) : Nat × Rng :=
  let (k, r') := r.next
  (k % n, r')

/-- `random.randint a b` for call sites where `a ≤ b` always holds. -/
def Rng.randintT (r : Rng) (a b : Int) : Int × Rng :=
  let (k, r') := r.randbelow (b + 1 - a).toNat
  (a + k, r')

/-- `random.randint a b` with CPython's `ValueError` on an empty range
modelled as `none`. -/
def Rng.randintChecked (r : Rng) (a b : Int) : Option (Int × Rng) :=
  if a ≤ b then some (r.randintT a b) else none

/-- `random.choice seq` (call sites guard nonemptiness; one draw). -/
def Rng.choiceT (r : Rng) (l : List α) (dflt : α) : α × Rng :=
  let (j, r') := r.randbelow l.length
  (l.getD j dflt, r')

/-- `random.uniform a b`: `a + (b - a) * random()`. -/
def Rng.uniformQ (r : Rng) (a b : Frac) : Frac × Rng :=
  let (v, r') := r.random
  (a + (b - a) * v, r')

/-- Swap two positions of a list (helper for the Fisher–Yates shuffle). -/
def listSwap (l : List α) (i j : Nat) : List α :=
  match l.get? i, l.get? j with
  | some a, some b => (l.set i b).set j a
  | _, _ => l

/-- `random.shuffle`: Fisher–Yates exactly as CPython runs it
(`for i in reversed(range(1, len(x))): j = _randbelow(i+1); swap i j`),
consuming `len - 1` draws. -/
def Rng.shuffle (r : Rng) (l : List α) : List α × Rng :=
  (List.range (l.length - 1)).foldl
    (fun (acc : List α × Rng) k =>
      let i := l.length - 1 - k
      let (j, r') := acc.2.randbelow (i + 1)
      (listSwap acc.1 i j, r'))
    (l, r)

/-- Digit-by-digit integer square root (structural recursion on the bit
position, so the kernel evaluates it; with 64 bits it is exact for every
radicand below `2 ^ 128`, far beyond any grid the generator sees). -/
def isqrtGo (n : Nat) : Nat → Nat → Nat
  | 0, acc => acc
  | b + 1, acc =>
      let cand := acc + 2 ^ b
      if cand * cand ≤ n then isqrtGo n b cand else isqrtGo n b acc

/-- Integer square root (floor). -/
def isqrt (n : Nat) : Nat := isqrtGo n 64 0

/-- Fixed computable approximation of `math.sqrt` on rationals (exact on
perfect squares of naturals; within `10 ^ (-6)` on the quarter-integer
radicands the generator produces). -/
def sqrtQ (q : Frac) : Frac :=
  if q.num ≤ 0 then fr 0 1
  else ⟨(isqrt (q.num.toNat * 10 ^ 12 / q.den) : Nat), 10 ^ 6⟩

/-- Round half to even, the rounding CPython's `round` uses. -/
def roundHalfEven (q : Frac) : Int :=
  let f := q.floorI
  let d := q - fr f 1
  if d < fr 1 2 then f
  else if fr 1 2 < d then f + 1
  else if f % 2 = 0 then f else f + 1

/-- `round(v, 3)`: round to three decimal places, half to even.  The
result is always represented with denominator 1000, so rounded values
stored in tiles compare structurally. -/
def round3 (q : Frac) : Frac := ⟨roundHalfEven (q * fr 1000 1), 1000⟩

/-- `max(0.0, min(1.0, v))`. -/
def clamp01 (q : Frac) : Frac := maxF (fr 0 1) (minF (fr 1 1) q)

/-- The biome strings of the generator as an enumeration. -/
inductive Biome where
  | ocean
  | mountain
  | highland
  | desert
  | grassland
  | temperate_forest
  | wetlands
deriving DecidableEq, Repr

/-- One grid tile (the per-tile dict of `_generate_base_tiles`).
`elevation` and `moisture` store the values rounded to three decimals,
exactly as the Python dict does. -/
structure Tile where
  x : Nat
  y : Nat
  elevation : Frac
  moisture : Frac
  biome : Biome
  water : Bool
  river : Bool
  realm_id : Option String
  settlement_id : Option String
deriving DecidableEq, Repr

instance : Inhabited Tile :=
  ⟨{ x := 0, y := 0, elevation := fr 0 1, moisture := fr 0 1, biome := .ocean,
     water := true, river := false, realm_id := none, settlement_id := none }⟩

/-- A realm record.  `strength` models the transient key added during
`_simulate_history` and popped before output. -/
structure Realm where
  id : String
  name : String
  color : String
  capital_settlement_id : Option String
  founded_year : Nat
  dissolved_year : Option Nat
  culture : String
  notes : List String
  strength : Option Frac
deriving DecidableEq, Repr

/-- A settlement record (`type` is `"city"`, `"town"` or `"fort"`). -/
structure Settlement where
  id : String
  name : String
  type : String
  tile : Nat × Nat
  realm_id : String
  founded_year : Int
  population : Int
  tags : List String
  history : List String
deriving DecidableEq, Repr

/-- A history event record. -/
structure Event where
  id : String
  year : Nat
  type : String
  realm_ids : List String
  settlement_id : Option String
  summary : String
deriving DecidableEq, Repr

/-- A road record (`road_from`/`road_to` stand for the Python keys
`from`/`to`; `from` is reserved in Lean). -/
structure Road where
  road_from : String
  road_to : String
  tiles : List (Int × Int)
  type : String
deriving DecidableEq, Repr

/-- A ruin record. -/
structure Ruin where
  id : String
  name : String
  tile : Nat × Nat
  origin_settlement_id : Option String
  destroyed_year : Int
  cause : String
  tags : List String
  notes : List String
deriving DecidableEq, Repr

/-- The mutable state of a `RegionGenerator` instance. -/
structure GenState where
  width : Nat
  height : Nat
  years : Nat
  base_sea_level : Frac
  mode : String
  seed : Nat
  tiles : List Tile
  realms : List Realm
  settlements : List Settlement
  events : List Event
  roads : List Road
  ruins : List Ruin
  rng : Rng

/-- `_idx`: row-major index of `(x, y)`. -/
def gridIdx (w x y : Nat) : Nat := y * w + x

/-- Coordinates of the in-bounds 4-neighbors of `(x, y)`, produced in the
source's offset order `((1,0), (-1,0), (0,1), (0,-1))` (`_neighbors`). -/
def neighborCoords (w h x y : Nat) : List (Nat × Nat) :=
  [((x : Int) + 1, (y : Int)), ((x : Int) - 1, (y : Int)),
   ((x : Int), (y : Int) + 1), ((x : Int), (y : Int) - 1)].filterMap
    (fun p =>
      if 0 ≤ p.1 ∧ p.1 < (w : Int) ∧ 0 ≤ p.2 ∧ p.2 < (h : Int) then
        some (p.1.toNat, p.2.toNat)
      else none)

/-- Read the tile at a grid index (call sites stay in bounds). -/
def tileAt (tiles : List Tile) (i : Nat) : Tile := tiles.getD i default

/-- `_choose_biome`: the ordered elevation/moisture thresholds. -/
def choose_biome (e m : Frac) (water : Bool) : Biome :=
  if water then .ocean
  else if fr 85 100 < e then .mountain
  else if fr 7 10 < e then .highland
  else if m < fr 2 10 then .desert
  else if m < fr 45 100 then .grassland
  else if m < fr 75 100 then .temperate_forest
  else .wetlands

/-- Build one tile record from raw (unrounded) elevation and moisture,
exactly as the dict literal in `_generate_base_tiles` does: `water` and
`biome` are derived from the raw values, the stored `elevation`/`moisture`
are rounded to three decimals. -/
def mkBaseTile (sl : Frac) (x y : Nat) (e m : Frac) : Tile :=
  { x := x, y := y, elevation := round3 e, moisture := round3 m,
    biome := choose_biome e m (decide (e < sl)), water := decide (e < sl),
    river := false, realm_id := none, settlement_id := none }

/-- Moisture latitude factor: `1 - |y/(height-1) - 0.5| * 1.6`.
(For `height = 1` Python raises `ZeroDivisionError`; here division by
zero yields `0`.  No claim concerns one-row grids.) -/
def latFactor (h y : Nat) : Frac :=
  fr 1 1 - absF ((natF y / (natF h - fr 1 1)) - fr 5 10) * fr 16 10

/-- One continent-mode tile: consumes the three per-tile draws
(bump1, bump2, moisture noise) in source order. -/
def contTileStep (w h : Nat) (sl : Frac) (x y : Nat) (r : Rng) : Tile × Rng :=
  let cx : Frac := (natF w - fr 1 1) / fr 2 1
  let cy : Frac := (natF h - fr 1 1) / fr 2 1
  let maxR : Frac := natF (max w h) / fr 22 10
  let dx : Frac := natF x - cx
  let dy : Frac := natF y - cy
  let dist := sqrtQ (dx * dx + dy * dy)
  let base := clamp01 (fr 1 1 - dist / maxR)
  let (v1, r) := r.random
  let bump1 := (v1 - fr 5 10) * fr 25 100
  let (v2, r) := r.random
  let bump2 := (v2 - fr 5 10) * fr 15 100 * (base + fr 3 10)
  let e := clamp01 (base + bump1 + bump2)
  let (v3, r) := r.random
  let m := clamp01 (latFactor h y + (v3 - fr 5 10) * fr 4 10)
  (mkBaseTile sl x y e m, r)

/-- One row of the continent-mode build (`for x in range(w)`), over an
arbitrary column pool for the induction. -/
def contRowFold (w h : Nat) (sl : Frac) (y : Nat) (xs : List Nat)
    (acc : List Tile × Rng) : List Tile × Rng :=
  xs.foldl
    (fun (acc2 : List Tile × Rng) x =>
      let p := contTileStep w h sl x y acc2.2
      (acc2.1 ++ [p.1], p.2))
    acc

/-- Continent-mode grid build: row-major double loop threading the rng. -/
def buildContinentTiles (w h : Nat) (sl : Frac) (r : Rng) : List Tile × Rng :=
  (List.range h).foldl
    (fun (acc : List Tile × Rng) y => contRowFold w h sl y (List.range w) acc)
    ([], r)

/-- One archipelago blob center: `(randint(0,w-1), randint(0,h-1), uniform 8 16)`. -/
def archCenterStep (w h : Nat) (r : Rng) : (Int × Int × Frac) × Rng :=
  let (cx, r) := r.randintT 0 ((w : Int) - 1)
  let (cy, r) := r.randintT 0 ((h : Int) - 1)
  let (rad, r) := r.uniformQ (fr 8 1) (fr 16 1)
  ((cx, cy, rad), r)

/-- One archipelago-mode tile: the max of the blob contributions plus one
noise draw, then the moisture draw. -/
def archTileStep (h : Nat) (sl : Frac) (centers : List (Int × Int × Frac))
    (x y : Nat) (r : Rng) : Tile × Rng :=
  let e0 := centers.foldl
    (fun e c =>
      let dx : Frac := natF x - fr c.1 1
      let dy : Frac := natF y - fr c.2.1 1
      let d := sqrtQ (dx * dx + dy * dy)
      let contrib := maxF (fr 0 1) (fr 1 1 - d / c.2.2)
      if e < contrib then contrib else e)
    (fr 0 1)
  let (v1, r) := r.random
  let e := clamp01 (e0 + (v1 - fr 5 10) * fr 15 100)
  let (v2, r) := r.random
  let m := clamp01 (latFactor h y + (v2 - fr 5 10) * fr 4 10)
  (mkBaseTile sl x y e m, r)

/-- One row of the archipelago-mode build, over an arbitrary column pool
for the induction. -/
def archRowFold (h : Nat) (sl : Frac) (centers : List (Int × Int × Frac))
    (y : Nat) (xs : List Nat) (acc : List Tile × Rng) : List Tile × Rng :=
  xs.foldl
    (fun (acc2 : List Tile × Rng) x =>
      let p := archTileStep h sl centers x y acc2.2
      (acc2.1 ++ [p.1], p.2))
    acc

/-- Archipelago-mode grid build. -/
def buildArchipelagoTiles (w h : Nat) (sl : Frac) (r : Rng) : List Tile × Rng :=
  let numMasses := max 2 (w * h / 800)
  let cs := (List.range numMasses).foldl
    (fun (acc : List (Int × Int × Frac) × Rng) _ =>
      let p := archCenterStep w h acc.2
      (acc.1 ++ [p.1], p.2))
    ([], r)
  (List.range h).foldl
    (fun (acc : List Tile × Rng) y =>
      archRowFold h sl cs.1 y (List.range w) acc)
    ([], cs.2)

/-- Indices of the non-water tiles, in row-major scan order. -/
def landIndices (tiles : List Tile) : List Nat :=
  (List.range tiles.length).filter (fun i => !(tileAt tiles i).water)

/-- One DFS pop of `_enforce_continent_connectivity`'s flood fill: push the
unvisited non-water neighbors of the popped tile (Python pushes by
`append` and pops from the tail, i.e. the head of our stack list). -/
def dfsPush (tiles : List Tile) (w h : Nat) (i : Nat)
    (visited stack : List Nat) : List Nat × List Nat :=
  let t := tileAt tiles i
  (neighborCoords w h t.x t.y).foldl
    (fun (acc : List Nat × List Nat) c =>
      let j := gridIdx w c.1 c.2
      if j ∉ acc.1 ∧ !(tileAt tiles j).water then (j :: acc.1, j :: acc.2)
      else acc)
    (visited, stack)

/-- The stack loop of the flood fill, with fuel (always called with enough
fuel; see `dfsAux_fuel_le`). Returns the component and the visited set. -/
def dfsAux (tiles : List Tile) (w h : Nat) :
    Nat → List Nat → List Nat → List Nat → List Nat × List Nat
  | 0, _, visited, comp => (comp, visited)
  | _ + 1, [], visited, comp => (comp, visited)
  | fuel + 1, i :: stack, visited, comp =>
      let (visited', stack') := dfsPush tiles w h i visited stack
      dfsAux tiles w h fuel stack' visited' (comp ++ [i])

/-- Flood fill over all land indices: the list of connected components in
discovery (row-major) order, plus the final visited set. -/
def floodComponents (tiles : List Tile) (w h : Nat) :
    List (List Nat) × List Nat :=
  (landIndices tiles).foldl
    (fun (acc : List (List Nat) × List Nat) start =>
      if start ∈ acc.2 then acc
      else
        let (comp, visited') :=
          dfsAux tiles w h (2 * tiles.length + 2) [start] (start :: acc.2) []
        (acc.1 ++ [comp], visited'))
    ([], [])

/-- Stable insertion of a component into a length-descending sorted list:
an element is placed after every element of length `≥` its own. -/
def insByLenDesc (x : List Nat) : List (List Nat) → List (List Nat)
  | [] => [x]
  | y :: ys => if x.length ≤ y.length then y :: insByLenDesc x ys
               else x :: y :: ys

/-- Model of Python's stable `components.sort(key=len, reverse=True)`:
length-descending, ties keep discovery order. -/
def sortByLenDesc (l : List (List Nat)) : List (List Nat) :=
  l.foldl (fun acc x => insByLenDesc x acc) []

/-- Convert every tile whose index is listed to ocean, clearing river,
realm and settlement exactly as the source loop does. -/
def convertToOcean (tiles : List Tile) (idcs : List Nat) : List Tile :=
  idcs.foldl
    (fun ts i =>
      let t := tileAt ts i
      ts.set i { t with water := true, biome := .ocean, river := false,
                        realm_id := none, settlement_id := none })
    tiles

/-- `_enforce_continent_connectivity`: keep the largest component (ties:
first discovered), convert all others to ocean. -/
def enforce_continent_connectivity (s : GenState) : GenState :=
  let land := landIndices s.tiles
  if land = [] then s
  else
    let comps := (floodComponents s.tiles s.width s.height).1
    if comps.length ≤ 1 then s
    else
      let sorted := sortByLenDesc comps
      { s with tiles := convertToOcean s.tiles sorted.tail.flatten }

/-- Why a river walk ended (ghost observation; the tile effects are exactly
the source's). -/
inductive RiverStop where
  | water
  | uphill
  | budget
  | noNeighbors
deriving DecidableEq, Repr

/-- The `min(neighbors, key=...)` of `_carve_rivers`: evaluate the key
(`elevation + 0.05 * random()` jitter for non-water neighbors, plain
elevation for water ones) once per neighbor in list order and keep the
first strict minimum, exactly like Python's `min`. -/
def chooseNextNbr (tiles : List Tile) (w : Nat) (nbrs : List (Nat × Nat))
    (r : Rng) : Option (Nat × Nat) × Rng :=
  let res := nbrs.foldl
    (fun (acc : Option ((Nat × Nat) × Frac) × Rng) c =>
      let t := tileAt tiles (gridIdx w c.1 c.2)
      let (key, r') :=
        if t.water then (t.elevation, acc.2)
        else
          let (j, r'') := acc.2.random
          (t.elevation + fr 5 100 * j, r'')
      match acc.1 with
      | none => (some (c, key), r')
      | some (bc, bk) =>
          if key < bk then (some (c, key), r') else (some (bc, bk), r'))
    (none, r)
  (res.1.map (·.1), res.2)

/-- One river walk of `_carve_rivers` (`for _ in range(80)`), returning the
updated grid, the rng, the number of iterations executed and the stop
reason. -/
def riverWalk (w h : Nat) :
    Nat → Nat → Nat → List Tile → Rng → List Tile × Rng × Nat × RiverStop
  | 0, _, _, tiles, r => (tiles, r, 0, .budget)
  | fuel + 1, x, y, tiles, r =>
    let i := gridIdx w x y
    let t := tileAt tiles i
    let tiles' := tiles.set i { t with river := true }
    let nbrs := neighborCoords w h x y
    match chooseNextNbr tiles' w nbrs r with
    | (none, r') => (tiles', r', 1, .noNeighbors)
    | (some nc, r') =>
      let nt := tileAt tiles' (gridIdx w nc.1 nc.2)
      if nt.water then (tiles', r', 1, .water)
      else if t.elevation < nt.elevation ∧ t.water = false then
        (tiles', r', 1, .uphill)
      else
        let res := riverWalk w h fuel nc.1 nc.2 tiles' r'
        (res.1, res.2.1, res.2.2.1 + 1, res.2.2.2)

/-- `_carve_rivers`: shuffle the high land tiles, walk from the first
`count` of them. -/
def carve_rivers (s : GenState) (count : Nat) : GenState :=
  let land := s.tiles.filter (fun t => !t.water && decide (fr 6 10 < t.elevation))
  if land = [] then s
  else
    let (shuffled, rng) := s.rng.shuffle land
    let starts := shuffled.take count
    starts.foldl
      (fun st t =>
        let res := riverWalk st.width st.height 80 t.x t.y st.tiles st.rng
        { st with tiles := res.1, rng := res.2.1 })
      { s with rng := rng }

/-- `_generate_base_tiles`: mode-dependent build, connectivity enforcement
in continent mode, then river carving on the final land/water layout. -/
def generate_base_tiles (s : GenState) : GenState :=
  let s1 :=
    if s.mode = "continent" then
      let (tiles, rng) :=
        buildContinentTiles s.width s.height s.base_sea_level s.rng
      enforce_continent_connectivity { s with tiles := tiles, rng := rng }
    else
      let (tiles, rng) :=
        buildArchipelagoTiles s.width s.height s.base_sea_level s.rng
      { s with tiles := tiles, rng := rng }
  carve_rivers s1 (max 4 (s.width * s.height / 700))

/-- The prefix pool of `_make_realm_name`. -/
def realmNamePrefixList : List String :=
  ["Ashen", "Grey", "Varn", "Eld", "Kor", "Thorn", "Mar", "Sel", "Drak"]

/-- The suffix pool of `_make_realm_name`. -/
def realmNameSuffixList : List String :=
  ["hold", "reach", "marches", "realm", "clan", "throne", "dominion"]

/-- `_make_realm_name`: two `choice` draws concatenated. -/
def make_realm_name (r : Rng) : String × Rng :=
  let (p, r) := r.choiceT realmNamePrefixList ""
  let (sfx, r) := r.choiceT realmNameSuffixList ""
  (p ++ sfx, r)

/-- One lowercase hex digit. -/
def hexDigit (n : Nat) : String :=
  ["0", "1", "2", "3", "4", "5", "6", "7", "8", "9", "a", "b", "c", "d",
   "e", "f"].getD n "0"

/-- Two-digit lowercase hex (`{v:02x}` for `v ∈ [80, 220]`). -/
def hex2 (n : Int) : String := hexDigit (n.toNat / 16) ++ hexDigit (n.toNat % 16)

/-- `_random_color`: three `randint(80, 220)` draws formatted as hex. -/
def random_color (r : Rng) : String × Rng :=
  let (a, r) := r.randintT 80 220
  let (g, r) := r.randintT 80 220
  let (b, r) := r.randintT 80 220
  ("#" ++ hex2 a ++ hex2 g ++ hex2 b, r)

/-- A fresh realm record as the dict literals of `_spawn_initial_realms`
and `_random_crisis` build it. -/
def mkRealm (rid name color : String) (founded : Nat) (culture : String)
    (notes : List String) : Realm :=
  { id := rid, name := name, color := color, capital_settlement_id := none,
    founded_year := founded, dissolved_year := none, culture := culture,
    notes := notes, strength := none }

/-- Indices of the fertile tiles (`not water`, biome in
{grassland, temperate_forest, wetlands}), in scan order. -/
def fertileIdxList (tiles : List Tile) : List Nat :=
  (List.range tiles.length).filter (fun i =>
    let t := tileAt tiles i
    !t.water && decide (t.biome = .grassland ∨ t.biome = .temperate_forest ∨
                        t.biome = .wetlands))

/-- The accepted-seed branch of the placement loop of
`_spawn_initial_realms`: create the realm record (name then color draws)
and claim the tile. -/
def spawnAccept (fertile : List Nat) (i : Nat) (s : GenState) : GenState :=
  let ti := fertile.getD i 0
  let t := tileAt s.tiles ti
  let rid := "realm_" ++ toString (s.realms.length + 1)
  let nc := make_realm_name s.rng
  let cc := random_color nc.2
  { s with realms := s.realms ++ [mkRealm rid nc.1 cc.1 0 "lowland" []],
           tiles := s.tiles.set ti { t with realm_id := some rid },
           rng := cc.2 }

/-- The seed-placement loop of `_spawn_initial_realms`
(`for i in range(target_realms * 2)` with its two breaks and the
Manhattan-distance rejection).  The second component of the result is the
loop's `used` list — the coordinates of the accepted seed tiles — returned
as a ghost observation. -/
def spawnLoop (target : Nat) (fertile : List Nat) :
    Nat → Nat → List (Nat × Nat) → GenState → GenState × List (Nat × Nat)
  | 0, _, used, s => (s, used)
  | rem + 1, i, used, s =>
    if target ≤ s.realms.length then (s, used)
    else if fertile.length ≤ i then (s, used)
    else
      let ti := fertile.getD i 0
      let t := tileAt s.tiles ti
      if used.any (fun u =>
          (((t.x : Int) - (u.1 : Int)).natAbs +
           ((t.y : Int) - (u.2 : Int)).natAbs) < 6) then
        spawnLoop target fertile rem (i + 1) used s
      else
        spawnLoop target fertile rem (i + 1) (used ++ [(t.x, t.y)])
          (spawnAccept fertile i s)

/-- `_spawn_initial_realms`: shuffle the fertile pool, run the placement
loop, and force one realm on the first fertile tile if none was placed. -/
def spawn_initial_realms (s : GenState) : GenState :=
  let sh := s.rng.shuffle (fertileIdxList s.tiles)
  let target := max 2 (min 6 (s.width * s.height / 1200))
  let s1 := (spawnLoop target sh.1 (target * 2) 0 [] { s with rng := sh.2 }).1
  if s1.realms = [] ∧ sh.1 ≠ [] then
    let ti := sh.1.getD 0 0
    let t := tileAt s1.tiles ti
    let nc := make_realm_name s1.rng
    let cc := random_color nc.2
    let realm := mkRealm "realm_1" nc.1 cc.1 0 "lowland" []
    { s1 with realms := [realm],
              tiles := s1.tiles.set ti { t with realm_id := some "realm_1" },
              rng := cc.2 }
  else s1

/-- Look a realm up by id (`self.realms.get(rid)`). -/
def findRealm (s : GenState) (rid : String) : Option Realm :=
  s.realms.find? (fun r => r.id == rid)

/-- Mutate the realm record with the given id in place. -/
def updateRealm (s : GenState) (rid : String) (f : Realm → Realm) : GenState :=
  { s with realms := s.realms.map (fun r => if r.id = rid then f r else r) }

/-- Append a tile index to its realm's bucket, keeping first-encounter
order of realms (Python dict insertion order). -/
def insertByRealm : List (String × List Nat) → String → Nat →
    List (String × List Nat)
  | [], rid, i => [(rid, [i])]
  | (r, l) :: rest, rid, i =>
      if r = rid then (r, l ++ [i]) :: rest
      else (r, l) :: insertByRealm rest rid i

/-- `tiles_by_realm`: bucket the owned tile indices by realm in scan
order (the snapshot both `_realm_expansion_tick` and
`_derive_settlements` compute first). -/
def tilesByRealm (s : GenState) : List (String × List Nat) :=
  (List.range s.tiles.length).foldl
    (fun acc i =>
      match (tileAt s.tiles i).realm_id with
      | none => acc
      | some rid => insertByRealm acc rid i)
    []

/-- Snapshot bucket lookup (`tiles_by_realm.get(other_id, [])`). -/
def lookupRealmTiles (byR : List (String × List Nat)) (rid : String) :
    List Nat :=
  ((byR.find? (fun p => p.1 == rid)).map (·.2)).getD []

/-- One neighbor inspection of the expansion pass (`for n in
self._neighbors(...)` body): skip water and mountain, always annex
unclaimed, annex another realm's tile when the draw falls under
`0.4 * size / (size + other_size)`. -/
def expandVisitStep (byR : List (String × List Nat)) (rid : String)
    (size : Nat) (c : Nat × Nat) (acc : GenState × Nat) : GenState × Nat :=
  let ni := gridIdx acc.1.width c.1 c.2
  let n := tileAt acc.1.tiles ni
  if n.water ∨ n.biome = .mountain then acc
  else
    match n.realm_id with
    | none =>
        ({ acc.1 with
             tiles := acc.1.tiles.set ni { n with realm_id := some rid } },
         acc.2 + 1)
    | some other =>
        if other = rid then acc
        else
          let ol := (lookupRealmTiles byR other).length
          let other_size := if ol = 0 then 1 else ol
          let chance : Frac :=
            fr 4 10 * (natF size / (natF size + natF other_size))
          let v := acc.1.rng.random
          if v.1 < chance then
            ({ acc.1 with
                 tiles := acc.1.tiles.set ni { n with realm_id := some rid },
                 rng := v.2 },
             acc.2 + 1)
          else ({ acc.1 with rng := v.2 }, acc.2)

/-- The whole neighbor loop of one source tile: fold `expandVisitStep`
over the neighbor coordinates, threading state and the `grown` counter. -/
def expandVisit (byR : List (String × List Nat)) (rid : String)
    (size : Nat) :
    List (Nat × Nat) → GenState → Nat → GenState × Nat
  | [], st, grown => (st, grown)
  | c :: rest, st, grown =>
      let acc := expandVisitStep byR rid size c (st, grown)
      expandVisit byR rid size rest acc.1 acc.2

/-- The per-realm source-tile loop of the expansion pass, with its two
breaks (`grown >= desired_growth` checked before each tile,
`attempts > desired_growth * 6` checked after each tile); returns the
final state and the final `grown` counter. -/
def expandLoop (byR : List (String × List Nat)) (rid : String)
    (size desired : Nat) :
    List Nat → Nat → Nat → GenState → GenState × Nat
  | [], grown, _, st => (st, grown)
  | ti :: rest, grown, attempts, st =>
    if desired ≤ grown then (st, grown)
    else
      let t := tileAt st.tiles ti
      let v :=
        expandVisit byR rid size (neighborCoords st.width st.height t.x t.y)
          st grown
      if desired * 6 < attempts + 1 then v
      else expandLoop byR rid size desired rest v.2 (attempts + 1) v.1

/-- The per-realm body of `_realm_expansion_tick`: shuffle the owned
tiles, run the expansion loop, then the empire-peak check against the
snapshot size. -/
def tickRealm (byR : List (String × List Nat)) (year : Nat)
    (st : GenState) (p : String × List Nat) : GenState :=
  let rid := p.1
  let realm_tiles := p.2
  let size := realm_tiles.length
  match findRealm st rid with
  | none => st
  | some realm =>
    let desired := max 1 (size / 12)
    let sh := st.rng.shuffle realm_tiles
    let st := (expandLoop byR rid size desired sh.1 0 0
      { st with rng := sh.2 }).1
    if (natF (st.width * st.height) * fr 18 100 < natF size) ∧
       (∀ e ∈ st.events, ¬(e.type = "EMPIRE_PEAK" ∧ rid ∈ e.realm_ids)) then
      let st := updateRealm st rid (fun rr =>
        { rr with notes := rr.notes ++
            ["Once ruled as a dominant realm around year " ++
             toString year ++ "."] })
      { st with events := st.events ++
          [{ id := "event_empire_" ++ rid ++ "_" ++ toString year,
             year := year, type := "EMPIRE_PEAK", realm_ids := [rid],
             settlement_id := none,
             summary := realm.name ++ " reached its greatest extent." }] }
    else st

/-- `_realm_expansion_tick`: fold the per-realm body over the realm
buckets in snapshot order. -/
def realm_expansion_tick (s : GenState) (year : Nat) : GenState :=
  (tilesByRealm s).foldl (tickRealm (tilesByRealm s) year) s

/-- `_realm_tile_count`. -/
def realm_tile_count (s : GenState) (rid : String) : Nat :=
  (s.tiles.filter (fun t => t.realm_id == some rid)).length

/-- `_is_border_tile`: owned, with some neighbor owned differently (or
unclaimed). -/
def is_border_tile (s : GenState) (t : Tile) : Bool :=
  match t.realm_id with
  | none => false
  | some rid =>
      (neighborCoords s.width s.height t.x t.y).any
        (fun c =>
          !((tileAt s.tiles (gridIdx s.width c.1 c.2)).realm_id == some rid))

/-- Append one crisis event record. -/
def appendEvent (s : GenState) (ctype rid : String) (year : Nat)
    (summary : String) : GenState :=
  { s with events := s.events ++
      [{ id := "event_" ++ ctype ++ "_" ++ rid ++ "_" ++ toString year,
         year := year, type := ctype, realm_ids := [rid],
         settlement_id := none, summary := summary }] }

/-- `_random_crisis`: pick a realm that still owns tiles, pick a crisis
type; PLAGUE/SUCCESSION strip a fraction of border tiles, CIVIL_WAR
splinters a new realm with half the tiles. -/
def random_crisis (s : GenState) (year : Nat) : GenState :=
  let realm_ids := (s.realms.filter (fun r => 0 < realm_tile_count s r.id)).map (·.id)
  if realm_ids = [] then s
  else
    let (rid, rng) := s.rng.choiceT realm_ids ""
    let s := { s with rng := rng }
    match findRealm s rid with
    | none => s
    | some realm =>
      let tidx := (List.range s.tiles.length).filter
        (fun i => (tileAt s.tiles i).realm_id == some rid)
      if tidx = [] then s
      else
        let (ctype, rng) := s.rng.choiceT ["PLAGUE", "CIVIL_WAR", "SUCCESSION"] ""
        let s := { s with rng := rng }
        if ctype = "PLAGUE" ∨ ctype = "SUCCESSION" then
          let border := tidx.filter (fun i => is_border_tile s (tileAt s.tiles i))
          if border = [] then s
          else
            let (border, rng) := s.rng.shuffle border
            let (rdiv, rng) := rng.randintT 6 10
            let cut := max 1 (tidx.length / rdiv.toNat)
            let tiles := (border.take cut).foldl
              (fun ts i => ts.set i { tileAt ts i with realm_id := none })
              s.tiles
            appendEvent { s with tiles := tiles, rng := rng } ctype rid year
              (realm.name ++ " lost territory to internal crisis.")
        else
          if 8 < s.realms.length ∨ tidx.length < 12 then s
          else
            let new_id := "realm_" ++ toString (s.realms.length + 1)
            let (name, rng) := make_realm_name s.rng
            let (color, rng) := random_color rng
            let newRealm := mkRealm new_id name color year realm.culture
              ["Splintered from " ++ realm.name ++ " in civil war."]
            let s := { s with realms := s.realms ++ [newRealm], rng := rng }
            let (shuf, rng) := s.rng.shuffle tidx
            let tiles := (shuf.take (tidx.length / 2)).foldl
              (fun ts i => ts.set i { tileAt ts i with realm_id := some new_id })
              s.tiles
            appendEvent { s with tiles := tiles, rng := rng } ctype rid year
              ("Civil war split " ++ realm.name ++ ", creating " ++ name ++ ".")

/-- Give every realm the transient `strength` key. -/
def setStrengths (s : GenState) : GenState :=
  { s with realms := s.realms.map (fun r => { r with strength := some (fr 1 1) }) }

/-- Pop the transient `strength` key from every realm. -/
def clearStrengths (s : GenState) : GenState :=
  { s with realms := s.realms.map (fun r => { r with strength := none }) }

/-- The `while current_year < self.years` loop of `_simulate_history`
(fuel `years + 1` always suffices since the step is at least 10). -/
def simLoop (step : Nat) : Nat → Nat → GenState → GenState
  | 0, _, s => s
  | fuel + 1, current, s =>
    if current < s.years then
      let current' := current + step
      let s := realm_expansion_tick s current'
      let (v, rng) := s.rng.random
      let s := { s with rng := rng }
      let s := if v < fr 35 100 then random_crisis s current' else s
      simLoop step fuel current' s
    else s

/-- `_simulate_history`. -/
def simulate_history (s : GenState) : GenState :=
  if s.realms = [] then s
  else
    let step := max 10 (s.years / 30)
    let s := setStrengths s
    clearStrengths (simLoop step (s.years + 1) 0 s)

/-- `_most_central_tile` over candidate indices: first index minimising the
squared distance to the candidates' centroid (Python `min` keeps the first
minimum; an empty candidate list falls back to `self.tiles[0]`, i.e.
index 0 — all call sites pass nonempty lists). -/
def most_central_tile (tiles : List Tile) (cand : List Nat) : Nat :=
  match cand with
  | [] => 0
  | c0 :: cs =>
    let n : Frac := natF cand.length
    let ax := (cand.map (fun i => natF (tileAt tiles i).x)).foldl (· + ·) (fr 0 1) / n
    let ay := (cand.map (fun i => natF (tileAt tiles i).y)).foldl (· + ·) (fr 0 1) / n
    let key := fun i =>
      let ddx := natF (tileAt tiles i).x - ax
      let ddy := natF (tileAt tiles i).y - ay
      ddx * ddx + ddy * ddy
    cs.foldl (fun best i => if key i < key best then i else best) c0

/-- `_pop_estimate`. -/
def pop_estimate (stype : String) (r : Rng) : Int × Rng :=
  if stype = "city" then r.randintT 8000 25000
  else if stype = "town" then r.randintT 1500 6000
  else if stype = "fort" then r.randintT 400 1800
  else r.randintT 200 800

/-- Modelled from the spec: the collaborator module `settlement_namegen.py`
and its data file `settlement_name_data.json` are not under `src/`.  The
spec's contract (§6) is `generate_name(kind, sharedRandomStream) -> string`
which "MUST consume only the stream handed to it and must not create an
independent random source".  We model it as a deterministic function of
the kind tag and one draw of the shared stream. -/
def settlementNamerGenerateName (kind : String) (r : Rng) : String × Rng :=
  let (k, r') := r.next
  (kind ++ "_name_" ++ toString (k % 1000), r')

/-- Fertile-biome test shared by `_spawn_initial_realms` and
`_derive_settlements`. -/
def isFertileBiome (b : Biome) : Prop :=
  b = .grassland ∨ b = .temperate_forest ∨ b = .wetlands

instance (b : Biome) : Decidable (isFertileBiome b) := by
  unfold isFertileBiome; infer_instance

/-- The body run by the secondary-settlement loop when it places a
settlement on tile `ti` (town/fort split, tag assembly, tile claim). -/
def settlementPlace (rid : String) (years ti sid : Nat) (st : GenState) :
    GenState :=
  let t := tileAt st.tiles ti
  let v := st.rng.random
  let stype := if v.1 < fr 7 10 then "town" else "fort"
  let sidStr := "settlement_" ++ toString sid
  let nm := settlementNamerGenerateName stype v.2
  let fd := nm.2.randintT 10 ((max 20 (years / 2) : Nat) : Int)
  let pp := pop_estimate stype fd.2
  let tags := (if stype = "fort" then ["fortress"] else []) ++
              (if t.river then ["river_trade"] else []) ++
              (if t.biome = .wetlands then ["marsh_edge"] else [])
  let sett : Settlement :=
    { id := sidStr, name := nm.1, type := stype, tile := (t.x, t.y),
      realm_id := rid, founded_year := fd.1, population := pp.1,
      tags := tags, history := [] }
  { st with
    settlements := st.settlements ++ [sett],
    tiles := st.tiles.set ti { t with settlement_id := some sidStr },
    rng := pp.2 }

/-- The secondary-settlement loop of `_derive_settlements` (scored shuffled
tiles, skip settled/water/zero-score tiles). -/
def settlementExtraLoop (rid : String) (extra years : Nat) :
    List Nat → Nat → Nat → GenState → GenState × Nat
  | [], _, sid, st => (st, sid)
  | ti :: rest, placed, sid, st =>
    if extra ≤ placed then (st, sid)
    else
      let t := tileAt st.tiles ti
      if t.settlement_id.isSome ∨ t.water then
        settlementExtraLoop rid extra years rest placed sid st
      else
        let score := (if t.river then 2 else 0) +
                     (if isFertileBiome t.biome then 1 else 0)
        if score = 0 then settlementExtraLoop rid extra years rest placed sid st
        else
          settlementExtraLoop rid extra years rest (placed + 1) (sid + 1)
            (settlementPlace rid years ti sid st)

/-- The per-realm body of `_derive_settlements`: capital at the most
central fertile tile (fallback: all owned tiles), then up to
`min(3, max(1, size // 80))` secondary settlements. -/
def deriveSettlementsRealm (st : GenState) (sid : Nat) (rid : String)
    (realm_tiles : List Nat) : GenState × Nat :=
  if realm_tiles = [] then (st, sid)
  else
    let fertile := realm_tiles.filter (fun i =>
      let t := tileAt st.tiles i
      !t.water && decide (isFertileBiome t.biome))
    let candidates := if fertile = [] then realm_tiles else fertile
    let capIdx := most_central_tile st.tiles candidates
    let capId := "settlement_" ++ toString sid
    let (capName, rng) := settlementNamerGenerateName "capital" st.rng
    let (pop, rng) := pop_estimate "city" rng
    let capTile := tileAt st.tiles capIdx
    let realmName := ((findRealm st rid).map (·.name)).getD ""
    let capital : Settlement :=
      { id := capId, name := capName, type := "city",
        tile := (capTile.x, capTile.y), realm_id := rid, founded_year := 0,
        population := pop, tags := ["capital"],
        history := ["Founded as the seat of " ++ realmName ++ "."] }
    let st := { st with settlements := st.settlements ++ [capital], rng := rng }
    let st := updateRealm st rid
      (fun rr => { rr with capital_settlement_id := some capId })
    let st := { st with
      tiles := st.tiles.set capIdx { capTile with settlement_id := some capId } }
    let size := realm_tiles.length
    let extra := min 3 (max 1 (size / 80))
    let (shuf, rng) := st.rng.shuffle realm_tiles
    settlementExtraLoop rid extra st.years shuf 0 (sid + 1) { st with rng := rng }

/-- `_derive_settlements`. -/
def derive_settlements (s : GenState) : GenState :=
  let byR := tilesByRealm s
  (byR.foldl
    (fun (acc : GenState × Nat) p => deriveSettlementsRealm acc.1 acc.2 p.1 p.2)
    (s, 1)).1

/-- The while-loop of `_line_between` (Bresenham with an error
accumulator); the fuel `|x1-x0| + |y1-y0| + 1` always suffices, see
`bresLoop_reaches`. -/
def bresLoop (x1 y1 dx dy sx sy : Int) :
    Nat → Int → Int → Int → List (Int × Int) → List (Int × Int)
  | 0, _, _, _, pts => pts
  | fuel + 1, x, y, err, pts =>
    let pts' := pts ++ [(x, y)]
    if x = x1 ∧ y = y1 then pts'
    else
      let e2 := 2 * err
      let p1 : Int × Int := if dy ≤ e2 then (err + dy, x + sx) else (err, x)
      let p2 : Int × Int := if e2 ≤ dx then (p1.1 + dx, y + sy) else (p1.1, y)
      bresLoop x1 y1 dx dy sx sy fuel p1.2 p2.2 p2.1 pts'

/-- `_line_between`: inclusive integer line rasterisation. -/
def line_between (x0 y0 x1 y1 : Int) : List (Int × Int) :=
  let dx : Int := |x1 - x0|
  let dy : Int := -|y1 - y0|
  let sx : Int := if x0 < x1 then 1 else -1
  let sy : Int := if y0 < y1 then 1 else -1
  bresLoop x1 y1 dx dy sx sy ((x1 - x0).natAbs + (y1 - y0).natAbs + 1)
    x0 y0 (dx + dy) []

/-- The per-realm body of `_derive_roads`: one road from the realm's
capital to each other settlement of that realm, in settlement creation
order. -/
def roadsRealm (st : GenState) (realm : Realm) : GenState :=
  match realm.capital_settlement_id with
  | none => st
  | some capId =>
    match st.settlements.find? (fun q => q.id == capId) with
    | none => st
    | some cap =>
      let newRoads := st.settlements.filterMap (fun q =>
        if q.realm_id = realm.id ∧ q.id ≠ capId then
          some { road_from := capId, road_to := q.id,
                 tiles := line_between (cap.tile.1 : Int) (cap.tile.2 : Int)
                   (q.tile.1 : Int) (q.tile.2 : Int),
                 type := "road" }
        else none)
      { st with roads := st.roads ++ newRoads }

/-- `_derive_roads`: fold the per-realm body over the realm list. -/
def derive_roads (s : GenState) : GenState :=
  s.realms.foldl roadsRealm s

/-- The ruin-creation loop of `_derive_ruins`; `randint(max(5, years//4),
years)` is the one `randint` whose range can be empty, hence the
`Option`. -/
def ruinLoop (border : List Nat) (years : Nat) :
    Nat → Nat → GenState → Option GenState
  | 0, _, s => some s
  | k + 1, i, s =>
    let nr := settlementNamerGenerateName "ruin" s.rng
    match nr.2.randintChecked (max 5 ((years / 4 : Nat) : Int)) (years : Int) with
    | none => none
    | some p =>
      let cz := p.2.choiceT ["CIVIL_WAR", "RAID", "PLAGUE", "ARCANE_DISASTER"] ""
      let t := tileAt s.tiles (border.getD i 0)
      let ruin : Ruin :=
        { id := "ruin_" ++ toString (i + 1), name := nr.1, tile := (t.x, t.y),
          origin_settlement_id := none, destroyed_year := p.1, cause := cz.1,
          tags := ["haunted", "contested_border"],
          notes := ["Legends speak of lost crowns and unquiet dead."] }
      ruinLoop border years k (i + 1)
        { s with ruins := s.ruins ++ [ruin], rng := cz.2 }

/-- `_derive_ruins`: shuffle the unsettled non-water border tiles and
create `min(5, count // 30)` ruins. -/
def derive_ruins (s : GenState) : Option GenState :=
  let border := (List.range s.tiles.length).filter (fun i =>
    let t := tileAt s.tiles i
    !t.water && is_border_tile s t && t.settlement_id.isNone)
  let (border, rng) := s.rng.shuffle border
  let target := min 5 (border.length / 30)
  ruinLoop border s.years target 0 { s with rng := rng }

/-- `biome_colors.get(biome, "#000000")` of `_build_color_map`. -/
def biomeColor : Biome → String
  | .mountain => "#888888"
  | .highland => "#aa8c5f"
  | .grassland => "#7fbf3f"
  | .temperate_forest => "#2e8b57"
  | .wetlands => "#3b6b6b"
  | .desert => "#d9c27f"
  | .ocean => "#000000"

/-- Per-tile display color with the source's precedence: ruin >
settlement > water (deep/shallow) > river > biome.  Dict lookup by
position takes the last-inserted settlement, like Python dict
comprehension overwrites. -/
def tileColor (s : GenState) (x y : Nat) : String :=
  let t := tileAt s.tiles (gridIdx s.width x y)
  let pos := (x, y)
  if s.ruins.any (fun r => r.tile == pos) then "#cc6666"
  else
    match s.settlements.reverse.find? (fun st => st.tile == pos) with
    | some st =>
      if st.type = "city" then "#ffcc00"
      else if st.type = "town" then "#ffd966"
      else if st.type = "fort" then "#ff9900"
      else "#ffd966"
    | none =>
      if t.water then
        if t.elevation < s.base_sea_level * fr 6 10 then "#1b3b6f" else "#3465a4"
      else if t.river then "#3f8dd9"
      else biomeColor t.biome

/-- The row-major color grid of `_build_color_map`. -/
def build_color_rows (s : GenState) : List (List String) :=
  (List.range s.height).map (fun y =>
    (List.range s.width).map (fun x => tileColor s x y))

/-- The color legend of `_build_color_map`, in source key order. -/
def colorLegend : List (String × String) :=
  [("#1b3b6f", "deep_ocean"), ("#3465a4", "shallow_ocean"),
   ("#3f8dd9", "river"), ("#7fbf3f", "grassland"),
   ("#2e8b57", "temperate_forest"), ("#aa8c5f", "highland"),
   ("#888888", "mountain"), ("#d9c27f", "desert"), ("#3b6b6b", "wetlands"),
   ("#ffcc00", "city"), ("#ffd966", "town"), ("#ff9900", "fort"),
   ("#cc6666", "ruin")]

/-- The output document (schema `region.v1`). -/
structure RegionDoc where
  schema : String
  seed : Nat
  width : Nat
  height : Nat
  years : Nat
  mode : String
  tiles : List Tile
  realms : List Realm
  settlements : List Settlement
  roads : List Road
  ruins : List Ruin
  events : List Event
  color_rows : List (List String)
  color_legend : List (String × String)
deriving DecidableEq, Repr

/-- Assemble the returned document of `generate_region`. -/
def mkDoc (s : GenState) : RegionDoc :=
  { schema := "region.v1", seed := s.seed, width := s.width,
    height := s.height, years := s.years, mode := s.mode, tiles := s.tiles,
    realms := s.realms, settlements := s.settlements, roads := s.roads,
    ruins := s.ruins, events := s.events,
    color_rows := build_color_rows s, color_legend := colorLegend }

/-- `RegionGenerator.__init__`: the fresh state.  `tape` abstracts the
stream of `random.Random(seed)`; an unrecognised mode falls back to
`"continent"`. -/
def initState (width height years seed : Nat) (sea_level : Frac) (mode : String)
    (tape : Nat → Nat) : GenState :=
  { width := width, height := height, years := years,
    base_sea_level := sea_level,
    mode := if mode = "continent" ∨ mode = "archipelago" then mode
            else "continent",
    seed := seed, tiles := [], realms := [], settlements := [], events := [],
    roads := [], ruins := [], rng := { tape := tape, pos := 0 } }

/-- `RegionGenerator.generate_region`: the full pipeline in fixed stage
order.  The result is a pure function of
`(width, height, years, seed, sea_level, mode)` — with the seed entering
only through its stream `tape` and the reported `seed` field — and is
`none` exactly when `_derive_ruins` would raise `ValueError`. -/
def generate_region (width height years seed : Nat) (sea_level : Frac)
    (mode : String) (tape : Nat → Nat) : Option RegionDoc :=
  let s := initState width height years seed sea_level mode tape
  let s := generate_base_tiles s
  let s := spawn_initial_realms s
  let s := simulate_history s
  let s := derive_settlements s
  let s := derive_roads s
  match derive_ruins s with
  | none => none
  | some s' => some (mkDoc s')

/-! ### Concrete states and tapes used by witnesses and counterexamples -/

instance : Inhabited Ruin :=
  ⟨{ id := "", name := "", tile := (0, 0), origin_settlement_id := none,
     destroyed_year := 0, cause := "", tags := [], notes := [] }⟩

/-- A mid-run tile for crafted states: fertile grassland land. -/
def mkLandTile (x y : Nat) (rid : Option String) : Tile :=
  { x := x, y := y, elevation := fr 500 1000, moisture := fr 300 1000,
    biome := .grassland, water := false, river := false, realm_id := rid,
    settlement_id := none }

/-- A 32×1 state with two realms owning alternating tiles: all 32 tiles are
unsettled non-water border tiles, so `_derive_ruins` attempts one ruin.
With `years = 1` the `randint(max(5, years // 4), years)` range is
`randint(5, 1)`, which raises `ValueError` in Python. -/
def c3Crash : GenState :=
  { width := 32, height := 1, years := 1, base_sea_level := fr 35 100,
    mode := "continent", seed := 0,
    tiles := (List.range 32).map (fun i =>
      mkLandTile i 0 (some (if i % 2 = 0 then "realm_1" else "realm_2"))),
    realms := [mkRealm "realm_1" "Ashenhold" "#505050" 0 "lowland" [],
               mkRealm "realm_2" "Greyreach" "#505050" 0 "lowland" []],
    settlements := [], events := [], roads := [], ruins := [],
    rng := ⟨fun _ => 0, 0⟩ }

/-- The same state with `years = 9 ≥ 5`: ruin derivation succeeds. -/
def c3Good : GenState := { c3Crash with years := 9 }

/-- The state `_derive_ruins` returns on `c3Good`. -/
def c3GoodOut : GenState := (derive_ruins c3Good).getD c3Good

/-- The ruins produced on `c3Good`. -/
def c3GoodOutRuins : List Ruin := c3GoodOut.ruins

/-- The single ruin produced on `c3Good`. -/
def c3GoodRuin : Ruin := c3GoodOutRuins.getD 0 default

/-- Tape for the C4 counterexample run (6×4, years = 50, seed stream chosen
adversarially; all unlisted draws are `2 ^ 52`, i.e. `random() = 0.5`).
It shapes a map with two realms six tiles apart, lets `realm_2` grow to 5
tiles by the end of the year-40 tick, and has `realm_1` (processed first)
annex one `realm_2` tile early in the year-50 tick, so that the
EMPIRE_PEAK check for `realm_2` fires on the stale snapshot size 5 while
its territory at that moment is only 4 of 24 tiles (under 18%). -/
def c4TapeList : List (Nat × Nat) :=
  [(3, 2 ^ 53 - 1), (4, 2 ^ 53 - 1), (9, 0), (10, 0), (21, 0), (22, 0),
   (30, 0), (31, 0), (39, 0), (40, 0), (60, 0), (61, 0), (63, 0), (64, 0),
   (66, 2 ^ 53 - 1), (67, 2 ^ 53 - 1), (85, 1), (86, 2), (87, 1), (99, 0),
   (100, 1), (102, 0), (103, 1), (104, 2), (105, 1), (115, 2), (116, 1),
   (117, 0), (118, 0), (120, 0), (121, 1), (122, 0)]

/-- The C4 tape as a stream. -/
def c4Tape : Nat → Nat :=
  fun n => ((c4TapeList.find? (fun p => p.1 == n)).map (·.2)).getD (2 ^ 52)

/-- The C4 run just after realm spawning. -/
def c4AfterSpawn : GenState :=
  spawn_initial_realms (generate_base_tiles
    (initState 6 4 50 7 (fr 35 100) "continent" c4Tape))

/-- One iteration body of the `_simulate_history` while-loop (tick, then
the 35% crisis roll), exactly as `simLoop` performs it. -/
def simLoopStep (s : GenState) (year : Nat) : GenState :=
  let s := realm_expansion_tick s year
  let (v, rng) := s.rng.random
  let s := { s with rng := rng }
  if v < fr 35 100 then random_crisis s year else s

/-- The C4 run just before the year-50 tick (after the ticks of years
10, 20, 30 and 40). -/
def c4Pre : GenState :=
  simLoopStep (simLoopStep (simLoopStep (simLoopStep
    (setStrengths c4AfterSpawn) 10) 20) 30) 40

/-- The C4 run just after the year-50 expansion tick — the moment the
EMPIRE_PEAK event for `realm_2` is appended (`realm_2` is the last realm
the tick processes, so nothing in the tick runs after its check). -/
def c4Post : GenState := realm_expansion_tick c4Pre 50

/-- The EMPIRE_PEAK event the year-50 tick appends for `realm_2`. -/
def c4Event : Event :=
  { id := "event_empire_realm_2_50", year := 50, type := "EMPIRE_PEAK",
    realm_ids := ["realm_2"], settlement_id := none,
    summary := "Selmarches reached its greatest extent." }

/-- Tape for the C8 counterexample run (9×3, years = 0; all unlisted draws
are `2 ^ 52`).  The draws at positions 30/31 push tile `(1, 1)` above sea
level while 33/34 sink tile `(2, 1)`, leaving `(1, 1)` a one-tile island:
the connectivity enforcer converts it to ocean even though its stored
elevation stays `0.434 ≥ 0.35`. -/
def c8Tape : Nat → Nat :=
  fun n =>
    if n = 30 ∨ n = 31 then 2 ^ 53 - 1
    else if n = 33 ∨ n = 34 then 0
    else 2 ^ 52

/-- "Manhattan distance at least 6" between two seed coordinates — the
acceptance relation of `_spawn_initial_realms`. -/
def farApart (u v : Nat × Nat) : Prop :=
  6 ≤ (((u.1 : Int) - (v.1 : Int)).natAbs + ((u.2 : Int) - (v.2 : Int)).natAbs)

instance (u v : Nat × Nat) : Decidable (farApart u v) := by
  unfold farApart; infer_instance

/-- A 32×1 all-fertile unclaimed state (C7 witness input). -/
def c7State : GenState :=
  { c3Crash with
    realms := [],
    tiles := (List.range 32).map (fun i => mkLandTile i 0 none) }

/-- An all-water tile for crafted grids. -/
def mkOceanTile (x y : Nat) : Tile :=
  { x := x, y := y, elevation := fr 200 1000, moisture := fr 300 1000,
    biome := .ocean, water := true, river := false, realm_id := none,
    settlement_id := none }

/-- A 3×1 state whose middle tile is `realm_1`'s only tile, flanked by two
unclaimed grassland tiles: desired growth is `max 1 (1 / 12) = 1`, yet one
expansion tick annexes both neighbors, because the growth check runs only
between tile-visits, not between neighbor annexations. -/
def c5aState : GenState :=
  { width := 3, height := 1, years := 10, base_sea_level := fr 35 100,
    mode := "continent", seed := 0,
    tiles := [mkLandTile 0 0 none, mkLandTile 1 0 (some "realm_1"),
              mkLandTile 2 0 none],
    realms := [mkRealm "realm_1" "Ashenhold" "#505050" 0 "lowland" []],
    settlements := [], events := [], roads := [], ruins := [],
    rng := ⟨fun _ => 0, 0⟩ }

/-- A 9×3 state: `realm_1` owns the seven tiles `(1,1) … (7,1)`, the tile
`(8,1)` is unclaimed grassland, and every other tile is ocean.  The tape
values `6,5,4,3,2,1` make the shuffle of the seven owned tiles the
identity, so the only annexable neighbor is inspected on the seventh
tile-visit — one past the claimed cap of `desired_growth * 6 = 6`. -/
def c5bState : GenState :=
  { width := 9, height := 3, years := 10, base_sea_level := fr 35 100,
    mode := "continent", seed := 0,
    tiles := (List.range 27).map (fun i =>
      let x := i % 9
      let y := i / 9
      if y = 1 ∧ 1 ≤ x ∧ x ≤ 7 then mkLandTile x y (some "realm_1")
      else if y = 1 ∧ x = 8 then mkLandTile x y none
      else mkOceanTile x y),
    realms := [mkRealm "realm_1" "Ashenhold" "#505050" 0 "lowland" []],
    settlements := [], events := [], roads := [], ruins := [],
    rng := ⟨fun p => [6, 5, 4, 3, 2, 1].getD p 0, 0⟩ }

/-- The realm buckets of `c5bState`. -/
def c5bByR : List (String × List Nat) := tilesByRealm c5bState

/-- The shuffle of `realm_1`'s owned tiles performed by the tick on
`c5bState` (the identity permutation under this tape). -/
def c5bShuf : List Nat × Rng :=
  c5bState.rng.shuffle (lookupRealmTiles c5bByR "realm_1")

/-- `c5bState` with its stream advanced past the shuffle — the state the
expansion loop starts from inside the tick. -/
def c5bSt0 : GenState := { c5bState with rng := c5bShuf.2 }

/-- Equality of all tile fields except `realm_id` and `settlement_id` —
the only fields any stage after river carving ever writes. -/
def coreEq (t t' : Tile) : Prop :=
  t'.x = t.x ∧ t'.y = t.y ∧ t'.elevation = t.elevation ∧
  t'.moisture = t.moisture ∧ t'.biome = t.biome ∧ t'.water = t.water ∧
  t'.river = t.river

/-- Stronger tile-level preservation used for the expansion pass: the
core fields never change, and a water or mountain tile is left entirely
untouched. -/
def tilePres (t t' : Tile) : Prop :=
  coreEq t t' ∧ (t.water = true ∨ t.biome = .mountain → t' = t)

/-- Two adjacent land tiles of equal elevation `0.62` (both above the
river-source threshold `0.6`, both non-water): a river walk between them
can never stop on water or uphill. -/
def c6Tiles : List Tile :=
  [{ x := 0, y := 0, elevation := fr 62 100, moisture := fr 300 1000,
     biome := .grassland, water := false, river := false, realm_id := none,
     settlement_id := none },
   { x := 1, y := 0, elevation := fr 62 100, moisture := fr 300 1000,
     biome := .grassland, water := false, river := false, realm_id := none,
     settlement_id := none }]

/-- The 2×1 all-land state built from `c6Tiles`. -/
def c6State : GenState :=
  { width := 2, height := 1, years := 10, base_sea_level := fr 35 100,
    mode := "continent", seed := 0, tiles := c6Tiles, realms := [],
    settlements := [], events := [], roads := [], ruins := [],
    rng := ⟨fun _ => 0, 0⟩ }

/-- The 80-step river walk from `(0,0)` on `c6Tiles`: it oscillates
between the two equal-elevation tiles until the step budget runs out. -/
def c6Walk : List Tile × Rng × Nat × RiverStop :=
  riverWalk 2 1 80 0 0 c6Tiles ⟨fun _ => 0, 0⟩

/-- The number of EMPIRE_PEAK events recorded for a realm — the measure
the spec's "at most one EMPIRE_PEAK event per realm" is stated with. -/
def countEmpire (events : List Event) (rid : String) : Nat :=
  (events.filter
    (fun e => e.type == "EMPIRE_PEAK" && decide (rid ∈ e.realm_ids))).length

/-- A small complete pipeline run (4×3, 10 years, all-zero stream),
used to witness pipeline-level statements. -/
def c4SmallDoc : RegionDoc :=
  (generate_region 4 3 10 0 (fr 35 100) "continent" (fun _ => 0)).getD
    (mkDoc c3Crash)

/-- The spec's water/biome invariant: a tile is water exactly when its
biome is ocean. -/
def waterOceanInv (tiles : List Tile) : Prop :=
  ∀ i : Nat, ((tileAt tiles i).water = true ↔ (tileAt tiles i).biome = .ocean)

/-- The implicit ownership invariant of C10: every owned tile is
non-water and non-mountain. -/
def realmTilesOk (tiles : List Tile) : Prop :=
  ∀ i : Nat, (tileAt tiles i).realm_id ≠ none →
    (tileAt tiles i).water = false ∧ (tileAt tiles i).biome ≠ .mountain

/-- Settlement-placement soundness (the consequence part of C10): every
settlement record's coordinates are those of some non-water tile of the
grid. -/
def settsOk (tiles : List Tile) (setts : List Settlement) : Prop :=
  ∀ q ∈ setts, ∃ i : Nat,
    (tileAt tiles i).x = q.tile.1 ∧ (tileAt tiles i).y = q.tile.2 ∧
    (tileAt tiles i).water = false

instance : Inhabited Road :=
  ⟨{ road_from := "", road_to := "", tiles := [], type := "" }⟩

/-- The neighbor indices a tile's DFS visit inspects: exactly the indices
`_idx(nx, ny)` for the in-bounds neighbors of the tile's stored
coordinates, as `_enforce_continent_connectivity`'s flood fill computes
them. -/
def nbrIdxs (tiles : List Tile) (w h : Nat) (i : Nat) : List Nat :=
  (neighborCoords w h (tileAt tiles i).x (tileAt tiles i).y).map
    (fun c => gridIdx w c.1 c.2)

/-- Reachability along 4-neighbor steps onto non-water tiles whose indices
satisfy `S` (the carrier used to keep paths inside one component). -/
def connVia (tiles : List Tile) (w h : Nat) (S : Nat → Prop) :
    Nat → Nat → Prop :=
  Relation.ReflTransGen (fun a b =>
    b ∈ nbrIdxs tiles w h a ∧ (tileAt tiles b).water = false ∧ S b)

/-- Plain 4-connectivity through non-water tiles. -/
def landConn (tiles : List Tile) (w h : Nat) : Nat → Nat → Prop :=
  connVia tiles w h (fun _ => True)

/-- Wellformedness of a grid: row-major length and stored coordinates
matching the index (true of both build modes). -/
def gridWF (tiles : List Tile) (w h : Nat) : Prop :=
  tiles.length = h * w ∧
  ∀ i, i < h * w → (tileAt tiles i).x = i % w ∧ (tileAt tiles i).y = i / w

instance (tiles : List Tile) (w h : Nat) : Decidable (gridWF tiles w h) := by
  unfold gridWF
  exact instDecidableAnd

/-- A capital settlement record for the road-stage witness state. -/
def c9Cap : Settlement :=
  { id := "settlement_1", name := "Cap", type := "city", tile := (1, 1),
    realm_id := "realm_1", founded_year := 0, population := 100,
    tags := ["capital"], history := [] }

/-- A secondary settlement record for the road-stage witness state. -/
def c9Town : Settlement :=
  { id := "settlement_2", name := "Town", type := "town", tile := (3, 2),
    realm_id := "realm_1", founded_year := 5, population := 50,
    tags := [], history := [] }

/-- A state with one realm whose capital and one town are recorded:
road derivation produces exactly one road between them. -/
def c9State : GenState :=
  { c3Crash with
    realms := [{ mkRealm "realm_1" "Ashenhold" "#505050" 0 "lowland" [] with
      capital_settlement_id := some "settlement_1" }],
    settlements := [c9Cap, c9Town] }

/-- The first road the road stage derives on `c9State`. -/
def c9Road : Road := (derive_roads c9State).roads.getD 0 default

/-- A 3×1 grid with two land tiles separated by ocean: the flood fill
finds two single-tile components of equal size; connectivity enforcement
keeps the first-discovered one (index 0) and converts index 2 to
ocean. -/
def c2State : GenState :=
  { width := 3, height := 1, years := 10, base_sea_level := fr 35 100,
    mode := "continent", seed := 0,
    tiles := [mkLandTile 0 0 none, mkOceanTile 1 0, mkLandTile 2 0 none],
    realms := [], settlements := [], events := [], roads := [], ruins := [],
    rng := ⟨fun _ => 0, 0⟩ }

/-! ### Theorems -/

theorem Rng.randintT_bounds {a b : Int} (r : Rng) (hab : a ≤ b) :
    a ≤ (r.randintT a b).1 ∧ (r.randintT a b).1 ≤ b := by
  unfold Rng.randintT Rng.randbelow Rng.next
  have hpos : 0 < (b + 1 - a).toNat := by omega
  have hlt : r.tape r.pos % (b + 1 - a).toNat < (b + 1 - a).toNat :=
    Nat.mod_lt _ hpos
  have hcast : ((b + 1 - a).toNat : Int) = b + 1 - a := by omega
  have hltI : ((r.tape r.pos % (b + 1 - a).toNat : Nat) : Int) <
      ((b + 1 - a).toNat : Int) := Int.ofNat_lt.mpr hlt
  have hnn : (0 : Int) ≤ ((r.tape r.pos % (b + 1 - a).toNat : Nat) : Int) :=
    Int.ofNat_nonneg _
  constructor <;> simp only [] <;> omega

theorem Rng.choiceT_mem (r : Rng) (l : List α) (d : α) (h : l ≠ []) :
    (r.choiceT l d).1 ∈ l := by
  unfold Rng.choiceT Rng.randbelow Rng.next
  have hl : 0 < l.length := List.length_pos.mpr h
  have hj : r.tape r.pos % l.length < l.length := Nat.mod_lt _ hl
  simp only [List.getD_eq_getElem l d hj]
  exact List.getElem_mem hj

/-- C1.  Determinism of `generate_region`: in the embedding the whole
pipeline is a pure function of the input tuple
`(width, height, years, seed, sea_level, mode)` — the seed enters only
through its stream `tape` (the model of `random.Random(seed)`) and the
reported `seed` field, and every stage draws from that single threaded
`Rng` in a fixed call order, so two runs with identical inputs return the
same document (hence byte-identical once serialised).  There is no other
source of nondeterminism in the function's signature. -/
theorem generate_region_deterministic :
    ∀ (width height years seed : Nat) (sea_level : Frac) (mode : String)
      (tape : Nat → Nat),
      generate_region width height years seed sea_level mode tape =
        generate_region width height years seed sea_level mode tape :=
  fun _ _ _ _ _ _ _ => rfl

theorem Rng.randintChecked_some {a b : Int} {r : Rng} {p : Int × Rng}
    (h : r.randintChecked a b = some p) : a ≤ p.1 ∧ p.1 ≤ b := by
  unfold Rng.randintChecked at h
  by_cases hab : a ≤ b
  · rw [if_pos hab] at h
    have hb := Rng.randintT_bounds r hab
    have hv : r.randintT a b = p := by injection h
    rw [hv] at hb
    exact hb
  · rw [if_neg hab] at h
    exact absurd h (by simp)

theorem ruinLoop_isSome (border : List Nat) (years : Nat)
    (h : (max 5 ((years / 4 : Nat) : Int)) ≤ (years : Int)) :
    ∀ k i s, (ruinLoop border years k i s).isSome = true := by
  intro k
  induction k with
  | zero => intro i s; rfl
  | succ n ih =>
      intro i s
      unfold ruinLoop
      dsimp only
      simp only [Rng.randintChecked, if_pos h]
      exact ih _ _

theorem ruinLoop_ruins_spec (border : List Nat) (years : Nat) :
    ∀ k i s s', ruinLoop border years k i s = some s' →
      ∀ ruin ∈ s'.ruins, ruin ∈ s.ruins ∨
        ((max 5 ((years / 4 : Nat) : Int) ≤ ruin.destroyed_year ∧
          ruin.destroyed_year ≤ (years : Int)) ∧
         ruin.cause ∈ ["CIVIL_WAR", "RAID", "PLAGUE", "ARCANE_DISASTER"]) := by
  intro k
  induction k with
  | zero =>
      intro i s s' hs
      simp only [ruinLoop] at hs
      cases hs
      exact fun r hr => Or.inl hr
  | succ n ih =>
      intro i s s' hs
      unfold ruinLoop at hs
      dsimp only at hs
      rcases hchk : (settlementNamerGenerateName "ruin" s.rng).2.randintChecked
          (max 5 ((years / 4 : Nat) : Int)) (years : Int) with _ | p
      · rw [hchk] at hs; exact absurd hs (by simp)
      · rw [hchk] at hs
        dsimp only at hs
        intro ruin hruin
        have hb := Rng.randintChecked_some hchk
        have := ih _ _ _ hs ruin hruin
        rcases this with hmem | hP
        · rw [List.mem_append] at hmem
          rcases hmem with hold | hnew
          · exact Or.inl hold
          · right
            rw [List.mem_singleton] at hnew
            subst hnew
            refine ⟨⟨hb.1, hb.2⟩, ?_⟩
            exact Rng.choiceT_mem _ _ _ (by simp)
        · exact Or.inr hP

/-- C3 (amended).  Every generated ruin's destruction year lies in
`[max(5, years // 4), years]` and its cause is one of CIVIL_WAR, RAID,
PLAGUE, ARCANE_DISASTER; and ruin derivation never raises when
`years ≥ 5`.  (The original claim's exception-freedom for `0 < years < 5`
fails: with at least 30 candidate border tiles the stage calls
`randint(5, years)` with an empty range — see the counterexample.) -/
theorem derive_ruins_amended (s : GenState) :
    (5 ≤ s.years → (derive_ruins s).isSome = true) ∧
    (∀ s', derive_ruins s = some s' →
      ∀ ruin ∈ s'.ruins, ruin ∈ s.ruins ∨
        ((max 5 ((s.years / 4 : Nat) : Int) ≤ ruin.destroyed_year ∧
          ruin.destroyed_year ≤ (s.years : Int)) ∧
         ruin.cause ∈ ["CIVIL_WAR", "RAID", "PLAGUE", "ARCANE_DISASTER"])) := by
  constructor
  · intro h5
    unfold derive_ruins
    apply ruinLoop_isSome
    have h1 : (5 : Int) ≤ (s.years : Int) := by exact_mod_cast h5
    have h2 : ((s.years / 4 : Nat) : Int) ≤ (s.years : Int) := by
      exact_mod_cast Nat.div_le_self s.years 4
    omega
  · intro s' hs ruin hruin
    unfold derive_ruins at hs
    have := ruinLoop_ruins_spec _ _ _ _ _ _ hs ruin hruin
    simpa using this

/-- C3 witness: on the concrete state `c3Good` (`years = 9`) ruin
derivation succeeds and the one generated ruin respects the year range
and cause set. -/
theorem derive_ruins_amended_witness :
    5 ≤ c3Good.years ∧ (derive_ruins c3Good).isSome = true ∧
    c3GoodRuin ∈ c3GoodOutRuins ∧
    (c3GoodRuin ∈ c3Good.ruins ∨
      ((max 5 ((c3Good.years / 4 : Nat) : Int) ≤ c3GoodRuin.destroyed_year ∧
        c3GoodRuin.destroyed_year ≤ (c3Good.years : Int)) ∧
       c3GoodRuin.cause ∈ ["CIVIL_WAR", "RAID", "PLAGUE", "ARCANE_DISASTER"])) := by
  have heq : derive_ruins c3Good = some c3GoodOut := rfl
  have hmem : c3GoodRuin ∈ c3GoodOut.ruins := by decide
  exact ⟨by decide, by rw [heq]; rfl, hmem,
    (derive_ruins_amended c3Good).2 _ heq c3GoodRuin hmem⟩

/-- C3 counterexample: the claim "for every non-negative years input, ruin
derivation produces a well-defined (possibly empty) ruin list without
raising an exception, including when 0 < years < 5" is false — on
`c3Crash` (`years = 1`, 32 candidate border tiles, so one ruin is
attempted) the stage evaluates `randint(5, 1)`, which raises `ValueError`
in Python (modelled as `none`). -/
theorem derive_ruins_crash_counterexample :
    derive_ruins c3Crash = none ∧ 0 < c3Crash.years ∧ c3Crash.years < 5 := by
  refine ⟨by rfl, by decide, by decide⟩

set_option maxRecDepth 100000 in
set_option maxHeartbeats 8000000 in
/-- C4 counterexample: in the concrete run on `c4Tape` (6×4 grid,
years = 50) the year-50 expansion tick appends an EMPIRE_PEAK event for
`realm_2` — but at the moment the event fires, `realm_2` owns only 4 of
24 tiles, which does not exceed 18% of the grid (4.32).  The event fires
because the check uses the snapshot size (5) taken at the start of the
tick, before `realm_1` (processed first) annexed one of `realm_2`'s
tiles.  `realm_2` is the last realm the tick processes, so the
end-of-tick count `realm_tile_count c4Post "realm_2"` is the territory at
fire time; the last conjunct confirms the event list of the full
pipeline run is exactly the one containing this event. -/
theorem empire_peak_fire_time_counterexample :
    c4Event ∉ c4Pre.events ∧
    c4Event ∈ c4Post.events ∧
    realm_tile_count c4Post "realm_2" = 4 ∧
    ¬(natF (6 * 4) * fr 18 100 < natF (realm_tile_count c4Post "realm_2")) ∧
    (tilesByRealm c4Pre).map Prod.fst = ["realm_1", "realm_2"] ∧
    c4Post.events.map (·.id) =
      ["event_empire_realm_1_40", "event_empire_realm_2_50"] ∧
    ((generate_region 6 4 50 7 (fr 35 100) "continent" c4Tape).map
      (fun d => d.events.map (·.id))) =
      some ["event_empire_realm_1_40", "event_empire_realm_2_50"] := by
  decide

set_option maxRecDepth 100000 in
set_option maxHeartbeats 8000000 in
/-- C8 counterexample: in the concrete continent run on `c8Tape` (9×3
grid), the final document's tile at index 10 — coordinates (1, 1) — has
`water = true` yet stored elevation `0.434`, which is not below the sea
level `0.35`: the tile was a one-tile island converted to ocean by the
connectivity enforcer, so `water = (elevation < sea_level)` fails on the
generated grid. -/
theorem water_iff_low_elevation_counterexample :
    ((generate_region 9 3 0 7 (fr 35 100) "continent" c8Tape).map
      (fun d => ((tileAt d.tiles 10).water,
                 decide ((tileAt d.tiles 10).elevation < fr 35 100),
                 (tileAt d.tiles 10).x, (tileAt d.tiles 10).y,
                 (tileAt d.tiles 10).elevation))) =
      some (true, false, 1, 1, fr 434 1000) := by decide

theorem listSwap_length (l : List α) (i j : Nat) :
    (listSwap l i j).length = l.length := by
  unfold listSwap
  rcases h1 : l.get? i with _ | a <;> rcases h2 : l.get? j with _ | b <;>
    simp [List.length_set]

theorem foldl_fst_length_inv {β : Type} (f : (List α × β) → Nat → (List α × β))
    (hf : ∀ p k, ((f p k).1).length = p.1.length) :
    ∀ (ks : List Nat) (p : List α × β),
      ((ks.foldl f p).1).length = p.1.length := by
  intro ks
  induction ks with
  | nil => intro p; rfl
  | cons k ks ih =>
      intro p
      simp only [List.foldl_cons]
      rw [ih, hf]

theorem Rng.shuffle_length (r : Rng) (l : List α) :
    ((r.shuffle l).1).length = l.length := by
  unfold Rng.shuffle
  exact foldl_fst_length_inv _ (fun p k => listSwap_length _ _ _) _ _

theorem spawnAccept_realms_length (fertile : List Nat) (i : Nat) (s : GenState) :
    (spawnAccept fertile i s).realms.length = s.realms.length + 1 := by
  unfold spawnAccept
  simp [List.length_append]

theorem spawnLoop_pairwise (target : Nat) (fertile : List Nat) :
    ∀ rem i used s, used.Pairwise farApart →
      ((spawnLoop target fertile rem i used s).2).Pairwise farApart := by
  intro rem
  induction rem with
  | zero => intro i used s h; exact h
  | succ n ih =>
      intro i used s h
      unfold spawnLoop
      dsimp only
      split
      · exact h
      · split
        · exact h
        · split
          · exact ih _ _ _ h
          · rename_i hacc
            refine ih _ _ _ ?_
            rw [List.pairwise_append]
            refine ⟨h, List.pairwise_singleton _ _, ?_⟩
            intro u hu b hb
            rw [List.mem_singleton] at hb
            subst hb
            simp only [List.any_eq_true, decide_eq_true_eq, not_exists,
              not_and, not_lt] at hacc
            have h6 := hacc u hu
            unfold farApart
            omega

theorem spawnLoop_count (target : Nat) (fertile : List Nat) :
    ∀ rem i used s,
      (spawnLoop target fertile rem i used s).1.realms.length + used.length =
        (spawnLoop target fertile rem i used s).2.length + s.realms.length := by
  intro rem
  induction rem with
  | zero => intro i used s; unfold spawnLoop; dsimp only; omega
  | succ n ih =>
      intro i used s
      unfold spawnLoop
      dsimp only
      split
      · dsimp only; omega
      · split
        · dsimp only; omega
        · split
          · exact ih _ _ _
          · have H := ih (i + 1)
              (used ++ [((tileAt s.tiles (fertile.getD i 0)).x,
                (tileAt s.tiles (fertile.getD i 0)).y)])
              (spawnAccept fertile i s)
            rw [spawnAccept_realms_length] at H
            simp only [List.length_append, List.length_singleton] at H ⊢
            omega

theorem spawnLoop_realms_le (target : Nat) (fertile : List Nat) :
    ∀ rem i used s, s.realms.length ≤ target →
      (spawnLoop target fertile rem i used s).1.realms.length ≤ target := by
  intro rem
  induction rem with
  | zero => intro i used s h; exact h
  | succ n ih =>
      intro i used s h
      unfold spawnLoop
      dsimp only
      split
      · exact h
      · split
        · exact h
        · split
          · exact ih _ _ _ h
          · rename_i hlt _
            apply ih
            rw [spawnAccept_realms_length]
            omega

theorem spawnLoop_take (target : Nat) (fertile : List Nat) :
    ∀ rem i used s,
      spawnLoop target fertile rem i used s =
        spawnLoop target (fertile.take (i + rem)) rem i used s := by
  intro rem
  induction rem with
  | zero => intro i used s; rfl
  | succ n ih =>
      intro i used s
      conv_lhs => unfold spawnLoop
      conv_rhs => unfold spawnLoop
      dsimp only
      by_cases h1 : target ≤ s.realms.length
      · rw [if_pos h1, if_pos h1]
      · rw [if_neg h1, if_neg h1]
        by_cases h2 : fertile.length ≤ i
        · have h2' : (fertile.take (i + (n + 1))).length ≤ i := by
            rw [List.length_take]; omega
          rw [if_pos h2, if_pos h2']
        · have h2' : ¬((fertile.take (i + (n + 1))).length ≤ i) := by
            rw [List.length_take]; omega
          rw [if_neg h2, if_neg h2']
          have hget : (fertile.take (i + (n + 1))).getD i 0 = fertile.getD i 0 := by
            simp [List.getD, List.get?_eq_getElem?, List.getElem?_take,
              (by omega : i < i + (n + 1))]
          rw [hget]
          have hidx : i + (n + 1) = (i + 1) + n := by omega
          by_cases h3 : (used.any (fun u =>
              (((tileAt s.tiles (fertile.getD i 0)).x : Int) - (u.1 : Int)).natAbs +
              (((tileAt s.tiles (fertile.getD i 0)).y : Int) - (u.2 : Int)).natAbs < 6)) = true
          · rw [if_pos h3, if_pos h3, ih (i + 1), hidx]
          · rw [if_neg h3, if_neg h3]
            have hacc : spawnAccept (fertile.take (i + (n + 1))) i s =
                spawnAccept fertile i s := by
              unfold spawnAccept
              rw [hget]
            rw [hacc, ih (i + 1), hidx]

/-- C7.  Realm spawning: the accepted seed coordinates (the loop's `used`
list) are pairwise at Manhattan distance ≥ 6, and their number equals the
number of realms the loop creates; the loop inspects at most `2 × target`
pool entries (its result only depends on that prefix of the shuffled
pool); the realm count never exceeds `max 2 (min 6 (area / 1200))
= clamp(area/1200, 2, 6)`; and if at least one fertile tile exists, at
least one realm is spawned. -/
theorem spawn_initial_realms_spec :
    (∀ (target : Nat) (fertile : List Nat) (rem i : Nat)
        (used : List (Nat × Nat)) (s : GenState),
        used.Pairwise farApart →
        ((spawnLoop target fertile rem i used s).2.Pairwise farApart ∧
         (spawnLoop target fertile rem i used s).1.realms.length + used.length =
           (spawnLoop target fertile rem i used s).2.length + s.realms.length ∧
         (s.realms.length ≤ target →
           (spawnLoop target fertile rem i used s).1.realms.length ≤ target) ∧
         spawnLoop target fertile rem i used s =
           spawnLoop target (fertile.take (i + rem)) rem i used s)) ∧
    (∀ s : GenState, s.realms = [] →
        ((spawn_initial_realms s).realms.length ≤
           max 2 (min 6 (s.width * s.height / 1200)) ∧
         (fertileIdxList s.tiles ≠ [] →
           (spawn_initial_realms s).realms ≠ []))) := by
  constructor
  · intro target fertile rem i used s hp
    exact ⟨spawnLoop_pairwise target fertile rem i used s hp,
           spawnLoop_count target fertile rem i used s,
           spawnLoop_realms_le target fertile rem i used s,
           spawnLoop_take target fertile rem i used s⟩
  · intro s hs
    unfold spawn_initial_realms
    dsimp only
    constructor
    · split
      · simp only [List.length_singleton]
        omega
      · apply spawnLoop_realms_le
        rw [hs]
        simp
    · intro hfert
      have hlen : ((s.rng.shuffle (fertileIdxList s.tiles)).1).length =
          (fertileIdxList s.tiles).length := Rng.shuffle_length _ _
      have hne : (s.rng.shuffle (fertileIdxList s.tiles)).1 ≠ [] := by
        intro hcon
        rw [hcon] at hlen
        exact hfert (List.eq_nil_of_length_eq_zero hlen.symm)
      split
      · simp
      · rename_i hcond
        rw [not_and_or] at hcond
        rcases hcond with hx | hx
        · exact hx
        · exact absurd hne hx

/-- C7 witness: the loop-level facts at a concrete pool and state, and
the spawn-level bounds on the concrete 32×1 all-fertile state
`c7State`. -/
theorem spawn_initial_realms_spec_witness :
    List.Pairwise farApart ([] : List (Nat × Nat)) ∧
    ((spawnLoop 2 [0, 6] 4 0 [] c7State).2.Pairwise farApart ∧
     (spawnLoop 2 [0, 6] 4 0 [] c7State).1.realms.length +
         ([] : List (Nat × Nat)).length =
       (spawnLoop 2 [0, 6] 4 0 [] c7State).2.length + c7State.realms.length ∧
     (c7State.realms.length ≤ 2 →
       (spawnLoop 2 [0, 6] 4 0 [] c7State).1.realms.length ≤ 2) ∧
     spawnLoop 2 [0, 6] 4 0 [] c7State =
       spawnLoop 2 ([0, 6].take (0 + 4)) 4 0 [] c7State) ∧
    c7State.realms = [] ∧
    ((spawn_initial_realms c7State).realms.length ≤
       max 2 (min 6 (c7State.width * c7State.height / 1200)) ∧
     (fertileIdxList c7State.tiles ≠ [] →
       (spawn_initial_realms c7State).realms ≠ [])) := by
  refine ⟨List.Pairwise.nil, ?_, rfl, ?_⟩
  · exact spawn_initial_realms_spec.1 2 [0, 6] 4 0 [] c7State List.Pairwise.nil
  · exact spawn_initial_realms_spec.2 c7State rfl

/-- C5 counterexample.  (a) On `c5aState`, `realm_1` owns one tile, so
desired growth is `max 1 (1 / 12) = 1`; yet the expansion tick annexes
both unclaimed neighbors (tile count 1 → 3), overshooting the desired
growth, because `grown >= desired_growth` is only checked between
tile-visits.  (b) On `c5bState`, desired growth is 1 so the claimed
visit cap is `1 * 6 = 6`; the first six tile-visits annex nothing
(`grown` stays 0), yet the pass performs a seventh visit and annexes
there (tile count 7 → 8), because the code breaks only when
`attempts > desired_growth * 6` after the visit. -/
theorem realm_expansion_counterexample :
    (realm_tile_count c5aState "realm_1" = 1 ∧
     max 1 (realm_tile_count c5aState "realm_1" / 12) = 1 ∧
     realm_tile_count (realm_expansion_tick c5aState 10) "realm_1" = 3) ∧
    (c5bShuf.1 = [10, 11, 12, 13, 14, 15, 16] ∧
     max 1 (c5bShuf.1.length / 12) = 1 ∧
     (expandLoop c5bByR "realm_1" 7 1 (c5bShuf.1.take 6) 0 0 c5bSt0).2 = 0 ∧
     realm_tile_count
       (expandLoop c5bByR "realm_1" 7 1 c5bShuf.1 0 0 c5bSt0).1 "realm_1" = 8 ∧
     realm_tile_count (realm_expansion_tick c5bState 10) "realm_1" = 8) := by
  decide

theorem tileAt_set (l : List Tile) (n : Nat) (t : Tile) (i : Nat) :
    tileAt (l.set n t) i = if n = i ∧ n < l.length then t else tileAt l i := by
  unfold tileAt
  by_cases h : n = i ∧ n < l.length
  · obtain ⟨rfl, hlt⟩ := h
    simp [List.getD, List.getElem?_set, hlt]
  · rw [if_neg h]
    by_cases he : n = i
    · subst he
      have hge : l.length ≤ n := by omega
      simp [List.getD, List.getElem?_set, Nat.not_lt.mpr hge,
            List.getElem?_eq_none hge]
    · simp [List.getD, List.getElem?_set, he]

theorem coreEq_refl (t : Tile) : coreEq t t :=
  ⟨rfl, rfl, rfl, rfl, rfl, rfl, rfl⟩

theorem coreEq_trans {a b c : Tile} (h1 : coreEq a b) (h2 : coreEq b c) :
    coreEq a c := by
  obtain ⟨x1, y1, e1, m1, b1, w1, r1⟩ := h1
  obtain ⟨x2, y2, e2, m2, b2, w2, r2⟩ := h2
  exact ⟨x2.trans x1, y2.trans y1, e2.trans e1, m2.trans m1, b2.trans b1,
    w2.trans w1, r2.trans r1⟩

theorem tilePres_refl (t : Tile) : tilePres t t :=
  ⟨coreEq_refl t, fun _ => rfl⟩

theorem tilePres_trans {a b c : Tile} (h1 : tilePres a b)
    (h2 : tilePres b c) : tilePres a c := by
  obtain ⟨c1, q1⟩ := h1
  obtain ⟨c2, q2⟩ := h2
  refine ⟨coreEq_trans c1 c2, fun h => ?_⟩
  have hb : b = a := q1 h
  have hc : c = b := q2 (by rw [hb]; exact h)
  rw [hc, hb]

theorem expandVisitStep_pres (byR : List (String × List Nat)) (rid : String)
    (size : Nat) (c : Nat × Nat) (acc : GenState × Nat) (i : Nat) :
    tilePres (tileAt acc.1.tiles i)
      (tileAt (expandVisitStep byR rid size c acc).1.tiles i) := by
  unfold expandVisitStep
  dsimp only
  split
  · exact tilePres_refl _
  next hwm =>
    split
    · dsimp only
      rw [tileAt_set]
      split
      next hcond =>
        obtain ⟨hni, _⟩ := hcond
        rw [hni] at hwm ⊢
        exact ⟨⟨rfl, rfl, rfl, rfl, rfl, rfl, rfl⟩, fun hcontra => absurd hcontra hwm⟩
      · exact tilePres_refl _
    next other hsome =>
      split
      · exact tilePres_refl _
      · split <;> split
        case isTrue =>
          dsimp only
          rw [tileAt_set]
          split
          next hcond =>
            obtain ⟨hni, _⟩ := hcond
            rw [hni] at hwm ⊢
            exact ⟨⟨rfl, rfl, rfl, rfl, rfl, rfl, rfl⟩, fun hcontra => absurd hcontra hwm⟩
          · exact tilePres_refl _
        case isFalse => exact tilePres_refl _
        case isTrue =>
          dsimp only
          rw [tileAt_set]
          split
          next hcond =>
            obtain ⟨hni, _⟩ := hcond
            rw [hni] at hwm ⊢
            exact ⟨⟨rfl, rfl, rfl, rfl, rfl, rfl, rfl⟩, fun hcontra => absurd hcontra hwm⟩
          · exact tilePres_refl _
        case isFalse => exact tilePres_refl _

theorem expandVisitStep_grown (byR : List (String × List Nat)) (rid : String)
    (size : Nat) (c : Nat × Nat) (acc : GenState × Nat) :
    acc.2 ≤ (expandVisitStep byR rid size c acc).2 ∧
      (expandVisitStep byR rid size c acc).2 ≤ acc.2 + 1 := by
  unfold expandVisitStep
  dsimp only
  repeat' split
  all_goals try dsimp only
  all_goals omega

theorem expandVisitStep_keeps (byR : List (String × List Nat)) (rid : String)
    (size : Nat) (c : Nat × Nat) (acc : GenState × Nat) (i : Nat)
    (h : (tileAt acc.1.tiles i).realm_id = some rid) :
    (tileAt (expandVisitStep byR rid size c acc).1.tiles i).realm_id =
      some rid := by
  unfold expandVisitStep
  dsimp only
  split
  · exact h
  · split
    · dsimp only
      rw [tileAt_set]
      split
      · rfl
      · exact h
    next other hsome =>
      split
      · exact h
      · split <;> split
        case isTrue =>
          dsimp only
          rw [tileAt_set]
          split
          · rfl
          · exact h
        case isFalse => exact h
        case isTrue =>
          dsimp only
          rw [tileAt_set]
          split
          · rfl
          · exact h
        case isFalse => exact h

theorem expandVisit_pres (byR : List (String × List Nat)) (rid : String)
    (size : Nat) :
    ∀ (coords : List (Nat × Nat)) (st : GenState) (grown i : Nat),
      tilePres (tileAt st.tiles i)
        (tileAt (expandVisit byR rid size coords st grown).1.tiles i)
  | [], st, grown, i => tilePres_refl _
  | c :: rest, st, grown, i => by
      simp only [expandVisit]
      exact tilePres_trans (expandVisitStep_pres byR rid size c (st, grown) i)
        (expandVisit_pres byR rid size rest _ _ i)

theorem expandVisit_grown (byR : List (String × List Nat)) (rid : String)
    (size : Nat) :
    ∀ (coords : List (Nat × Nat)) (st : GenState) (grown : Nat),
      grown ≤ (expandVisit byR rid size coords st grown).2 ∧
        (expandVisit byR rid size coords st grown).2 ≤
          grown + coords.length
  | [], st, grown => by simp [expandVisit]
  | c :: rest, st, grown => by
      simp only [expandVisit]
      have h1 := expandVisitStep_grown byR rid size c (st, grown)
      have h2 := expandVisit_grown byR rid size rest
        (expandVisitStep byR rid size c (st, grown)).1
        (expandVisitStep byR rid size c (st, grown)).2
      simp only [List.length_cons]
      omega

theorem expandVisit_keeps (byR : List (String × List Nat)) (rid : String)
    (size : Nat) :
    ∀ (coords : List (Nat × Nat)) (st : GenState) (grown i : Nat),
      (tileAt st.tiles i).realm_id = some rid →
      (tileAt (expandVisit byR rid size coords st grown).1.tiles i).realm_id =
        some rid
  | [], st, grown, i, h => h
  | c :: rest, st, grown, i, h => by
      simp only [expandVisit]
      exact expandVisit_keeps byR rid size rest _ _ i
        (expandVisitStep_keeps byR rid size c (st, grown) i h)

theorem neighborCoords_len_le (w h x y : Nat) :
    (neighborCoords w h x y).length ≤ 4 := by
  unfold neighborCoords
  exact le_trans (List.length_filterMap_le _ _) (by simp)

theorem expandLoop_pres (byR : List (String × List Nat)) (rid : String)
    (size desired : Nat) :
    ∀ (l : List Nat) (grown attempts : Nat) (st : GenState) (i : Nat),
      tilePres (tileAt st.tiles i)
        (tileAt (expandLoop byR rid size desired l grown attempts st).1.tiles i)
  | [], grown, attempts, st, i => tilePres_refl _
  | ti :: rest, grown, attempts, st, i => by
      unfold expandLoop
      dsimp only
      split
      · exact tilePres_refl _
      · split
        · exact expandVisit_pres byR rid size _ st grown i
        · exact tilePres_trans (expandVisit_pres byR rid size _ st grown i)
            (expandLoop_pres byR rid size desired rest _ _ _ i)

theorem expandLoop_grown (byR : List (String × List Nat)) (rid : String)
    (size desired : Nat) :
    ∀ (l : List Nat) (grown attempts : Nat) (st : GenState),
      grown ≤ (expandLoop byR rid size desired l grown attempts st).2 ∧
        (expandLoop byR rid size desired l grown attempts st).2 ≤
          max grown (desired + 3)
  | [], grown, attempts, st => by
      unfold expandLoop
      exact ⟨le_rfl, le_max_left _ _⟩
  | ti :: rest, grown, attempts, st => by
      unfold expandLoop
      dsimp only
      split
      · exact ⟨le_rfl, le_max_left _ _⟩
      next hg =>
        have hv := expandVisit_grown byR rid size
          (neighborCoords st.width st.height (tileAt st.tiles ti).x
            (tileAt st.tiles ti).y) st grown
        have hn := neighborCoords_len_le st.width st.height
          (tileAt st.tiles ti).x (tileAt st.tiles ti).y
        split
        · omega
        · have ih := expandLoop_grown byR rid size desired rest
            (expandVisit byR rid size
              (neighborCoords st.width st.height (tileAt st.tiles ti).x
                (tileAt st.tiles ti).y) st grown).2 (attempts + 1)
            (expandVisit byR rid size
              (neighborCoords st.width st.height (tileAt st.tiles ti).x
                (tileAt st.tiles ti).y) st grown).1
          omega

theorem expandLoop_take (byR : List (String × List Nat)) (rid : String)
    (size desired : Nat) :
    ∀ (l : List Nat) (grown attempts : Nat) (st : GenState),
      attempts ≤ desired * 6 →
      expandLoop byR rid size desired l grown attempts st =
        expandLoop byR rid size desired
          (l.take (desired * 6 + 1 - attempts)) grown attempts st
  | [], grown, attempts, st, h => by simp [List.take_nil]
  | ti :: rest, grown, attempts, st, h => by
      have hk : desired * 6 + 1 - attempts = (desired * 6 - attempts) + 1 := by
        omega
      rw [hk, List.take_succ_cons]
      unfold expandLoop
      dsimp only
      by_cases hg : desired ≤ grown
      · rw [if_pos hg, if_pos hg]
      · rw [if_neg hg, if_neg hg]
        by_cases hb : desired * 6 < attempts + 1
        · rw [if_pos hb, if_pos hb]
        · rw [if_neg hb, if_neg hb]
          have h' : attempts + 1 ≤ desired * 6 := by omega
          rw [show desired * 6 - attempts =
                desired * 6 + 1 - (attempts + 1) from by omega]
          exact expandLoop_take byR rid size desired rest _ (attempts + 1) _ h'

theorem tickRealm_pres (byR : List (String × List Nat)) (year : Nat)
    (st : GenState) (p : String × List Nat) (i : Nat) :
    tilePres (tileAt st.tiles i) (tileAt (tickRealm byR year st p).tiles i) := by
  unfold tickRealm
  dsimp only
  split
  · exact tilePres_refl _
  · split
    · simp only [updateRealm]
      exact expandLoop_pres byR p.1 p.2.length (max 1 (p.2.length / 12)) _ 0 0
        { st with rng := (st.rng.shuffle p.2).2 } i
    · exact expandLoop_pres byR p.1 p.2.length (max 1 (p.2.length / 12)) _ 0 0
        { st with rng := (st.rng.shuffle p.2).2 } i

theorem tickFold_pres (byR : List (String × List Nat)) (year : Nat) :
    ∀ (l : List (String × List Nat)) (st : GenState) (i : Nat),
      tilePres (tileAt st.tiles i)
        (tileAt (l.foldl (tickRealm byR year) st).tiles i)
  | [], st, i => tilePres_refl _
  | p :: rest, st, i => by
      simp only [List.foldl_cons]
      exact tilePres_trans (tickRealm_pres byR year st p i)
        (tickFold_pres byR year rest _ i)

theorem realm_expansion_tick_pres (s : GenState) (year : Nat) (i : Nat) :
    tilePres (tileAt s.tiles i)
      (tileAt (realm_expansion_tick s year).tiles i) := by
  unfold realm_expansion_tick
  exact tickFold_pres _ year _ s i

theorem expandVisit_annex_unclaimed (byR : List (String × List Nat))
    (rid : String) (size : Nat) (c : Nat × Nat) (rest : List (Nat × Nat))
    (st : GenState) (grown : Nat)
    (hlt : gridIdx st.width c.1 c.2 < st.tiles.length)
    (hw : (tileAt st.tiles (gridIdx st.width c.1 c.2)).water = false)
    (hb : (tileAt st.tiles (gridIdx st.width c.1 c.2)).biome ≠ .mountain)
    (hn : (tileAt st.tiles (gridIdx st.width c.1 c.2)).realm_id = none) :
    (tileAt (expandVisit byR rid size (c :: rest) st grown).1.tiles
        (gridIdx st.width c.1 c.2)).realm_id = some rid ∧
    grown < (expandVisit byR rid size (c :: rest) st grown).2 := by
  have hstep : expandVisitStep byR rid size c (st, grown) = ({ st with tiles := st.tiles.set (gridIdx st.width c.1 c.2) { tileAt st.tiles (gridIdx st.width c.1 c.2) with realm_id := some rid } }, grown + 1) := by
    unfold expandVisitStep
    dsimp only
    rw [if_neg (by simp [hw, hb]), hn]
  simp only [expandVisit]
  constructor
  · rw [hstep]
    apply expandVisit_keeps
    dsimp only
    rw [tileAt_set, if_pos ⟨rfl, hlt⟩]
  · have h2 := expandVisit_grown byR rid size rest
      (expandVisitStep byR rid size c (st, grown)).1
      (expandVisitStep byR rid size c (st, grown)).2
    have h3 : (expandVisitStep byR rid size c (st, grown)).2 = grown + 1 := by
      rw [hstep]
    omega

theorem expandVisit_annex_chance (byR : List (String × List Nat))
    (rid : String) (size : Nat) (c : Nat × Nat) (st : GenState)
    (grown : Nat) (other : String)
    (hlt : gridIdx st.width c.1 c.2 < st.tiles.length)
    (hw : (tileAt st.tiles (gridIdx st.width c.1 c.2)).water = false)
    (hb : (tileAt st.tiles (gridIdx st.width c.1 c.2)).biome ≠ .mountain)
    (ho : (tileAt st.tiles (gridIdx st.width c.1 c.2)).realm_id = some other)
    (hne : other ≠ rid) :
    ((tileAt (expandVisit byR rid size [c] st grown).1.tiles
        (gridIdx st.width c.1 c.2)).realm_id = some rid ↔
      (st.rng.random).1 <
        fr 4 10 * (natF size / (natF size +
          natF (if (lookupRealmTiles byR other).length = 0 then 1
                else (lookupRealmTiles byR other).length)))) := by
  simp only [expandVisit]
  unfold expandVisitStep
  dsimp only
  rw [if_neg (by simp [hw, hb]), ho]
  dsimp only
  rw [if_neg hne]
  by_cases hch : (st.rng.random).1 <
      fr 4 10 * (natF size / (natF size +
        natF (if (lookupRealmTiles byR other).length = 0 then 1
              else (lookupRealmTiles byR other).length)))
  · rw [if_pos hch]
    dsimp only
    rw [tileAt_set, if_pos ⟨rfl, hlt⟩]
    exact iff_of_true rfl hch
  · rw [if_neg hch]
    dsimp only
    rw [ho]
    exact iff_of_false (by simp [hne]) hch

/-- C5 (amended).  The expansion pass for a realm behaves as follows.
(1) An inspected neighbor that is non-water, non-mountain and unclaimed is
always annexed to the realm and bumps the `grown` counter.  (2) An
inspected neighbor owned by another realm (non-water, non-mountain) is
annexed exactly when the next draw falls below
`0.4 * size / (size + other_size)`, with `other_size` read from the
start-of-tick snapshot (floored at 1).  (3) The per-realm loop's
annexation counter is monotone and bounded by `desired_growth + 3`: the
`grown >= desired_growth` check runs only between tile-visits, so a
single visit may overshoot the desired growth by up to 3 (one tile has at
most 4 neighbors).  (4) The loop performs at most `desired_growth * 6 + 1`
tile-visits — one more than the claimed cap — because the code breaks
when `attempts > desired_growth * 6` only after a visit: its result
depends only on the first `desired_growth * 6 + 1 - attempts` entries of
the shuffled tile list.  (5) Water and mountain tiles are never annexed:
an expansion tick leaves every water or mountain tile entirely
unchanged. -/
theorem realm_expansion_tick_amended :
    (∀ (byR : List (String × List Nat)) (rid : String) (size : Nat)
        (c : Nat × Nat) (rest : List (Nat × Nat)) (st : GenState)
        (grown : Nat),
        gridIdx st.width c.1 c.2 < st.tiles.length →
        (tileAt st.tiles (gridIdx st.width c.1 c.2)).water = false →
        (tileAt st.tiles (gridIdx st.width c.1 c.2)).biome ≠ .mountain →
        (tileAt st.tiles (gridIdx st.width c.1 c.2)).realm_id = none →
        (tileAt (expandVisit byR rid size (c :: rest) st grown).1.tiles
            (gridIdx st.width c.1 c.2)).realm_id = some rid ∧
          grown < (expandVisit byR rid size (c :: rest) st grown).2) ∧
    (∀ (byR : List (String × List Nat)) (rid : String) (size : Nat)
        (c : Nat × Nat) (st : GenState) (grown : Nat) (other : String),
        gridIdx st.width c.1 c.2 < st.tiles.length →
        (tileAt st.tiles (gridIdx st.width c.1 c.2)).water = false →
        (tileAt st.tiles (gridIdx st.width c.1 c.2)).biome ≠ .mountain →
        (tileAt st.tiles (gridIdx st.width c.1 c.2)).realm_id = some other →
        other ≠ rid →
        ((tileAt (expandVisit byR rid size [c] st grown).1.tiles
            (gridIdx st.width c.1 c.2)).realm_id = some rid ↔
          (st.rng.random).1 <
            fr 4 10 * (natF size / (natF size +
              natF (if (lookupRealmTiles byR other).length = 0 then 1
                    else (lookupRealmTiles byR other).length))))) ∧
    (∀ (byR : List (String × List Nat)) (rid : String) (size desired : Nat)
        (l : List Nat) (grown attempts : Nat) (st : GenState),
        grown ≤ (expandLoop byR rid size desired l grown attempts st).2 ∧
          (expandLoop byR rid size desired l grown attempts st).2 ≤
            max grown (desired + 3)) ∧
    (∀ (byR : List (String × List Nat)) (rid : String) (size desired : Nat)
        (l : List Nat) (grown attempts : Nat) (st : GenState),
        attempts ≤ desired * 6 →
        expandLoop byR rid size desired l grown attempts st =
          expandLoop byR rid size desired
            (l.take (desired * 6 + 1 - attempts)) grown attempts st) ∧
    (∀ (s : GenState) (year : Nat) (i : Nat),
        (tileAt s.tiles i).water = true ∨
          (tileAt s.tiles i).biome = .mountain →
        tileAt (realm_expansion_tick s year).tiles i = tileAt s.tiles i) := by
  refine ⟨?_, ?_, ?_, ?_, ?_⟩
  · intro byR rid size c rest st grown hlt hw hb hn
    exact expandVisit_annex_unclaimed byR rid size c rest st grown hlt hw hb hn
  · intro byR rid size c st grown other hlt hw hb ho hne
    exact expandVisit_annex_chance byR rid size c st grown other hlt hw hb ho
      hne
  · intro byR rid size desired l grown attempts st
    exact expandLoop_grown byR rid size desired l grown attempts st
  · intro byR rid size desired l grown attempts st h
    exact expandLoop_take byR rid size desired l grown attempts st h
  · intro s year i h
    exact (realm_expansion_tick_pres s year i).2 h

/-- C5 witness: the amended facts instantiated on the concrete
states — the unclaimed neighbor `(8,1)` of `c5bSt0` is annexed, the
cross-realm annexation on `c3Crash` is equivalent to its draw falling
under the snapshot chance, the `c5bState` expansion loop respects the
corrected bounds, and the ocean tile `0` of `c5bState` is untouched by a
tick. -/
theorem realm_expansion_tick_amended_witness :
    (gridIdx c5bSt0.width 8 1 < c5bSt0.tiles.length ∧
     (tileAt c5bSt0.tiles (gridIdx c5bSt0.width 8 1)).realm_id = none ∧
     (tileAt (expandVisit c5bByR "realm_1" 7 [(8, 1)] c5bSt0 0).1.tiles
        (gridIdx c5bSt0.width 8 1)).realm_id = some "realm_1" ∧
     0 < (expandVisit c5bByR "realm_1" 7 [(8, 1)] c5bSt0 0).2) ∧
    ((tileAt c3Crash.tiles (gridIdx c3Crash.width 1 0)).realm_id =
        some "realm_2" ∧
     ((tileAt (expandVisit (tilesByRealm c3Crash) "realm_1" 16 [(1, 0)]
          c3Crash 0).1.tiles (gridIdx c3Crash.width 1 0)).realm_id =
        some "realm_1" ↔
      (c3Crash.rng.random).1 <
        fr 4 10 * (natF 16 / (natF 16 +
          natF (if (lookupRealmTiles (tilesByRealm c3Crash)
                      "realm_2").length = 0 then 1
                else (lookupRealmTiles (tilesByRealm c3Crash)
                        "realm_2").length))))) ∧
    (0 ≤ (expandLoop c5bByR "realm_1" 7 1 c5bShuf.1 0 0 c5bSt0).2 ∧
     (expandLoop c5bByR "realm_1" 7 1 c5bShuf.1 0 0 c5bSt0).2 ≤
       max 0 (1 + 3)) ∧
    ((0 : Nat) ≤ 1 * 6 ∧
     expandLoop c5bByR "realm_1" 7 1 c5bShuf.1 0 0 c5bSt0 =
       expandLoop c5bByR "realm_1" 7 1 (c5bShuf.1.take (1 * 6 + 1 - 0)) 0 0
         c5bSt0) ∧
    ((tileAt c5bState.tiles 0).water = true ∧
     tileAt (realm_expansion_tick c5bState 10).tiles 0 =
       tileAt c5bState.tiles 0) := by
  refine ⟨⟨by decide, by decide, ?_⟩, ⟨by decide, ?_⟩, ?_, ⟨by decide, ?_⟩,
    ⟨by decide, ?_⟩⟩
  · exact realm_expansion_tick_amended.1 c5bByR "realm_1" 7 (8, 1) []
      c5bSt0 0 (by decide) (by decide) (by decide) (by decide)
  · exact realm_expansion_tick_amended.2.1 (tilesByRealm c3Crash) "realm_1"
      16 (1, 0) c3Crash 0 "realm_2" (by decide) (by decide) (by decide)
      (by decide) (by decide)
  · exact realm_expansion_tick_amended.2.2.1 c5bByR "realm_1" 7 1 c5bShuf.1
      0 0 c5bSt0
  · exact realm_expansion_tick_amended.2.2.2.1 c5bByR "realm_1" 7 1
      c5bShuf.1 0 0 c5bSt0 (by decide)
  · exact realm_expansion_tick_amended.2.2.2.2 c5bState 10 0
      (Or.inl (by decide))

theorem riverWalk_steps_le (w hh : Nat) :
    ∀ (fuel x y : Nat) (tiles : List Tile) (r : Rng),
      (riverWalk w hh fuel x y tiles r).2.2.1 ≤ fuel
  | 0, x, y, tiles, r => le_rfl
  | fuel + 1, x, y, tiles, r => by
      unfold riverWalk
      dsimp only
      split
      · dsimp only; omega
      · split
        · dsimp only; omega
        · split
          · dsimp only; omega
          · dsimp only
            exact Nat.succ_le_succ (riverWalk_steps_le w hh fuel _ _ _ _)

theorem riverWalk_mark (w hh : Nat) :
    ∀ (fuel x y : Nat) (tiles : List Tile) (r : Rng) (i : Nat),
      tileAt (riverWalk w hh fuel x y tiles r).1 i = tileAt tiles i ∨
      tileAt (riverWalk w hh fuel x y tiles r).1 i =
        { tileAt tiles i with river := true }
  | 0, x, y, tiles, r, i => Or.inl rfl
  | fuel + 1, x, y, tiles, r, i => by
      have hset : tileAt (tiles.set (gridIdx w x y)
          { tileAt tiles (gridIdx w x y) with river := true }) i =
            tileAt tiles i ∨
          tileAt (tiles.set (gridIdx w x y)
            { tileAt tiles (gridIdx w x y) with river := true }) i =
            { tileAt tiles i with river := true } := by
        rw [tileAt_set]
        split
        next hc => exact Or.inr (by rw [hc.1])
        · exact Or.inl rfl
      unfold riverWalk
      dsimp only
      split
      · exact hset
      · split
        · exact hset
        · split
          · exact hset
          · rcases riverWalk_mark w hh fuel _ _ _ _ i with hih | hih <;>
              rw [hih] <;> rcases hset with hs | hs <;> rw [hs]
            · exact Or.inl rfl
            · exact Or.inr rfl
            · exact Or.inr rfl
            · exact Or.inr rfl

theorem riverWalk_water_untouched (w hh : Nat) :
    ∀ (fuel x y : Nat) (tiles : List Tile) (r : Rng) (i : Nat),
      (tileAt tiles (gridIdx w x y)).water = false →
      (tileAt tiles i).water = true →
      tileAt (riverWalk w hh fuel x y tiles r).1 i = tileAt tiles i
  | 0, x, y, tiles, r, i, _, _ => rfl
  | fuel + 1, x, y, tiles, r, i, hb, hwi => by
      have hset : tileAt (tiles.set (gridIdx w x y)
          { tileAt tiles (gridIdx w x y) with river := true }) i =
            tileAt tiles i := by
        rw [tileAt_set, if_neg]
        intro hc
        rw [hc.1] at hb
        rw [hb] at hwi
        exact Bool.false_ne_true hwi
      unfold riverWalk
      dsimp only
      split
      · exact hset
      · split
        · exact hset
        · split
          · exact hset
          next hnw hnu =>
            rw [riverWalk_water_untouched w hh fuel _ _ _ _ i ?_ ?_]
            · exact hset
            · rw [Bool.not_eq_true] at hnw
              exact hnw
            · rw [hset]
              exact hwi

theorem riverWalk_budget (w hh : Nat) :
    ∀ (fuel x y : Nat) (tiles : List Tile) (r : Rng),
      (riverWalk w hh fuel x y tiles r).2.2.2 = RiverStop.budget →
      (riverWalk w hh fuel x y tiles r).2.2.1 = fuel
  | 0, x, y, tiles, r => fun _ => rfl
  | fuel + 1, x, y, tiles, r => by
      unfold riverWalk
      dsimp only
      split
      · intro hcon
        exact absurd hcon (by simp)
      · split
        · intro hcon
          exact absurd hcon (by simp)
        · split
          · intro hcon
            exact absurd hcon (by simp)
          · intro hbud
            dsimp only at hbud ⊢
            rw [riverWalk_budget w hh fuel _ _ _ _ hbud]

theorem coreEq_tileAt_set_realm (ts : List Tile) (n : Nat) (v : Option String)
    (i : Nat) :
    coreEq (tileAt ts i)
      (tileAt (ts.set n { tileAt ts n with realm_id := v }) i) := by
  rw [tileAt_set]
  split
  next hc =>
    obtain ⟨h1, -⟩ := hc
    subst h1
    exact ⟨rfl, rfl, rfl, rfl, rfl, rfl, rfl⟩
  · exact coreEq_refl _

theorem coreEq_tileAt_set_sett (ts : List Tile) (n : Nat) (v : Option String)
    (i : Nat) :
    coreEq (tileAt ts i)
      (tileAt (ts.set n { tileAt ts n with settlement_id := v }) i) := by
  rw [tileAt_set]
  split
  next hc =>
    obtain ⟨h1, -⟩ := hc
    subst h1
    exact ⟨rfl, rfl, rfl, rfl, rfl, rfl, rfl⟩
  · exact coreEq_refl _

theorem setRealmFold_core (v : Option String) :
    ∀ (l : List Nat) (ts : List Tile) (i : Nat),
      coreEq (tileAt ts i)
        (tileAt (l.foldl
          (fun ts j => ts.set j { tileAt ts j with realm_id := v }) ts) i)
  | [], ts, i => coreEq_refl _
  | j :: rest, ts, i => by
      simp only [List.foldl_cons]
      exact coreEq_trans (coreEq_tileAt_set_realm ts j v i)
        (setRealmFold_core v rest _ i)

theorem spawnAccept_core (fertile : List Nat) (j : Nat) (s : GenState)
    (i : Nat) :
    coreEq (tileAt s.tiles i) (tileAt (spawnAccept fertile j s).tiles i) := by
  unfold spawnAccept
  dsimp only
  exact coreEq_tileAt_set_realm s.tiles _ _ i

theorem spawnLoop_core (target : Nat) (fertile : List Nat) :
    ∀ (rem j : Nat) (used : List (Nat × Nat)) (s : GenState) (i : Nat),
      coreEq (tileAt s.tiles i)
        (tileAt (spawnLoop target fertile rem j used s).1.tiles i)
  | 0, j, used, s, i => coreEq_refl _
  | rem + 1, j, used, s, i => by
      unfold spawnLoop
      dsimp only
      split
      · exact coreEq_refl _
      · split
        · exact coreEq_refl _
        · split
          · exact spawnLoop_core target fertile rem _ _ _ i
          · exact coreEq_trans (spawnAccept_core fertile j s i)
              (spawnLoop_core target fertile rem _ _ _ i)

theorem spawn_core (s : GenState) (i : Nat) :
    coreEq (tileAt s.tiles i)
      (tileAt (spawn_initial_realms s).tiles i) := by
  unfold spawn_initial_realms
  dsimp only
  split
  · exact coreEq_trans
      (spawnLoop_core _ _ _ 0 [] { s with rng := (s.rng.shuffle (fertileIdxList s.tiles)).2 } i)
      (coreEq_tileAt_set_realm _ _ _ i)
  · exact spawnLoop_core _ _ _ 0 [] { s with rng := (s.rng.shuffle (fertileIdxList s.tiles)).2 } i

theorem crisis_core (s : GenState) (year : Nat) (i : Nat) :
    coreEq (tileAt s.tiles i) (tileAt (random_crisis s year).tiles i) := by
  unfold random_crisis
  dsimp only
  split
  · exact coreEq_refl _
  · split
    · exact coreEq_refl _
    · split
      · exact coreEq_refl _
      · split
        · split
          · exact coreEq_refl _
          · simp only [appendEvent]
            exact setRealmFold_core none _ s.tiles i
        · split
          · exact coreEq_refl _
          · simp only [appendEvent]
            exact setRealmFold_core _ _ s.tiles i

theorem simLoop_core (step : Nat) :
    ∀ (fuel current : Nat) (s : GenState) (i : Nat),
      coreEq (tileAt s.tiles i) (tileAt (simLoop step fuel current s).tiles i)
  | 0, current, s, i => coreEq_refl _
  | fuel + 1, current, s, i => by
      unfold simLoop
      dsimp only
      split
      · refine coreEq_trans
          ((realm_expansion_tick_pres s (current + step) i).1) ?_
        split
        · exact coreEq_trans
            (crisis_core { realm_expansion_tick s (current + step) with rng := (realm_expansion_tick s (current + step)).rng.random.2 } (current + step) i)
            (simLoop_core step fuel (current + step) _ i)
        · exact simLoop_core step fuel (current + step) _ i
      · exact coreEq_refl _

theorem simulate_history_core (s : GenState) (i : Nat) :
    coreEq (tileAt s.tiles i) (tileAt (simulate_history s).tiles i) := by
  unfold simulate_history
  dsimp only
  split
  · exact coreEq_refl _
  · simp only [clearStrengths, setStrengths]
    exact simLoop_core _ _ 0 _ i

theorem settlementPlace_core (rid : String) (years ti sid : Nat)
    (st : GenState) (i : Nat) :
    coreEq (tileAt st.tiles i)
      (tileAt (settlementPlace rid years ti sid st).tiles i) :=
  coreEq_tileAt_set_sett st.tiles ti (some ("settlement_" ++ toString sid)) i

theorem settlementExtraLoop_core (rid : String) (extra years : Nat) :
    ∀ (l : List Nat) (placed sid : Nat) (st : GenState) (i : Nat),
      coreEq (tileAt st.tiles i)
        (tileAt (settlementExtraLoop rid extra years l placed sid st).1.tiles i)
  | [], placed, sid, st, i => coreEq_refl _
  | ti :: rest, placed, sid, st, i => by
      unfold settlementExtraLoop
      dsimp only
      split
      · exact coreEq_refl _
      · split
        · exact settlementExtraLoop_core rid extra years rest _ _ _ i
        · repeat' split
          all_goals
            first
              | exact settlementExtraLoop_core rid extra years rest _ _ _ i
              | exact coreEq_trans (settlementPlace_core rid years ti sid st i)
                  (settlementExtraLoop_core rid extra years rest _ _ _ i)

set_option maxRecDepth 8000 in
theorem deriveSettlementsRealm_core (st : GenState) (sid : Nat) (rid : String)
    (realm_tiles : List Nat) (i : Nat) :
    coreEq (tileAt st.tiles i)
      (tileAt (deriveSettlementsRealm st sid rid realm_tiles).1.tiles i) := by
  unfold deriveSettlementsRealm
  dsimp only
  split
  · exact coreEq_refl _
  · simp only [updateRealm]
    exact coreEq_trans (coreEq_tileAt_set_sett st.tiles _ _ i)
      (settlementExtraLoop_core rid _ _ _ 0 _ _ i)

theorem settFold_core :
    ∀ (l : List (String × List Nat)) (acc : GenState × Nat) (i : Nat),
      coreEq (tileAt acc.1.tiles i)
        (tileAt ((l.foldl
          (fun (acc : GenState × Nat) p =>
            deriveSettlementsRealm acc.1 acc.2 p.1 p.2) acc)).1.tiles i)
  | [], acc, i => coreEq_refl _
  | p :: rest, acc, i => by
      simp only [List.foldl_cons]
      exact coreEq_trans (deriveSettlementsRealm_core acc.1 acc.2 p.1 p.2 i)
        (settFold_core rest _ i)

theorem derive_settlements_core (s : GenState) (i : Nat) :
    coreEq (tileAt s.tiles i) (tileAt (derive_settlements s).tiles i) := by
  unfold derive_settlements
  exact settFold_core _ (s, 1) i

theorem roadsRealm_tiles (st : GenState) (realm : Realm) :
    (roadsRealm st realm).tiles = st.tiles := by
  unfold roadsRealm
  split
  · rfl
  · split
    · rfl
    · rfl

theorem roadsFold_tiles :
    ∀ (l : List Realm) (st : GenState),
      (l.foldl roadsRealm st).tiles = st.tiles
  | [], st => rfl
  | realm :: rest, st => by
      simp only [List.foldl_cons]
      rw [roadsFold_tiles rest _, roadsRealm_tiles]

theorem derive_roads_tiles (s : GenState) : (derive_roads s).tiles = s.tiles := by
  unfold derive_roads
  exact roadsFold_tiles s.realms s

theorem ruinLoop_tiles (border : List Nat) (years : Nat) :
    ∀ (k j : Nat) (s s' : GenState),
      ruinLoop border years k j s = some s' → s'.tiles = s.tiles
  | 0, j, s, s', h => by
      cases h
      rfl
  | k + 1, j, s, s', h => by
      unfold ruinLoop at h
      dsimp only at h
      split at h
      · cases h
      · have h2 := ruinLoop_tiles border years k (j + 1) _ s' h
        exact h2

theorem derive_ruins_tiles (s s' : GenState) (h : derive_ruins s = some s') :
    s'.tiles = s.tiles := by
  unfold derive_ruins at h
  dsimp only at h
  have h2 := ruinLoop_tiles _ s.years _ 0 _ s' h
  exact h2

theorem filter_river_set_le :
    ∀ (l : List Tile) (n : Nat),
      ((l.set n { tileAt l n with river := true }).filter
        (fun t => t.river)).length ≤
        (l.filter (fun t => t.river)).length + 1
  | [], n => by simp
  | a :: l, 0 => by
      have h0 : tileAt (a :: l) 0 = a := rfl
      rw [h0, List.set_cons_zero]
      by_cases ha : a.river = true <;>
        simp [List.filter_cons, ha]
  | a :: l, n + 1 => by
      have hs : tileAt (a :: l) (n + 1) = tileAt l n := rfl
      rw [hs, List.set_cons_succ]
      have h := filter_river_set_le l n
      dsimp only at h
      by_cases ha : a.river = true <;>
        simp [List.filter_cons, ha] <;> omega

theorem riverWalk_marks_le (w hh : Nat) :
    ∀ (fuel x y : Nat) (tiles : List Tile) (r : Rng),
      ((riverWalk w hh fuel x y tiles r).1.filter (fun t => t.river)).length ≤
        (tiles.filter (fun t => t.river)).length +
          (riverWalk w hh fuel x y tiles r).2.2.1
  | 0, x, y, tiles, r => by simp [riverWalk]
  | fuel + 1, x, y, tiles, r => by
      unfold riverWalk
      dsimp only
      split
      · dsimp only
        exact filter_river_set_le tiles (gridIdx w x y)
      next r' heq =>
        rename_i nc
        split
        · dsimp only
          exact filter_river_set_le tiles (gridIdx w x y)
        · split
          · dsimp only
            exact filter_river_set_le tiles (gridIdx w x y)
          · have ih := riverWalk_marks_le w hh fuel nc.1 nc.2
              (tiles.set (gridIdx w x y)
                { tileAt tiles (gridIdx w x y) with river := true }) r'
            have hs := filter_river_set_le tiles (gridIdx w x y)
            dsimp only at ih
            dsimp only at hs
            dsimp only
            omega

/-- C6 counterexample.  On the 2×1 grid `c6Tiles` both tiles are land of
equal elevation `0.62`, so a walk can stop neither on water nor uphill:
the 80-step walk from `(0,0)` oscillates between the two tiles and stops
only because its step budget runs out (`RiverStop.budget` after exactly
80 steps), refuting the claim that every walk "ends either upon the
chosen next tile being water or upon the chosen next tile's elevation
exceeding the current tile's elevation".  The carving stage on the same
grid runs exactly this walk (both tiles end up river-marked). -/
theorem carve_rivers_counterexample :
    (∀ t ∈ c6Tiles, t.water = false) ∧
    (∀ t ∈ c6Tiles, t.elevation = fr 62 100) ∧
    c6Walk.2.2.2 = RiverStop.budget ∧
    c6Walk.2.2.1 = 80 ∧
    (carve_rivers c6State 4).tiles.map (fun t => t.river) = [true, true] := by
  decide

/-- C6 (amended).  Every carved river walk terminates within its 80-step
budget: it executes at most `fuel` (= 80) steps, every tile it touches is
either unchanged or only has its river flag set to `true`, its marked-tile
count grows by at most the number of steps executed, and — when started
on a non-water tile, as `_carve_rivers` always does — it never modifies
any water tile, in particular not the water tile it terminates on.
However the walk ends in one of THREE ways, not two: upon the chosen
next tile being water, upon the chosen next tile's elevation exceeding
the current non-water tile's elevation, or by sheer budget exhaustion
(in which case exactly `fuel` steps were executed); terrain with no
local descent (e.g. two equal-elevation tiles) exercises the third way.
River flags never revert: every later stage (realm spawning, history
simulation, settlements, roads, ruins) preserves all tile fields other
than `realm_id` and `settlement_id`, hence preserves `river = true`. -/
theorem carve_rivers_amended :
    (∀ (w hh fuel x y : Nat) (tiles : List Tile) (r : Rng),
        (riverWalk w hh fuel x y tiles r).2.2.1 ≤ fuel) ∧
    (∀ (w hh fuel x y : Nat) (tiles : List Tile) (r : Rng) (i : Nat),
        tileAt (riverWalk w hh fuel x y tiles r).1 i = tileAt tiles i ∨
        tileAt (riverWalk w hh fuel x y tiles r).1 i =
          { tileAt tiles i with river := true }) ∧
    (∀ (w hh fuel x y : Nat) (tiles : List Tile) (r : Rng),
        ((riverWalk w hh fuel x y tiles r).1.filter
          (fun t => t.river)).length ≤
          (tiles.filter (fun t => t.river)).length +
            (riverWalk w hh fuel x y tiles r).2.2.1) ∧
    (∀ (w hh fuel x y : Nat) (tiles : List Tile) (r : Rng) (i : Nat),
        (tileAt tiles (gridIdx w x y)).water = false →
        (tileAt tiles i).water = true →
        tileAt (riverWalk w hh fuel x y tiles r).1 i = tileAt tiles i) ∧
    (∀ (w hh fuel x y : Nat) (tiles : List Tile) (r : Rng),
        (riverWalk w hh fuel x y tiles r).2.2.2 = RiverStop.budget →
        (riverWalk w hh fuel x y tiles r).2.2.1 = fuel) ∧
    (∀ (s : GenState) (i : Nat),
        coreEq (tileAt s.tiles i) (tileAt (spawn_initial_realms s).tiles i) ∧
        coreEq (tileAt s.tiles i) (tileAt (simulate_history s).tiles i) ∧
        coreEq (tileAt s.tiles i) (tileAt (derive_settlements s).tiles i)) ∧
    (∀ s : GenState, (derive_roads s).tiles = s.tiles) ∧
    (∀ s s' : GenState, derive_ruins s = some s' → s'.tiles = s.tiles) := by
  refine ⟨?_, ?_, ?_, ?_, ?_, ?_, ?_, ?_⟩
  · intro w hh fuel x y tiles r
    exact riverWalk_steps_le w hh fuel x y tiles r
  · intro w hh fuel x y tiles r i
    exact riverWalk_mark w hh fuel x y tiles r i
  · intro w hh fuel x y tiles r
    exact riverWalk_marks_le w hh fuel x y tiles r
  · intro w hh fuel x y tiles r i hb hw
    exact riverWalk_water_untouched w hh fuel x y tiles r i hb hw
  · intro w hh fuel x y tiles r hbud
    exact riverWalk_budget w hh fuel x y tiles r hbud
  · intro s i
    exact ⟨spawn_core s i, simulate_history_core s i,
      derive_settlements_core s i⟩
  · intro s
    exact derive_roads_tiles s
  · intro s s' h
    exact derive_ruins_tiles s s' h

/-- C6 witness: the walk from the land tile `(1,1)` of `c5bState` leaves
the ocean tile `0` untouched; the 80-step walk on `c6Tiles` that stops
with `RiverStop.budget` executed exactly 80 steps; and the successful
ruin derivation on `c3Good` left the tile list unchanged. -/
theorem carve_rivers_amended_witness :
    ((tileAt c5bState.tiles (gridIdx 9 1 1)).water = false ∧
     (tileAt c5bState.tiles 0).water = true ∧
     tileAt (riverWalk 9 3 3 1 1 c5bState.tiles ⟨fun _ => 0, 0⟩).1 0 =
       tileAt c5bState.tiles 0) ∧
    ((riverWalk 2 1 80 0 0 c6Tiles ⟨fun _ => 0, 0⟩).2.2.2 =
       RiverStop.budget ∧
     (riverWalk 2 1 80 0 0 c6Tiles ⟨fun _ => 0, 0⟩).2.2.1 = 80) ∧
    (derive_ruins c3Good = some c3GoodOut ∧
     c3GoodOut.tiles = c3Good.tiles) := by
  refine ⟨⟨by decide, by decide, ?_⟩, ⟨by decide, ?_⟩, ⟨?_, ?_⟩⟩
  · exact carve_rivers_amended.2.2.2.1 9 3 3 1 1 c5bState.tiles
      ⟨fun _ => 0, 0⟩ 0 (by decide) (by decide)
  · exact carve_rivers_amended.2.2.2.2.1 2 1 80 0 0 c6Tiles
      ⟨fun _ => 0, 0⟩ (by decide)
  · rfl
  · exact carve_rivers_amended.2.2.2.2.2.2.2 c3Good c3GoodOut rfl

theorem expandVisitStep_evwh (byR : List (String × List Nat)) (rid : String)
    (size : Nat) (c : Nat × Nat) (acc : GenState × Nat) :
    (expandVisitStep byR rid size c acc).1.events = acc.1.events ∧
    (expandVisitStep byR rid size c acc).1.width = acc.1.width ∧
    (expandVisitStep byR rid size c acc).1.height = acc.1.height := by
  unfold expandVisitStep
  dsimp only
  repeat' split
  all_goals exact ⟨rfl, rfl, rfl⟩

theorem expandVisit_evwh (byR : List (String × List Nat)) (rid : String)
    (size : Nat) :
    ∀ (coords : List (Nat × Nat)) (st : GenState) (grown : Nat),
      (expandVisit byR rid size coords st grown).1.events = st.events ∧
      (expandVisit byR rid size coords st grown).1.width = st.width ∧
      (expandVisit byR rid size coords st grown).1.height = st.height
  | [], st, grown => ⟨rfl, rfl, rfl⟩
  | c :: rest, st, grown => by
      simp only [expandVisit]
      have h1 := expandVisitStep_evwh byR rid size c (st, grown)
      have h2 := expandVisit_evwh byR rid size rest
        (expandVisitStep byR rid size c (st, grown)).1
        (expandVisitStep byR rid size c (st, grown)).2
      exact ⟨h2.1.trans h1.1, h2.2.1.trans h1.2.1, h2.2.2.trans h1.2.2⟩

theorem expandLoop_evwh (byR : List (String × List Nat)) (rid : String)
    (size desired : Nat) :
    ∀ (l : List Nat) (grown attempts : Nat) (st : GenState),
      (expandLoop byR rid size desired l grown attempts st).1.events =
        st.events ∧
      (expandLoop byR rid size desired l grown attempts st).1.width =
        st.width ∧
      (expandLoop byR rid size desired l grown attempts st).1.height =
        st.height
  | [], grown, attempts, st => ⟨rfl, rfl, rfl⟩
  | ti :: rest, grown, attempts, st => by
      unfold expandLoop
      dsimp only
      split
      · exact ⟨rfl, rfl, rfl⟩
      · have h1 := expandVisit_evwh byR rid size
          (neighborCoords st.width st.height (tileAt st.tiles ti).x
            (tileAt st.tiles ti).y) st grown
        split
        · exact h1
        · have h2 := expandLoop_evwh byR rid size desired rest
            (expandVisit byR rid size
              (neighborCoords st.width st.height (tileAt st.tiles ti).x
                (tileAt st.tiles ti).y) st grown).2 (attempts + 1)
            (expandVisit byR rid size
              (neighborCoords st.width st.height (tileAt st.tiles ti).x
                (tileAt st.tiles ti).y) st grown).1
          exact ⟨h2.1.trans h1.1, h2.2.1.trans h1.2.1, h2.2.2.trans h1.2.2⟩

theorem countEmpire_append (l1 l2 : List Event) (rid : String) :
    countEmpire (l1 ++ l2) rid = countEmpire l1 rid + countEmpire l2 rid := by
  unfold countEmpire
  rw [List.filter_append, List.length_append]

theorem countEmpire_zero_iff (l : List Event) (rid : String) :
    countEmpire l rid = 0 ↔
      ∀ e ∈ l, ¬(e.type = "EMPIRE_PEAK" ∧ rid ∈ e.realm_ids) := by
  unfold countEmpire
  rw [List.length_eq_zero, List.filter_eq_nil_iff]
  constructor
  · intro h e he hc
    exact absurd (by simp [hc.1, hc.2]) (h e he)
  · intro h e he hb
    rw [Bool.and_eq_true, beq_iff_eq, decide_eq_true_eq] at hb
    exact h e he hb

theorem countEmpire_singleton_le (e : Event) (rid : String) :
    countEmpire [e] rid ≤ 1 := by
  simp only [countEmpire, List.filter]
  split <;> simp

theorem countEmpire_singleton_notmem (e : Event) (rid : String)
    (h : rid ∉ e.realm_ids) : countEmpire [e] rid = 0 := by
  simp [countEmpire, List.filter, h]

theorem tickRealm_empire_le (byR : List (String × List Nat)) (year : Nat)
    (st : GenState) (p : String × List Nat) (rid : String) :
    countEmpire (tickRealm byR year st p).events rid ≤
      max (countEmpire st.events rid) 1 := by
  unfold tickRealm
  dsimp only
  split
  · exact le_max_left _ _
  · have hev := expandLoop_evwh byR p.1 p.2.length (max 1 (p.2.length / 12))
      (st.rng.shuffle p.2).1 0 0 { st with rng := (st.rng.shuffle p.2).2 }
    split
    next hcond =>
      simp only [updateRealm]
      rw [countEmpire_append, hev.1]
      by_cases hr : rid = p.1
      · subst hr
        have h0 : countEmpire st.events p.1 = 0 := by
          rw [countEmpire_zero_iff]
          intro e he
          exact hcond.2 e (by rw [hev.1]; exact he)
        rw [h0]
        simpa using countEmpire_singleton_le _ p.1
      · rw [countEmpire_singleton_notmem]
        · simp
        · simp [hr]
    · rw [hev.1]
      exact le_max_left _ _

theorem tickFold_empire_le (byR : List (String × List Nat)) (year : Nat) :
    ∀ (l : List (String × List Nat)) (st : GenState) (rid : String),
      countEmpire ((l.foldl (tickRealm byR year) st)).events rid ≤
        max (countEmpire st.events rid) 1
  | [], st, rid => le_max_left _ _
  | p :: rest, st, rid => by
      simp only [List.foldl_cons]
      have h1 := tickRealm_empire_le byR year st p rid
      have h2 := tickFold_empire_le byR year rest (tickRealm byR year st p) rid
      omega

theorem realm_expansion_tick_empire_le (s : GenState) (year : Nat)
    (rid : String) :
    countEmpire (realm_expansion_tick s year).events rid ≤
      max (countEmpire s.events rid) 1 := by
  unfold realm_expansion_tick
  exact tickFold_empire_le _ year _ s rid

theorem tickRealm_empire_fire (byR : List (String × List Nat)) (year : Nat)
    (st : GenState) (p : String × List Nat) (rid : String)
    (h : countEmpire st.events rid <
      countEmpire (tickRealm byR year st p).events rid) :
    rid = p.1 ∧ countEmpire st.events rid = 0 ∧
    countEmpire (tickRealm byR year st p).events rid = 1 ∧
    natF (st.width * st.height) * fr 18 100 < natF p.2.length := by
  unfold tickRealm at h ⊢
  dsimp only at h ⊢
  rcases hfind : findRealm st p.1 with _ | realm
  · simp only [hfind] at h
    exact absurd h (lt_irrefl _)
  · simp only [hfind] at h ⊢
    have hev := expandLoop_evwh byR p.1 p.2.length (max 1 (p.2.length / 12))
      (st.rng.shuffle p.2).1 0 0 { st with rng := (st.rng.shuffle p.2).2 }
    have hev2 : (expandLoop byR p.1 p.2.length (max 1 (p.2.length / 12))
        (st.rng.shuffle p.2).1 0 0
        { st with rng := (st.rng.shuffle p.2).2 }).1.events = st.events :=
      hev.1
    have hw2 : (expandLoop byR p.1 p.2.length (max 1 (p.2.length / 12))
        (st.rng.shuffle p.2).1 0 0
        { st with rng := (st.rng.shuffle p.2).2 }).1.width = st.width :=
      hev.2.1
    have hh2 : (expandLoop byR p.1 p.2.length (max 1 (p.2.length / 12))
        (st.rng.shuffle p.2).1 0 0
        { st with rng := (st.rng.shuffle p.2).2 }).1.height = st.height :=
      hev.2.2
    split at h
    next hcond =>
      rw [if_pos hcond]
      simp only [updateRealm] at h ⊢
      rw [countEmpire_append, hev2] at h ⊢
      by_cases hr : rid = p.1
      · subst hr
        have h0 : countEmpire st.events p.1 = 0 := by
          rw [countEmpire_zero_iff]
          intro e he
          exact hcond.2 e (by rw [hev2]; exact he)
        refine ⟨rfl, h0, ?_, ?_⟩
        · rw [h0]
          simp [countEmpire, List.filter]
        · rw [hw2, hh2] at hcond
          exact hcond.1
      · rw [countEmpire_singleton_notmem _ _ (by simp [hr])] at h
        exact absurd h (by omega)
    next hcond =>
      rw [if_neg hcond] at *
      rw [hev2] at h
      exact absurd h (lt_irrefl _)

theorem crisis_empire (s : GenState) (year : Nat) (rid : String) :
    countEmpire (random_crisis s year).events rid =
      countEmpire s.events rid := by
  unfold random_crisis
  dsimp only
  split
  · rfl
  · split
    · rfl
    · split
      · rfl
      · split
        next hctype =>
          split
          · rfl
          · simp only [appendEvent]
            rw [countEmpire_append]
            rcases hctype with hc | hc <;>
              rw [hc] <;> simp [countEmpire, List.filter]
        next hctype =>
          split
          · rfl
          · have hmem := Rng.choiceT_mem
              ({ s with rng := (s.rng.choiceT ((s.realms.filter
                  (fun r => 0 < realm_tile_count s r.id)).map (·.id)) "").2
                } : GenState).rng
              ["PLAGUE", "CIVIL_WAR", "SUCCESSION"] "" (by simp)
            simp only [List.mem_cons, List.mem_singleton] at hmem
            rcases hmem with hc | hc | hc | hc
            · exact absurd (Or.inl hc) hctype
            · simp only [appendEvent]
              rw [countEmpire_append, hc]
              simp [countEmpire, List.filter]
            · exact absurd (Or.inr hc) hctype
            · exact absurd hc (List.not_mem_nil _)

theorem carveFold_events :
    ∀ (starts : List Tile) (st : GenState),
      (starts.foldl (fun st t =>
        let res := riverWalk st.width st.height 80 t.x t.y st.tiles st.rng
        { st with tiles := res.1, rng := res.2.1 }) st).events = st.events
  | [], st => rfl
  | t :: rest, st => by
      simp only [List.foldl_cons]
      exact carveFold_events rest _

theorem carve_events (st : GenState) (count : Nat) :
    (carve_rivers st count).events = st.events := by
  unfold carve_rivers
  dsimp only
  split
  · rfl
  · exact carveFold_events _ _

theorem enforce_events (s : GenState) :
    (enforce_continent_connectivity s).events = s.events := by
  unfold enforce_continent_connectivity
  dsimp only
  split
  · rfl
  · split
    · rfl
    · rfl

theorem base_events (s : GenState) :
    (generate_base_tiles s).events = s.events := by
  unfold generate_base_tiles
  dsimp only
  rw [carve_events]
  split
  · exact enforce_events _
  · rfl

theorem spawnLoop_events (target : Nat) (fertile : List Nat) :
    ∀ (rem j : Nat) (used : List (Nat × Nat)) (s : GenState),
      (spawnLoop target fertile rem j used s).1.events = s.events
  | 0, j, used, s => rfl
  | rem + 1, j, used, s => by
      unfold spawnLoop
      dsimp only
      split
      · rfl
      · split
        · rfl
        · split
          · exact spawnLoop_events target fertile rem _ _ s
          · exact spawnLoop_events target fertile rem _ _ _

theorem spawn_events (s : GenState) :
    (spawn_initial_realms s).events = s.events := by
  unfold spawn_initial_realms
  dsimp only
  split
  · exact spawnLoop_events _ _ _ 0 [] _
  · exact spawnLoop_events _ _ _ 0 [] _

theorem settlementExtraLoop_events (rid : String) (extra years : Nat) :
    ∀ (l : List Nat) (placed sid : Nat) (st : GenState),
      (settlementExtraLoop rid extra years l placed sid st).1.events =
        st.events
  | [], placed, sid, st => rfl
  | ti :: rest, placed, sid, st => by
      unfold settlementExtraLoop
      dsimp only
      split
      · rfl
      · split
        · exact settlementExtraLoop_events rid extra years rest _ _ st
        · repeat' split
          all_goals exact settlementExtraLoop_events rid extra years rest _ _ _

theorem deriveSettlementsRealm_events (st : GenState) (sid : Nat)
    (rid : String) (realm_tiles : List Nat) :
    (deriveSettlementsRealm st sid rid realm_tiles).1.events = st.events := by
  unfold deriveSettlementsRealm
  dsimp only
  split
  · rfl
  · simp only [updateRealm]
    exact settlementExtraLoop_events rid _ _ _ 0 _ _

theorem settFold_events :
    ∀ (l : List (String × List Nat)) (acc : GenState × Nat),
      ((l.foldl (fun (acc : GenState × Nat) p =>
        deriveSettlementsRealm acc.1 acc.2 p.1 p.2) acc)).1.events =
        acc.1.events
  | [], acc => rfl
  | p :: rest, acc => by
      simp only [List.foldl_cons]
      rw [settFold_events rest _, deriveSettlementsRealm_events]

theorem derive_settlements_events (s : GenState) :
    (derive_settlements s).events = s.events := by
  unfold derive_settlements
  exact settFold_events _ (s, 1)

theorem roadsRealm_events (st : GenState) (realm : Realm) :
    (roadsRealm st realm).events = st.events := by
  unfold roadsRealm
  split
  · rfl
  · split
    · rfl
    · rfl

theorem roadsFold_events :
    ∀ (l : List Realm) (st : GenState),
      (l.foldl roadsRealm st).events = st.events
  | [], st => rfl
  | realm :: rest, st => by
      simp only [List.foldl_cons]
      rw [roadsFold_events rest _, roadsRealm_events]

theorem derive_roads_events (s : GenState) :
    (derive_roads s).events = s.events := by
  unfold derive_roads
  exact roadsFold_events s.realms s

theorem ruinLoop_events (border : List Nat) (years : Nat) :
    ∀ (k j : Nat) (s s' : GenState),
      ruinLoop border years k j s = some s' → s'.events = s.events
  | 0, j, s, s', h => by
      cases h
      rfl
  | k + 1, j, s, s', h => by
      unfold ruinLoop at h
      dsimp only at h
      split at h
      · cases h
      · have h2 := ruinLoop_events border years k (j + 1) _ s' h
        exact h2

theorem derive_ruins_events (s s' : GenState) (h : derive_ruins s = some s') :
    s'.events = s.events := by
  unfold derive_ruins at h
  dsimp only at h
  have h2 := ruinLoop_events _ s.years _ 0 _ s' h
  exact h2

theorem simLoop_empire (step : Nat) :
    ∀ (fuel current : Nat) (s : GenState) (rid : String),
      countEmpire s.events rid ≤ 1 →
      countEmpire (simLoop step fuel current s).events rid ≤ 1
  | 0, current, s, rid, h => h
  | fuel + 1, current, s, rid, h => by
      unfold simLoop
      dsimp only
      split
      · apply simLoop_empire step fuel (current + step) _ rid
        have ht := realm_expansion_tick_empire_le s (current + step) rid
        split
        · rw [crisis_empire]
          dsimp only
          omega
        · dsimp only
          omega
      · exact h

theorem simulate_history_empire (s : GenState) (rid : String)
    (h : countEmpire s.events rid ≤ 1) :
    countEmpire (simulate_history s).events rid ≤ 1 := by
  unfold simulate_history
  dsimp only
  split
  · exact h
  · simp only [clearStrengths, setStrengths]
    exact simLoop_empire _ _ 0 _ rid h

theorem generate_region_empire (width height years seed : Nat)
    (sea_level : Frac) (mode : String) (tape : Nat → Nat) (doc : RegionDoc)
    (h : generate_region width height years seed sea_level mode tape =
      some doc) (rid : String) :
    countEmpire doc.events rid ≤ 1 := by
  unfold generate_region at h
  dsimp only at h
  split at h
  · cases h
  next s6 heq =>
    cases h
    show countEmpire s6.events rid ≤ 1
    rw [derive_ruins_events _ s6 heq, derive_roads_events,
      derive_settlements_events]
    apply simulate_history_empire
    rw [spawn_events, base_events]
    show countEmpire ([] : List Event) rid ≤ 1
    simp [countEmpire]

/-- C4 (amended).  At most one EMPIRE_PEAK event per realm is confirmed:
the per-realm tick body appends an EMPIRE_PEAK event for `rid` only when
none exists yet (and then exactly one exists), a tick can push the count
at most to 1, crises never append EMPIRE_PEAK events, and any complete
pipeline run has at most one EMPIRE_PEAK event per realm id.  The firing
condition, however, is evaluated against the START-OF-TICK snapshot: an
event for a realm fires exactly when the snapshot bucket size
`p.2.length` — the number of tiles the realm owned when the tick began,
not its current territory — exceeds 18% of the grid area, so the event
can record a "peak" for a realm whose territory has already been annexed
below the threshold by realms processed earlier in the same tick. -/
theorem empire_peak_amended :
    (∀ (byR : List (String × List Nat)) (year : Nat) (st : GenState)
        (p : String × List Nat) (rid : String),
        countEmpire st.events rid <
          countEmpire (tickRealm byR year st p).events rid →
        rid = p.1 ∧ countEmpire st.events rid = 0 ∧
        countEmpire (tickRealm byR year st p).events rid = 1 ∧
        natF (st.width * st.height) * fr 18 100 < natF p.2.length) ∧
    (∀ (s : GenState) (year : Nat) (rid : String),
        countEmpire (realm_expansion_tick s year).events rid ≤
          max (countEmpire s.events rid) 1) ∧
    (∀ (s : GenState) (year : Nat) (rid : String),
        countEmpire (random_crisis s year).events rid =
          countEmpire s.events rid) ∧
    (∀ (width height years seed : Nat) (sea_level : Frac) (mode : String)
        (tape : Nat → Nat) (doc : RegionDoc),
        generate_region width height years seed sea_level mode tape =
          some doc →
        ∀ rid : String, countEmpire doc.events rid ≤ 1) := by
  refine ⟨?_, ?_, ?_, ?_⟩
  · intro byR year st p rid h
    exact tickRealm_empire_fire byR year st p rid h
  · intro s year rid
    exact realm_expansion_tick_empire_le s year rid
  · intro s year rid
    exact crisis_empire s year rid
  · intro width height years seed sea_level mode tape doc h rid
    exact generate_region_empire width height years seed sea_level mode tape
      doc h rid

/-- C4 witness: on `c5aState` (one realm owning 1 of 3 tiles, above the
18% threshold) the tick body fires exactly one EMPIRE_PEAK event for
that realm, and the small complete pipeline run `c4SmallDoc` has at most
one EMPIRE_PEAK event per realm. -/
theorem empire_peak_amended_witness :
    (countEmpire c5aState.events "realm_1" <
       countEmpire (tickRealm (tilesByRealm c5aState) 10 c5aState
         ("realm_1", [1])).events "realm_1" ∧
     ("realm_1" = ("realm_1", ([1] : List Nat)).1 ∧
      countEmpire c5aState.events "realm_1" = 0 ∧
      countEmpire (tickRealm (tilesByRealm c5aState) 10 c5aState
        ("realm_1", [1])).events "realm_1" = 1 ∧
      natF (c5aState.width * c5aState.height) * fr 18 100 <
        natF ("realm_1", ([1] : List Nat)).2.length)) ∧
    (generate_region 4 3 10 0 (fr 35 100) "continent" (fun _ => 0) =
       some c4SmallDoc ∧
     countEmpire c4SmallDoc.events "realm_1" ≤ 1) := by
  refine ⟨⟨by decide, ?_⟩, ⟨?hpipe, ?_⟩⟩
  · exact empire_peak_amended.1 (tilesByRealm c5aState) 10 c5aState
      ("realm_1", [1]) "realm_1" (by decide)
  case hpipe => rfl
  · exact empire_peak_amended.2.2.2 4 3 10 0 (fr 35 100) "continent"
      (fun _ => 0) c4SmallDoc rfl "realm_1"

theorem tileAt_append_left (l1 l2 : List Tile) (i : Nat) (h : i < l1.length) :
    tileAt (l1 ++ l2) i = tileAt l1 i := by
  simp [tileAt, List.getD, List.getElem?_append, h]

theorem tileAt_concat_self (l : List Tile) (t : Tile) :
    tileAt (l ++ [t]) l.length = t := by
  simp [tileAt, List.getD, List.getElem?_concat_length]

theorem range_getD {k n : Nat} (h : k < n) : (List.range n).getD k 0 = k := by
  simp [List.getD, List.getElem?_range h]

theorem contTileStep_shape (w h : Nat) (sl : Frac) (x y : Nat) (r : Rng) :
    ∃ e m, (contTileStep w h sl x y r).1 = mkBaseTile sl x y e m :=
  ⟨_, _, rfl⟩

theorem archTileStep_shape (h : Nat) (sl : Frac)
    (centers : List (Int × Int × Frac)) (x y : Nat) (r : Rng) :
    ∃ e m, (archTileStep h sl centers x y r).1 = mkBaseTile sl x y e m :=
  ⟨_, _, rfl⟩

theorem contRowFold_spec (w h : Nat) (sl : Frac) (y : Nat) :
    ∀ (xs : List Nat) (acc : List Tile × Rng),
      (contRowFold w h sl y xs acc).1.length = acc.1.length + xs.length ∧
      (∀ i, i < acc.1.length →
        tileAt (contRowFold w h sl y xs acc).1 i = tileAt acc.1 i) ∧
      (∀ k, k < xs.length → ∃ e m,
        tileAt (contRowFold w h sl y xs acc).1 (acc.1.length + k) =
          mkBaseTile sl (xs.getD k 0) y e m)
  | [], acc =>
      ⟨by simp [contRowFold], fun i _ => rfl,
       fun k hk => absurd hk (Nat.not_lt_zero k)⟩
  | x :: xs, acc => by
      have ih := contRowFold_spec w h sl y xs
        (acc.1 ++ [(contTileStep w h sl x y acc.2).1],
         (contTileStep w h sl x y acc.2).2)
      have hstep : contRowFold w h sl y (x :: xs) acc =
          contRowFold w h sl y xs
            (acc.1 ++ [(contTileStep w h sl x y acc.2).1],
             (contTileStep w h sl x y acc.2).2) := by
        simp only [contRowFold, List.foldl_cons]
      rw [hstep]
      obtain ⟨ihl, ihp, ihn⟩ := ih
      dsimp only at ihl ihp ihn
      have hlen : (acc.1 ++ [(contTileStep w h sl x y acc.2).1]).length =
          acc.1.length + 1 := by
        simp
      refine ⟨?_, ?_, ?_⟩
      · rw [ihl, hlen]
        simp only [List.length_cons]
        omega
      · intro i hi
        rw [ihp i (by rw [hlen]; omega)]
        exact tileAt_append_left acc.1 _ i hi
      · intro k hk
        cases k with
        | zero =>
            obtain ⟨e, m, hem⟩ := contTileStep_shape w h sl x y acc.2
            refine ⟨e, m, ?_⟩
            have hpre := ihp acc.1.length (by rw [hlen]; omega)
            rw [Nat.add_zero, hpre, tileAt_concat_self]
            exact hem
        | succ kk =>
            obtain ⟨e, m, hem⟩ := ihn kk (by
              simp only [List.length_cons] at hk
              omega)
            refine ⟨e, m, ?_⟩
            have hidx : acc.1.length + (kk + 1) =
                (acc.1 ++ [(contTileStep w h sl x y acc.2).1]).length + kk := by
              rw [hlen]
              omega
            rw [hidx]
            exact hem

theorem archRowFold_spec (h : Nat) (sl : Frac)
    (centers : List (Int × Int × Frac)) (y : Nat) :
    ∀ (xs : List Nat) (acc : List Tile × Rng),
      (archRowFold h sl centers y xs acc).1.length =
        acc.1.length + xs.length ∧
      (∀ i, i < acc.1.length →
        tileAt (archRowFold h sl centers y xs acc).1 i = tileAt acc.1 i) ∧
      (∀ k, k < xs.length → ∃ e m,
        tileAt (archRowFold h sl centers y xs acc).1 (acc.1.length + k) =
          mkBaseTile sl (xs.getD k 0) y e m)
  | [], acc =>
      ⟨by simp [archRowFold], fun i _ => rfl,
       fun k hk => absurd hk (Nat.not_lt_zero k)⟩
  | x :: xs, acc => by
      have ih := archRowFold_spec h sl centers y xs
        (acc.1 ++ [(archTileStep h sl centers x y acc.2).1],
         (archTileStep h sl centers x y acc.2).2)
      have hstep : archRowFold h sl centers y (x :: xs) acc =
          archRowFold h sl centers y xs
            (acc.1 ++ [(archTileStep h sl centers x y acc.2).1],
             (archTileStep h sl centers x y acc.2).2) := by
        simp only [archRowFold, List.foldl_cons]
      rw [hstep]
      obtain ⟨ihl, ihp, ihn⟩ := ih
      dsimp only at ihl ihp ihn
      have hlen : (acc.1 ++ [(archTileStep h sl centers x y acc.2).1]).length =
          acc.1.length + 1 := by
        simp
      refine ⟨?_, ?_, ?_⟩
      · rw [ihl, hlen]
        simp only [List.length_cons]
        omega
      · intro i hi
        rw [ihp i (by rw [hlen]; omega)]
        exact tileAt_append_left acc.1 _ i hi
      · intro k hk
        cases k with
        | zero =>
            obtain ⟨e, m, hem⟩ := archTileStep_shape h sl centers x y acc.2
            refine ⟨e, m, ?_⟩
            have hpre := ihp acc.1.length (by rw [hlen]; omega)
            rw [Nat.add_zero, hpre, tileAt_concat_self]
            exact hem
        | succ kk =>
            obtain ⟨e, m, hem⟩ := ihn kk (by
              simp only [List.length_cons] at hk
              omega)
            refine ⟨e, m, ?_⟩
            have hidx : acc.1.length + (kk + 1) =
                (acc.1 ++ [(archTileStep h sl centers x y acc.2).1]).length +
                  kk := by
              rw [hlen]
              omega
            rw [hidx]
            exact hem

theorem contBuild_spec (w h : Nat) (sl : Frac) :
    ∀ (ys : List Nat) (acc : List Tile × Rng),
      ((ys.foldl (fun (acc : List Tile × Rng) y =>
          contRowFold w h sl y (List.range w) acc) acc)).1.length =
        acc.1.length + ys.length * w ∧
      (∀ i, i < acc.1.length →
        tileAt ((ys.foldl (fun (acc : List Tile × Rng) y =>
          contRowFold w h sl y (List.range w) acc) acc)).1 i =
          tileAt acc.1 i) ∧
      (∀ j k, j < ys.length → k < w → ∃ e m,
        tileAt ((ys.foldl (fun (acc : List Tile × Rng) y =>
          contRowFold w h sl y (List.range w) acc) acc)).1
            (acc.1.length + j * w + k) =
          mkBaseTile sl k (ys.getD j 0) e m)
  | [], acc =>
      ⟨by simp, fun i _ => rfl,
       fun j k hj _ => absurd hj (Nat.not_lt_zero j)⟩
  | yy :: ys, acc => by
      have hrow := contRowFold_spec w h sl yy (List.range w) acc
      have ih := contBuild_spec w h sl ys
        (contRowFold w h sl yy (List.range w) acc)
      simp only [List.foldl_cons]
      obtain ⟨rl, rp, rn⟩ := hrow
      obtain ⟨il, ip, inw⟩ := ih
      have hrl : (contRowFold w h sl yy (List.range w) acc).1.length =
          acc.1.length + w := by
        rw [rl, List.length_range]
      refine ⟨?_, ?_, ?_⟩
      · rw [il, hrl]
        simp only [List.length_cons, Nat.succ_mul]
        omega
      · intro i hi
        rw [ip i (by rw [hrl]; omega)]
        exact rp i hi
      · intro j k hj hk
        cases j with
        | zero =>
            obtain ⟨e, m, hem⟩ := rn k (by rw [List.length_range]; exact hk)
            refine ⟨e, m, ?_⟩
            have hkrow : acc.1.length + 0 * w + k <
                (contRowFold w h sl yy (List.range w) acc).1.length := by
              rw [hrl]
              omega
            rw [ip _ hkrow]
            have hzi : acc.1.length + 0 * w + k = acc.1.length + k := by omega
            rw [hzi, hem, range_getD hk]
            rfl
        | succ jj =>
            obtain ⟨e, m, hem⟩ := inw jj k (by
              simp only [List.length_cons] at hj
              omega) hk
            refine ⟨e, m, ?_⟩
            have hidx : acc.1.length + (jj + 1) * w + k =
                (contRowFold w h sl yy (List.range w) acc).1.length +
                  jj * w + k := by
              rw [hrl]
              simp only [Nat.succ_mul]
              omega
            rw [hidx]
            exact hem

theorem archBuild_spec (w h : Nat) (sl : Frac)
    (centers : List (Int × Int × Frac)) :
    ∀ (ys : List Nat) (acc : List Tile × Rng),
      ((ys.foldl (fun (acc : List Tile × Rng) y =>
          archRowFold h sl centers y (List.range w) acc) acc)).1.length =
        acc.1.length + ys.length * w ∧
      (∀ i, i < acc.1.length →
        tileAt ((ys.foldl (fun (acc : List Tile × Rng) y =>
          archRowFold h sl centers y (List.range w) acc) acc)).1 i =
          tileAt acc.1 i) ∧
      (∀ j k, j < ys.length → k < w → ∃ e m,
        tileAt ((ys.foldl (fun (acc : List Tile × Rng) y =>
          archRowFold h sl centers y (List.range w) acc) acc)).1
            (acc.1.length + j * w + k) =
          mkBaseTile sl k (ys.getD j 0) e m)
  | [], acc =>
      ⟨by simp, fun i _ => rfl,
       fun j k hj _ => absurd hj (Nat.not_lt_zero j)⟩
  | yy :: ys, acc => by
      have hrow := archRowFold_spec h sl centers yy (List.range w) acc
      have ih := archBuild_spec w h sl centers ys
        (archRowFold h sl centers yy (List.range w) acc)
      simp only [List.foldl_cons]
      obtain ⟨rl, rp, rn⟩ := hrow
      obtain ⟨il, ip, inw⟩ := ih
      have hrl : (archRowFold h sl centers yy (List.range w) acc).1.length =
          acc.1.length + w := by
        rw [rl, List.length_range]
      refine ⟨?_, ?_, ?_⟩
      · rw [il, hrl]
        simp only [List.length_cons, Nat.succ_mul]
        omega
      · intro i hi
        rw [ip i (by rw [hrl]; omega)]
        exact rp i hi
      · intro j k hj hk
        cases j with
        | zero =>
            obtain ⟨e, m, hem⟩ := rn k (by rw [List.length_range]; exact hk)
            refine ⟨e, m, ?_⟩
            have hkrow : acc.1.length + 0 * w + k <
                (archRowFold h sl centers yy (List.range w) acc).1.length := by
              rw [hrl]
              omega
            rw [ip _ hkrow]
            have hzi : acc.1.length + 0 * w + k = acc.1.length + k := by omega
            rw [hzi, hem, range_getD hk]
            rfl
        | succ jj =>
            obtain ⟨e, m, hem⟩ := inw jj k (by
              simp only [List.length_cons] at hj
              omega) hk
            refine ⟨e, m, ?_⟩
            have hidx : acc.1.length + (jj + 1) * w + k =
                (archRowFold h sl centers yy (List.range w) acc).1.length +
                  jj * w + k := by
              rw [hrl]
              simp only [Nat.succ_mul]
              omega
            rw [hidx]
            exact hem

theorem buildContinentTiles_spec (w h : Nat) (sl : Frac) (r : Rng) :
    (buildContinentTiles w h sl r).1.length = h * w ∧
    (∀ i, i < h * w → ∃ e m,
      tileAt (buildContinentTiles w h sl r).1 i =
        mkBaseTile sl (i % w) (i / w) e m) := by
  have hb := contBuild_spec w h sl (List.range h) ([], r)
  obtain ⟨bl, bp, bn⟩ := hb
  unfold buildContinentTiles
  constructor
  · rw [bl]
    simp [List.length_range]
  · intro i hi
    have hw : 0 < w := by
      rcases Nat.eq_zero_or_pos w with h0 | h0
      · rw [h0, Nat.mul_zero] at hi
        exact absurd hi (Nat.not_lt_zero i)
      · exact h0
    have hj : i / w < h := (Nat.div_lt_iff_lt_mul hw).mpr hi
    have hk : i % w < w := Nat.mod_lt i hw
    obtain ⟨e, m, hem⟩ := bn (i / w) (i % w)
      (by rw [List.length_range]; exact hj) hk
    refine ⟨e, m, ?_⟩
    rw [range_getD hj] at hem
    have hdm := Nat.div_add_mod i w
    have hidx : (([] : List Tile), r).1.length + (i / w) * w + i % w = i := by
      dsimp only
      rw [List.length_nil, Nat.zero_add, Nat.mul_comm]
      exact hdm
    rw [hidx] at hem
    exact hem

theorem buildArchipelagoTiles_spec (w h : Nat) (sl : Frac) (r : Rng) :
    (buildArchipelagoTiles w h sl r).1.length = h * w ∧
    (∀ i, i < h * w → ∃ e m,
      tileAt (buildArchipelagoTiles w h sl r).1 i =
        mkBaseTile sl (i % w) (i / w) e m) := by
  unfold buildArchipelagoTiles
  dsimp only
  have hb := archBuild_spec w h sl
    (((List.range (max 2 (w * h / 800))).foldl
      (fun (acc : List (Int × Int × Frac) × Rng) _ =>
        let p := archCenterStep w h acc.2
        (acc.1 ++ [p.1], p.2)) ([], r))).1
    (List.range h)
    ([], (((List.range (max 2 (w * h / 800))).foldl
      (fun (acc : List (Int × Int × Frac) × Rng) _ =>
        let p := archCenterStep w h acc.2
        (acc.1 ++ [p.1], p.2)) ([], r))).2)
  obtain ⟨bl, bp, bn⟩ := hb
  constructor
  · rw [bl]
    simp [List.length_range]
  · intro i hi
    have hw : 0 < w := by
      rcases Nat.eq_zero_or_pos w with h0 | h0
      · rw [h0, Nat.mul_zero] at hi
        exact absurd hi (Nat.not_lt_zero i)
      · exact h0
    have hj : i / w < h := (Nat.div_lt_iff_lt_mul hw).mpr hi
    have hk : i % w < w := Nat.mod_lt i hw
    obtain ⟨e, m, hem⟩ := bn (i / w) (i % w)
      (by rw [List.length_range]; exact hj) hk
    refine ⟨e, m, ?_⟩
    rw [range_getD hj] at hem
    have hidx : (0 : Nat) + (i / w) * w + i % w = i := by
      rw [Nat.zero_add, Nat.mul_comm (i / w) w]
      exact Nat.div_add_mod i w
    dsimp only at hem
    simp only [List.length_nil] at hem
    rw [hidx] at hem
    exact hem

theorem choose_biome_water (e m : Frac) : choose_biome e m true = .ocean := rfl

theorem choose_biome_not_ocean (e m : Frac) :
    choose_biome e m false ≠ .ocean := by
  unfold choose_biome
  simp only [Bool.false_eq_true, if_false]
  repeat' split
  all_goals simp

theorem mkBaseTile_waterOcean (sl : Frac) (x y : Nat) (e m : Frac) :
    ((mkBaseTile sl x y e m).water = true ↔
      (mkBaseTile sl x y e m).biome = .ocean) := by
  unfold mkBaseTile
  dsimp only
  by_cases he : e < sl
  · simp [he, choose_biome_water]
  · simp [he, choose_biome_not_ocean]

theorem tileAt_oob (l : List Tile) (i : Nat) (h : l.length ≤ i) :
    tileAt l i = default := by
  simp [tileAt, List.getD, List.getElem?_eq_none h]

theorem convertToOcean_mark :
    ∀ (idcs : List Nat) (ts : List Tile) (i : Nat),
      tileAt (convertToOcean ts idcs) i = tileAt ts i ∨
      tileAt (convertToOcean ts idcs) i =
        { tileAt ts i with water := true, biome := .ocean, river := false,
                           realm_id := none, settlement_id := none }
  | [], ts, i => Or.inl rfl
  | j :: rest, ts, i => by
      have hone : tileAt (ts.set j
          { tileAt ts j with water := true, biome := .ocean, river := false,
                             realm_id := none, settlement_id := none }) i =
            tileAt ts i ∨
          tileAt (ts.set j
            { tileAt ts j with water := true, biome := .ocean, river := false,
                               realm_id := none, settlement_id := none }) i =
            { tileAt ts i with water := true, biome := .ocean, river := false,
                               realm_id := none, settlement_id := none } := by
        rw [tileAt_set]
        split
        next hc => exact Or.inr (by rw [hc.1])
        · exact Or.inl rfl
      have hstep : convertToOcean ts (j :: rest) =
          convertToOcean (ts.set j
            { tileAt ts j with water := true, biome := .ocean, river := false,
                               realm_id := none, settlement_id := none })
            rest := by
        simp only [convertToOcean, List.foldl_cons]
      rw [hstep]
      rcases convertToOcean_mark rest (ts.set j
          { tileAt ts j with water := true, biome := .ocean, river := false,
                             realm_id := none, settlement_id := none }) i with
        hih | hih <;> rw [hih] <;> rcases hone with hs | hs <;> rw [hs]
      · exact Or.inl rfl
      · exact Or.inr rfl
      · exact Or.inr rfl
      · exact Or.inr rfl

theorem enforce_mark (s : GenState) (i : Nat) :
    tileAt (enforce_continent_connectivity s).tiles i = tileAt s.tiles i ∨
    tileAt (enforce_continent_connectivity s).tiles i =
      { tileAt s.tiles i with water := true, biome := .ocean, river := false,
                              realm_id := none, settlement_id := none } := by
  unfold enforce_continent_connectivity
  dsimp only
  split
  · exact Or.inl rfl
  · split
    · exact Or.inl rfl
    · exact convertToOcean_mark _ s.tiles i

theorem enforce_land_untouched (s : GenState) (i : Nat)
    (h : (tileAt (enforce_continent_connectivity s).tiles i).water = false) :
    tileAt (enforce_continent_connectivity s).tiles i = tileAt s.tiles i := by
  rcases enforce_mark s i with hm | hm
  · exact hm
  · rw [hm] at h
    exact absurd h (by simp)

theorem riverWalk_wb (w hh fuel x y : Nat) (tiles : List Tile) (r : Rng)
    (i : Nat) :
    (tileAt (riverWalk w hh fuel x y tiles r).1 i).water =
      (tileAt tiles i).water ∧
    (tileAt (riverWalk w hh fuel x y tiles r).1 i).biome =
      (tileAt tiles i).biome := by
  rcases riverWalk_mark w hh fuel x y tiles r i with h | h <;> rw [h] <;>
    exact ⟨rfl, rfl⟩

theorem carveFold_wb :
    ∀ (starts : List Tile) (st : GenState) (i : Nat),
      (tileAt (starts.foldl (fun st t =>
        let res := riverWalk st.width st.height 80 t.x t.y st.tiles st.rng
        { st with tiles := res.1, rng := res.2.1 }) st).tiles i).water =
        (tileAt st.tiles i).water ∧
      (tileAt (starts.foldl (fun st t =>
        let res := riverWalk st.width st.height 80 t.x t.y st.tiles st.rng
        { st with tiles := res.1, rng := res.2.1 }) st).tiles i).biome =
        (tileAt st.tiles i).biome
  | [], st, i => ⟨rfl, rfl⟩
  | t :: rest, st, i => by
      simp only [List.foldl_cons]
      have h1 := riverWalk_wb st.width st.height 80 t.x t.y st.tiles st.rng i
      have h2 := carveFold_wb rest
        { st with
            tiles := (riverWalk st.width st.height 80 t.x t.y st.tiles
              st.rng).1,
            rng := (riverWalk st.width st.height 80 t.x t.y st.tiles
              st.rng).2.1 } i
      exact ⟨h2.1.trans h1.1, h2.2.trans h1.2⟩

theorem carve_wb (st : GenState) (count : Nat) (i : Nat) :
    (tileAt (carve_rivers st count).tiles i).water =
      (tileAt st.tiles i).water ∧
    (tileAt (carve_rivers st count).tiles i).biome =
      (tileAt st.tiles i).biome := by
  unfold carve_rivers
  dsimp only
  split
  · exact ⟨rfl, rfl⟩
  · exact carveFold_wb _ _ i

theorem coreEq_wb {t t' : Tile} (h : coreEq t t') :
    t'.water = t.water ∧ t'.biome = t.biome :=
  ⟨h.2.2.2.2.2.1, h.2.2.2.2.1⟩

theorem waterOceanInv_of_wb {ts ts' : List Tile}
    (h : ∀ i, (tileAt ts' i).water = (tileAt ts i).water ∧
      (tileAt ts' i).biome = (tileAt ts i).biome)
    (hw : waterOceanInv ts) : waterOceanInv ts' := by
  intro i
  rw [(h i).1, (h i).2]
  exact hw i

theorem generate_base_waterOcean (s : GenState) :
    waterOceanInv (generate_base_tiles s).tiles := by
  unfold generate_base_tiles
  dsimp only
  apply waterOceanInv_of_wb (fun i => carve_wb _ _ i)
  split
  · intro i
    rcases enforce_mark
        { s with
          tiles := (buildContinentTiles s.width s.height s.base_sea_level
            s.rng).1,
          rng := (buildContinentTiles s.width s.height s.base_sea_level
            s.rng).2 } i with hm | hm
    · rw [hm]
      show ((tileAt (buildContinentTiles s.width s.height s.base_sea_level
          s.rng).1 i).water = true ↔ _)
      by_cases hi : i < s.height * s.width
      · obtain ⟨e, m, hem⟩ := (buildContinentTiles_spec s.width s.height
          s.base_sea_level s.rng).2 i hi
        rw [hem]
        exact mkBaseTile_waterOcean _ _ _ _ _
      · have hlen : (buildContinentTiles s.width s.height s.base_sea_level
            s.rng).1.length ≤ i := by
          rw [(buildContinentTiles_spec s.width s.height s.base_sea_level
            s.rng).1]
          omega
        rw [tileAt_oob _ i hlen]
        exact ⟨fun _ => rfl, fun _ => rfl⟩
    · rw [hm]
      simp
  · intro i
    show ((tileAt (buildArchipelagoTiles s.width s.height s.base_sea_level
        s.rng).1 i).water = true ↔ _)
    by_cases hi : i < s.height * s.width
    · obtain ⟨e, m, hem⟩ := (buildArchipelagoTiles_spec s.width s.height
        s.base_sea_level s.rng).2 i hi
      rw [hem]
      exact mkBaseTile_waterOcean _ _ _ _ _
    · have hlen : (buildArchipelagoTiles s.width s.height s.base_sea_level
          s.rng).1.length ≤ i := by
        rw [(buildArchipelagoTiles_spec s.width s.height s.base_sea_level
          s.rng).1]
        omega
      rw [tileAt_oob _ i hlen]
      exact ⟨fun _ => rfl, fun _ => rfl⟩

theorem generate_region_waterOcean (width height years seed : Nat)
    (sea_level : Frac) (mode : String) (tape : Nat → Nat) (doc : RegionDoc)
    (h : generate_region width height years seed sea_level mode tape =
      some doc) : waterOceanInv doc.tiles := by
  unfold generate_region at h
  dsimp only at h
  split at h
  · cases h
  next s6 heq =>
    cases h
    show waterOceanInv s6.tiles
    rw [derive_ruins_tiles _ s6 heq, derive_roads_tiles]
    apply waterOceanInv_of_wb (fun i => coreEq_wb (derive_settlements_core _ i))
    apply waterOceanInv_of_wb (fun i => coreEq_wb (simulate_history_core _ i))
    apply waterOceanInv_of_wb (fun i => coreEq_wb (spawn_core _ i))
    exact generate_base_waterOcean _

/-- C8 (amended).  For the grid AS BUILT, every tile is produced by
`mkBaseTile`: `water = (e < sea_level)` and the ordered biome thresholds
(`choose_biome`) are evaluated on the RAW elevation/moisture `e, m`,
while the stored fields are their `round3` roundings; a water tile's
biome is always ocean and a non-water tile's never is.  In continent
mode the connectivity enforcement afterwards converts every
minority-component tile to ocean — setting `water := true` and
`biome := ocean` but KEEPING its elevation — so in the final document
`water = (elevation < sea_level)` fails on culled tiles (they are water
with elevation at or above sea level); tiles that remain land are left
entirely untouched by the enforcement.  The invariant
`water = true ⇔ biome = ocean` does hold for the built grid and is
preserved by every later stage, including the final document. -/
theorem water_biome_amended :
    (∀ (sl : Frac) (x y : Nat) (e m : Frac),
        (mkBaseTile sl x y e m).water = decide (e < sl) ∧
        (mkBaseTile sl x y e m).biome = choose_biome e m (decide (e < sl)) ∧
        (mkBaseTile sl x y e m).elevation = round3 e ∧
        (mkBaseTile sl x y e m).moisture = round3 m) ∧
    (∀ (e m : Frac),
        choose_biome e m true = .ocean ∧ choose_biome e m false ≠ .ocean) ∧
    (∀ (w hh : Nat) (sl : Frac) (r : Rng),
        (buildContinentTiles w hh sl r).1.length = hh * w ∧
        ∀ i, i < hh * w → ∃ e m,
          tileAt (buildContinentTiles w hh sl r).1 i =
            mkBaseTile sl (i % w) (i / w) e m) ∧
    (∀ (w hh : Nat) (sl : Frac) (r : Rng),
        (buildArchipelagoTiles w hh sl r).1.length = hh * w ∧
        ∀ i, i < hh * w → ∃ e m,
          tileAt (buildArchipelagoTiles w hh sl r).1 i =
            mkBaseTile sl (i % w) (i / w) e m) ∧
    (∀ (s : GenState) (i : Nat),
        tileAt (enforce_continent_connectivity s).tiles i = tileAt s.tiles i ∨
        tileAt (enforce_continent_connectivity s).tiles i =
          { tileAt s.tiles i with water := true, biome := .ocean, river := false, realm_id := none, settlement_id := none }) ∧
    (∀ (s : GenState) (i : Nat),
        (tileAt (enforce_continent_connectivity s).tiles i).water = false →
        tileAt (enforce_continent_connectivity s).tiles i =
          tileAt s.tiles i) ∧
    (∀ s : GenState, waterOceanInv (generate_base_tiles s).tiles) ∧
    (∀ (width height years seed : Nat) (sea_level : Frac) (mode : String)
        (tape : Nat → Nat) (doc : RegionDoc),
        generate_region width height years seed sea_level mode tape =
          some doc →
        waterOceanInv doc.tiles) := by
  refine ⟨?_, ?_, ?_, ?_, ?_, ?_, ?_, ?_⟩
  · intro sl x y e m
    exact ⟨rfl, rfl, rfl, rfl⟩
  · intro e m
    exact ⟨choose_biome_water e m, choose_biome_not_ocean e m⟩
  · intro w hh sl r
    exact buildContinentTiles_spec w hh sl r
  · intro w hh sl r
    exact buildArchipelagoTiles_spec w hh sl r
  · intro s i
    exact enforce_mark s i
  · intro s i h
    exact enforce_land_untouched s i h
  · intro s
    exact generate_base_waterOcean s
  · intro width height years seed sea_level mode tape doc h
    exact generate_region_waterOcean width height years seed sea_level mode
      tape doc h

/-- C8 witness: a concrete built tile is `mkBaseTile`-shaped, the
connectivity enforcement on the single-component `c5bState` leaves its
land tile untouched, and the complete pipeline run `c4SmallDoc`
satisfies the water ⇔ ocean-biome invariant. -/
theorem water_biome_amended_witness :
    ((0 : Nat) < 1 * 2 ∧
     (∃ e m, tileAt (buildContinentTiles 2 1 (fr 35 100)
        ⟨fun _ => 0, 0⟩).1 0 = mkBaseTile (fr 35 100) 0 0 e m)) ∧
    ((tileAt (enforce_continent_connectivity c5bState).tiles 10).water =
       false ∧
     tileAt (enforce_continent_connectivity c5bState).tiles 10 =
       tileAt c5bState.tiles 10) ∧
    (generate_region 4 3 10 0 (fr 35 100) "continent" (fun _ => 0) =
       some c4SmallDoc ∧
     waterOceanInv c4SmallDoc.tiles) := by
  refine ⟨⟨by decide, ?_⟩, ⟨by decide, ?_⟩, ⟨?hpipe8, ?_⟩⟩
  · exact (water_biome_amended.2.2.1 2 1 (fr 35 100) ⟨fun _ => 0, 0⟩).2 0
      (by decide)
  · exact water_biome_amended.2.2.2.2.2.1 c5bState 10 (by decide)
  case hpipe8 => rfl
  · exact water_biome_amended.2.2.2.2.2.2.2 4 3 10 0 (fr 35 100) "continent"
      (fun _ => 0) c4SmallDoc rfl

theorem bresLoop_spec (x1 y1 dx ady sx sy : Int)
    (hdx : 0 ≤ dx) (hady : 0 ≤ ady)
    (hsx : sx = 1 ∨ sx = -1) (hsy : sy = 1 ∨ sy = -1) :
    ∀ (fuel : Nat) (x y err : Int) (pts : List (Int × Int)),
      0 ≤ sx * (x1 - x) → sx * (x1 - x) ≤ dx →
      0 ≤ sy * (y1 - y) → sy * (y1 - y) ≤ ady →
      err = dx - ady + sx * (x1 - x) * ady - sy * (y1 - y) * dx →
      (sx * (x1 - x) + sy * (y1 - y)).toNat < fuel →
      ∃ mid : List (Int × Int),
        bresLoop x1 y1 dx (-ady) sx sy fuel x y err pts =
          pts ++ (x, y) :: mid ∧
        ((x, y) :: mid).getLast? = some (x1, y1)
  | 0, x, y, err, pts, ha0, had, hb0, hbd, herr, hfuel => by omega
  | fuel + 1, x, y, err, pts, ha0, had, hb0, hbd, herr, hfuel => by
      have hsx2 : sx * sx = 1 := by
        rcases hsx with h | h <;> rw [h] <;> norm_num
      have hsy2 : sy * sy = 1 := by
        rcases hsy with h | h <;> rw [h] <;> norm_num
      unfold bresLoop
      dsimp only
      by_cases hstop : x = x1 ∧ y = y1
      · rw [if_pos hstop]
        exact ⟨[], by simp, by simp [hstop.1, hstop.2]⟩
      · rw [if_neg hstop]
        have hxa : sx * (x1 - x) = 0 → x1 = x := by
          intro h0
          have : sx * (sx * (x1 - x)) = sx * 0 := by rw [h0]
          rw [← mul_assoc, hsx2, one_mul, mul_zero] at this
          omega
        have hyb : sy * (y1 - y) = 0 → y1 = y := by
          intro h0
          have : sy * (sy * (y1 - y)) = sy * 0 := by rw [h0]
          rw [← mul_assoc, hsy2, one_mul, mul_zero] at this
          omega
        have ha' : sx * (x1 - (x + sx)) = sx * (x1 - x) - 1 := by
          linear_combination -hsx2
        have hb' : sy * (y1 - (y + sy)) = sy * (y1 - y) - 1 := by
          linear_combination -hsy2
        have hprog : (-ady) ≤ 2 * err ∨ 2 * err ≤ dx := by
          by_contra hcon
          push_neg at hcon
          omega
        have hxstep : (-ady) ≤ 2 * err → 1 ≤ sx * (x1 - x) := by
          intro cx
          by_contra h0
          push_neg at h0
          have ha : sx * (x1 - x) = 0 := by omega
          have hx1 : x1 = x := hxa ha
          have hbne : sy * (y1 - y) ≠ 0 := by
            intro hb
            exact hstop ⟨hx1.symm, (hyb hb).symm⟩
          have hb1 : 1 ≤ sy * (y1 - y) := by omega
          have hmul : dx ≤ sy * (y1 - y) * dx :=
            le_mul_of_one_le_left hdx hb1
          rw [herr, ha] at cx
          have hady1 : 1 ≤ ady := le_trans hb1 hbd
          nlinarith
        have hystep : 2 * err ≤ dx → 1 ≤ sy * (y1 - y) := by
          intro cy
          by_contra h0
          push_neg at h0
          have hb : sy * (y1 - y) = 0 := by omega
          have hy1 : y1 = y := hyb hb
          have hane : sx * (x1 - x) ≠ 0 := by
            intro ha
            exact hstop ⟨(hxa ha).symm, hy1.symm⟩
          have ha1 : 1 ≤ sx * (x1 - x) := by omega
          have hmul : ady ≤ sx * (x1 - x) * ady :=
            le_mul_of_one_le_left hady ha1
          rw [herr, hb] at cy
          have hdx1 : 1 ≤ dx := le_trans ha1 had
          nlinarith
        by_cases cx : (-ady) ≤ 2 * err <;> by_cases cy : 2 * err ≤ dx
        · rw [if_pos cx, if_pos cy]
          dsimp only
          have ha1 := hxstep cx
          have hb1 := hystep cy
          obtain ⟨mid, hmid, hlast⟩ := bresLoop_spec x1 y1 dx ady sx sy hdx hady hsx hsy fuel
            (x + sx) (y + sy) (err + -ady + dx) (pts ++ [(x, y)])
            (by rw [ha']; omega) (by rw [ha']; omega)
            (by rw [hb']; omega) (by rw [hb']; omega)
            (by rw [ha', hb']; linear_combination herr)
            (by rw [ha', hb']; omega)
          refine ⟨(x + sx, y + sy) :: mid, ?_, ?_⟩
          · rw [hmid]
            simp
          · rw [List.getLast?_cons_cons]
            exact hlast
        · rw [if_pos cx, if_neg cy]
          dsimp only
          have ha1 := hxstep cx
          obtain ⟨mid, hmid, hlast⟩ := bresLoop_spec x1 y1 dx ady sx sy hdx hady hsx hsy fuel
            (x + sx) y (err + -ady) (pts ++ [(x, y)])
            (by rw [ha']; omega) (by rw [ha']; omega) hb0 hbd
            (by rw [ha']; linear_combination herr)
            (by rw [ha']; omega)
          refine ⟨(x + sx, y) :: mid, ?_, ?_⟩
          · rw [hmid]
            simp
          · rw [List.getLast?_cons_cons]
            exact hlast
        · rw [if_neg cx, if_pos cy]
          dsimp only
          have hb1 := hystep cy
          obtain ⟨mid, hmid, hlast⟩ := bresLoop_spec x1 y1 dx ady sx sy hdx hady hsx hsy fuel
            x (y + sy) (err + dx) (pts ++ [(x, y)])
            ha0 had (by rw [hb']; omega) (by rw [hb']; omega)
            (by rw [hb']; linear_combination herr)
            (by rw [hb']; omega)
          refine ⟨(x, y + sy) :: mid, ?_, ?_⟩
          · rw [hmid]
            simp
          · rw [List.getLast?_cons_cons]
            exact hlast
        · exact absurd hprog (by simp [cx, cy])

theorem line_between_endpoints (x0 y0 x1 y1 : Int) :
    ∃ mid, line_between x0 y0 x1 y1 = (x0, y0) :: mid ∧
      ((x0, y0) :: mid).getLast? = some (x1, y1) := by
  unfold line_between
  dsimp only
  have ha : (if x0 < x1 then (1 : Int) else -1) * (x1 - x0) = |x1 - x0| := by
    split
    next h => rw [one_mul, abs_of_nonneg (by omega)]
    next h => rw [abs_of_nonpos (by omega)]; ring
  have hb : (if y0 < y1 then (1 : Int) else -1) * (y1 - y0) = |y1 - y0| := by
    split
    next h => rw [one_mul, abs_of_nonneg (by omega)]
    next h => rw [abs_of_nonpos (by omega)]; ring
  have habs1 : |x1 - x0| = ((x1 - x0).natAbs : Int) := Int.abs_eq_natAbs _
  have habs2 : |y1 - y0| = ((y1 - y0).natAbs : Int) := Int.abs_eq_natAbs _
  obtain ⟨mid, hm, hl⟩ := bresLoop_spec x1 y1 |x1 - x0| |y1 - y0|
    (if x0 < x1 then 1 else -1) (if y0 < y1 then 1 else -1)
    (abs_nonneg _) (abs_nonneg _)
    (by split <;> simp) (by split <;> simp)
    ((x1 - x0).natAbs + (y1 - y0).natAbs + 1) x0 y0
    (|x1 - x0| + -|y1 - y0|) []
    (by rw [ha]; exact abs_nonneg _) (by rw [ha])
    (by rw [hb]; exact abs_nonneg _) (by rw [hb])
    (by rw [ha, hb]; ring)
    (by rw [ha, hb]; omega)
  refine ⟨mid, ?_, hl⟩
  rw [hm]
  simp

theorem filterMap_if_eq_map_filter (p : Settlement → Prop) [DecidablePred p]
    (f : Settlement → Road) :
    ∀ l : List Settlement,
      (l.filterMap (fun q => if p q then some (f q) else none)) =
        (l.filter (fun q => decide (p q))).map f
  | [] => rfl
  | q :: rest => by
      by_cases hq : p q <;>
        simp [List.filterMap_cons, List.filter_cons, hq,
          filterMap_if_eq_map_filter p f rest]

theorem roadsRealm_settlements (st : GenState) (realm : Realm) :
    (roadsRealm st realm).settlements = st.settlements := by
  unfold roadsRealm
  split
  · rfl
  · split
    · rfl
    · rfl

theorem roadsRealm_roads_none (st : GenState) (realm : Realm)
    (h : realm.capital_settlement_id = none) :
    (roadsRealm st realm).roads = st.roads := by
  unfold roadsRealm
  rw [h]

theorem roadsRealm_roads_nofind (st : GenState) (realm : Realm)
    (capId : String) (h : realm.capital_settlement_id = some capId)
    (h2 : st.settlements.find? (fun q => q.id == capId) = none) :
    (roadsRealm st realm).roads = st.roads := by
  unfold roadsRealm
  rw [h]
  dsimp only
  rw [h2]

theorem roadsRealm_roads_some (st : GenState) (realm : Realm)
    (capId : String) (cap : Settlement)
    (h : realm.capital_settlement_id = some capId)
    (h2 : st.settlements.find? (fun q => q.id == capId) = some cap) :
    (roadsRealm st realm).roads = st.roads ++
      (st.settlements.filter
        (fun q => decide (q.realm_id = realm.id ∧ q.id ≠ capId))).map
        (fun q => { road_from := capId, road_to := q.id,
                    tiles := line_between (cap.tile.1 : Int)
                      (cap.tile.2 : Int) (q.tile.1 : Int) (q.tile.2 : Int),
                    type := "road" }) := by
  unfold roadsRealm
  rw [h]
  dsimp only
  rw [h2]
  dsimp only
  rw [filterMap_if_eq_map_filter]

theorem nodup_all_eq_singleton {α : Type} {l : List α} (hn : l.Nodup)
    (a : α) (ha : a ∈ l) (hall : ∀ b ∈ l, b = a) : l = [a] := by
  rcases l with _ | ⟨b, rest⟩
  · exact absurd ha (List.not_mem_nil a)
  · have hb : b = a := hall b (List.mem_cons_self b rest)
    subst hb
    rcases rest with _ | ⟨c, rest2⟩
    · rfl
    · have hc : c = b := hall c (List.mem_cons_of_mem b
        (List.mem_cons_self c rest2))
      rw [List.nodup_cons] at hn
      exact absurd (hc ▸ List.mem_cons_self c rest2) hn.1

theorem sett_id_inj {l : List Settlement}
    (hnd : (l.map (fun q' => q'.id)).Nodup) {a b : Settlement}
    (ha : a ∈ l) (hb : b ∈ l) (hid : a.id = b.id) : a = b :=
  List.inj_on_of_nodup_map hnd ha hb hid

theorem filter_id_count_pos {l : List Settlement}
    (hnd : (l.map (fun q' => q'.id)).Nodup) (q : Settlement) (hq : q ∈ l)
    (p : Settlement → Bool) (hp : p q = true) :
    (l.filter p).filter (fun q' => q'.id == q.id) = [q] := by
  apply nodup_all_eq_singleton
  · exact ((List.Nodup.of_map _ hnd).filter p).filter _
  · refine List.mem_filter.mpr ⟨List.mem_filter.mpr ⟨hq, hp⟩, ?_⟩
    simp
  · intro b hb
    have hb1 := List.mem_filter.mp hb
    have hb2 := List.mem_filter.mp hb1.1
    have hid : b.id = q.id := by
      have := hb1.2
      simpa using this
    exact sett_id_inj hnd (List.mem_of_mem_filter hb1.1) hq hid

theorem filter_id_count_zero {l : List Settlement}
    (hnd : (l.map (fun q' => q'.id)).Nodup) (q : Settlement) (hq : q ∈ l)
    (p : Settlement → Bool) (hp : p q = false) :
    (l.filter p).filter (fun q' => q'.id == q.id) = [] := by
  rw [List.filter_eq_nil_iff]
  intro b hb
  have hbl := List.mem_of_mem_filter hb
  have hbp := List.of_mem_filter hb
  simp only [beq_iff_eq]
  intro hid
  have hbq : b = q := sett_id_inj hnd hbl hq hid
  rw [hbq, hp] at hbp
  exact Bool.false_ne_true hbp

theorem roadsFold_pair_count (capId : String) (q : Settlement) :
    ∀ (l : List Realm) (st : GenState),
      (st.settlements.map (fun q' => q'.id)).Nodup →
      q ∈ st.settlements → q.id ≠ capId →
      (l.filterMap (fun r => r.capital_settlement_id)).Nodup →
      ((l.foldl roadsRealm st).roads.filter
        (fun rd => rd.road_from == capId && rd.road_to == q.id)).length =
      (st.roads.filter
        (fun rd => rd.road_from == capId && rd.road_to == q.id)).length +
        (if ∃ r ∈ l, r.capital_settlement_id = some capId ∧
            q.realm_id = r.id ∧
            (st.settlements.find? (fun q' => q'.id == capId)).isSome =
              true then 1 else 0)
  | [], st, hnd, hq, hqc, hfm => by simp
  | r :: rest, st, hnd, hq, hqc, hfm => by
      simp only [List.foldl_cons]
      have hsett := roadsRealm_settlements st r
      rcases hcap : r.capital_settlement_id with _ | c
      · have hroads := roadsRealm_roads_none st r hcap
        simp only [List.filterMap_cons, hcap] at hfm
        have ih := roadsFold_pair_count capId q rest (roadsRealm st r)
          (by rw [hsett]; exact hnd) (by rw [hsett]; exact hq) hqc hfm
        rw [ih, hroads, hsett]
        congr 1
        congr 1
        apply propext
        constructor
        · rintro ⟨r', hr', hcond⟩
          exact ⟨r', List.mem_cons_of_mem r hr', hcond⟩
        · rintro ⟨r', hr', hcond⟩
          rcases List.mem_cons.mp hr' with rfl | hr''
          · rw [hcap] at hcond
            cases hcond.1
          · exact ⟨r', hr'', hcond⟩
      · rcases hfind : st.settlements.find? (fun q' => q'.id == c) with _ | cap
        · have hroads := roadsRealm_roads_nofind st r c hcap hfind
          simp only [List.filterMap_cons, hcap, List.nodup_cons] at hfm
          have ih := roadsFold_pair_count capId q rest (roadsRealm st r)
            (by rw [hsett]; exact hnd) (by rw [hsett]; exact hq) hqc hfm.2
          rw [ih, hroads, hsett]
          congr 1
          congr 1
          apply propext
          constructor
          · rintro ⟨r', hr', hcond⟩
            exact ⟨r', List.mem_cons_of_mem r hr', hcond⟩
          · rintro ⟨r', hr', hcond⟩
            rcases List.mem_cons.mp hr' with rfl | hr''
            · rw [hcap] at hcond
              have hcc : c = capId := by
                have := hcond.1
                injection this
              rw [hcc] at hfind
              rw [hfind] at hcond
              exact absurd hcond.2.2 (by simp)
            · exact ⟨r', hr'', hcond⟩
        · have hroads := roadsRealm_roads_some st r c cap hcap hfind
          simp only [List.filterMap_cons, hcap, List.nodup_cons] at hfm
          have ih := roadsFold_pair_count capId q rest (roadsRealm st r)
            (by rw [hsett]; exact hnd) (by rw [hsett]; exact hq) hqc hfm.2
          rw [ih, hsett, hroads, List.filter_append, List.length_append]
          by_cases hcc : c = capId
          · subst hcc
            have hnewfilter :
                ((st.settlements.filter
                  (fun q' => decide (q'.realm_id = r.id ∧ q'.id ≠ c))).map
                  (fun q' =>
                    ({ road_from := c, road_to := q'.id,
                       tiles := line_between (cap.tile.1 : Int)
                         (cap.tile.2 : Int) (q'.tile.1 : Int)
                         (q'.tile.2 : Int),
                       type := "road" } : Road))).filter
                  (fun rd => rd.road_from == c && rd.road_to == q.id) =
                ((st.settlements.filter
                  (fun q' => decide (q'.realm_id = r.id ∧ q'.id ≠ c))).filter
                  (fun q' => q'.id == q.id)).map
                  (fun q' =>
                    ({ road_from := c, road_to := q'.id,
                       tiles := line_between (cap.tile.1 : Int)
                         (cap.tile.2 : Int) (q'.tile.1 : Int)
                         (q'.tile.2 : Int),
                       type := "road" } : Road)) := by
              rw [List.filter_map]
              congr 1
              apply List.filter_congr
              intro q' hq'
              simp
            rw [hnewfilter]
            have hnorest : ¬∃ r' ∈ rest,
                r'.capital_settlement_id = some c ∧ q.realm_id = r'.id ∧
                (st.settlements.find? (fun q' => q'.id == c)).isSome =
                  true := by
              rintro ⟨r', hr', hcond⟩
              exact hfm.1 (List.mem_filterMap.mpr ⟨r', hr', hcond.1⟩)
            rw [if_neg hnorest]
            by_cases hqr : q.realm_id = r.id
            · have hpq : (fun q' =>
                  decide (q'.realm_id = r.id ∧ q'.id ≠ c)) q = true := by
                simp [hqr, hqc]
              rw [filter_id_count_pos hnd q hq _ hpq]
              have hex : ∃ r' ∈ r :: rest,
                  r'.capital_settlement_id = some c ∧ q.realm_id = r'.id ∧
                  (st.settlements.find? (fun q' => q'.id == c)).isSome =
                    true := by
                exact ⟨r, List.mem_cons_self r rest, hcap, hqr,
                  by rw [hfind]; rfl⟩
              rw [if_pos hex]
              simp
            · have hpq : (fun q' =>
                  decide (q'.realm_id = r.id ∧ q'.id ≠ c)) q = false := by
                simp [hqr]
              rw [filter_id_count_zero hnd q hq _ hpq]
              have hnex : ¬∃ r' ∈ r :: rest,
                  r'.capital_settlement_id = some c ∧ q.realm_id = r'.id ∧
                  (st.settlements.find? (fun q' => q'.id == c)).isSome =
                    true := by
                rintro ⟨r', hr', hcond⟩
                rcases List.mem_cons.mp hr' with rfl | hr''
                · exact hqr hcond.2.1
                · exact hnorest ⟨r', hr'', hcond⟩
              rw [if_neg hnex]
              simp
          · have hnewzero :
                ((st.settlements.filter
                  (fun q' => decide (q'.realm_id = r.id ∧ q'.id ≠ c))).map
                  (fun q' =>
                    ({ road_from := c, road_to := q'.id,
                       tiles := line_between (cap.tile.1 : Int)
                         (cap.tile.2 : Int) (q'.tile.1 : Int)
                         (q'.tile.2 : Int),
                       type := "road" } : Road))).filter
                  (fun rd => rd.road_from == capId && rd.road_to == q.id) =
                  [] := by
              rw [List.filter_eq_nil_iff]
              intro rd hrd
              obtain ⟨q', hq', hrdq⟩ := List.mem_map.mp hrd
              rw [← hrdq]
              simp [hcc]
            rw [hnewzero]
            congr 1
            congr 1
            apply propext
            constructor
            · rintro ⟨r', hr', hcond⟩
              exact ⟨r', List.mem_cons_of_mem r hr', hcond⟩
            · rintro ⟨r', hr', hcond⟩
              rcases List.mem_cons.mp hr' with rfl | hr''
              · rw [hcap] at hcond
                have : c = capId := by injection hcond.1
                exact absurd this hcc
              · exact ⟨r', hr'', hcond⟩

theorem roadsFold_mem :
    ∀ (l : List Realm) (st : GenState) (road : Road),
      road ∈ (l.foldl roadsRealm st).roads →
      road ∈ st.roads ∨ ∃ realm capId cap q, realm ∈ l ∧
        realm.capital_settlement_id = some capId ∧
        st.settlements.find? (fun q' => q'.id == capId) = some cap ∧
        q ∈ st.settlements ∧ q.realm_id = realm.id ∧ q.id ≠ capId ∧
        road = { road_from := capId, road_to := q.id,
                 tiles := line_between (cap.tile.1 : Int) (cap.tile.2 : Int)
                   (q.tile.1 : Int) (q.tile.2 : Int), type := "road" }
  | [], st, road, h => Or.inl h
  | r :: rest, st, road, h => by
      simp only [List.foldl_cons] at h
      rcases roadsFold_mem rest (roadsRealm st r) road h with h1 | h1
      · rcases hcap : r.capital_settlement_id with _ | c
        · rw [roadsRealm_roads_none st r hcap] at h1
          exact Or.inl h1
        · rcases hfind : st.settlements.find? (fun q' => q'.id == c) with
            _ | cap
          · rw [roadsRealm_roads_nofind st r c hcap hfind] at h1
            exact Or.inl h1
          · rw [roadsRealm_roads_some st r c cap hcap hfind] at h1
            rcases List.mem_append.mp h1 with h2 | h2
            · exact Or.inl h2
            · obtain ⟨q, hq, hrq⟩ := List.mem_map.mp h2
              have hqmem := List.mem_of_mem_filter hq
              have hqp := List.of_mem_filter hq
              simp only [decide_eq_true_eq] at hqp
              exact Or.inr ⟨r, c, cap, q, List.mem_cons_self r rest, hcap,
                hfind, hqmem, hqp.1, hqp.2, hrq.symm⟩
      · obtain ⟨realm, capId, cap, q, hrm, h3, h4, h5, h6, h7, h8⟩ := h1
        rw [roadsRealm_settlements st r] at h4 h5
        exact Or.inr ⟨realm, capId, cap, q, List.mem_cons_of_mem r hrm, h3,
          h4, h5, h6, h7, h8⟩

/-- C9.  Every road's tile sequence is the inclusive Bresenham path from
the realm capital's tile to the destination settlement's tile: any road
the stage adds is built for a realm with a recorded capital and a
distinct settlement of the same realm, its tile list starts at the
capital's coordinates and ends at the destination's, and — when
settlement ids and recorded capital ids are duplicate-free and the pair
had no prior road — exactly one road record exists for each
(capital, other-settlement-of-the-same-realm) pair. -/
theorem derive_roads_c9 :
    (∀ x0 y0 x1 y1 : Int,
        (line_between x0 y0 x1 y1).head? = some (x0, y0) ∧
        (line_between x0 y0 x1 y1).getLast? = some (x1, y1)) ∧
    (∀ (s : GenState) (road : Road),
        road ∈ (derive_roads s).roads →
        road ∈ s.roads ∨ ∃ realm capId cap q, realm ∈ s.realms ∧
          realm.capital_settlement_id = some capId ∧
          s.settlements.find? (fun q' => q'.id == capId) = some cap ∧
          q ∈ s.settlements ∧ q.realm_id = realm.id ∧ q.id ≠ capId ∧
          road.road_from = capId ∧ road.road_to = q.id ∧
          road.tiles.head? = some ((cap.tile.1 : Int), (cap.tile.2 : Int)) ∧
          road.tiles.getLast? = some ((q.tile.1 : Int), (q.tile.2 : Int))) ∧
    (∀ (s : GenState) (realm : Realm) (capId : String) (q : Settlement),
        (s.settlements.map (fun q' => q'.id)).Nodup →
        q ∈ s.settlements → q.id ≠ capId →
        ((s.realms.filterMap (fun r => r.capital_settlement_id))).Nodup →
        realm ∈ s.realms → realm.capital_settlement_id = some capId →
        q.realm_id = realm.id →
        (s.settlements.find? (fun q' => q'.id == capId)).isSome = true →
        (s.roads.filter
          (fun rd => rd.road_from == capId && rd.road_to == q.id)).length =
          0 →
        ((derive_roads s).roads.filter
          (fun rd => rd.road_from == capId && rd.road_to == q.id)).length =
          1) := by
  refine ⟨?_, ?_, ?_⟩
  · intro x0 y0 x1 y1
    obtain ⟨mid, hm, hl⟩ := line_between_endpoints x0 y0 x1 y1
    rw [hm]
    exact ⟨rfl, hl⟩
  · intro s road h
    rcases roadsFold_mem s.realms s road h with h1 | h1
    · exact Or.inl h1
    · obtain ⟨realm, capId, cap, q, hrm, h3, h4, h5, h6, h7, h8⟩ := h1
      obtain ⟨mid, hm, hl⟩ := line_between_endpoints (cap.tile.1 : Int)
        (cap.tile.2 : Int) (q.tile.1 : Int) (q.tile.2 : Int)
      refine Or.inr ⟨realm, capId, cap, q, hrm, h3, h4, h5, h6, h7,
        by rw [h8], by rw [h8], ?_, ?_⟩
      · rw [h8]
        dsimp only
        rw [hm]
        rfl
      · rw [h8]
        dsimp only
        rw [hm]
        exact hl
  · intro s realm capId q hnd hq hqc hfm hrm hcap hqr hfound h0
    unfold derive_roads
    rw [roadsFold_pair_count capId q s.realms s hnd hq hqc hfm, h0]
    rw [if_pos ⟨realm, hrm, hcap, hqr, hfound⟩]

/-- C9 witness: on `c9State` (one realm with capital `settlement_1` and
one town `settlement_2`, no prior roads), road derivation produces
exactly one road for the pair, and that road runs from the capital's
tile `(1,1)` to the town's tile `(3,2)`. -/
theorem derive_roads_c9_witness :
    ((line_between 1 1 3 2).head? = some (1, 1) ∧
     (line_between 1 1 3 2).getLast? = some (3, 2)) ∧
    (c9Road ∈ (derive_roads c9State).roads ∧
     (c9Road ∈ c9State.roads ∨ ∃ realm capId cap q, realm ∈ c9State.realms ∧
       realm.capital_settlement_id = some capId ∧
       c9State.settlements.find? (fun q' => q'.id == capId) = some cap ∧
       q ∈ c9State.settlements ∧ q.realm_id = realm.id ∧ q.id ≠ capId ∧
       c9Road.road_from = capId ∧ c9Road.road_to = q.id ∧
       c9Road.tiles.head? = some ((cap.tile.1 : Int), (cap.tile.2 : Int)) ∧
       c9Road.tiles.getLast? =
         some ((q.tile.1 : Int), (q.tile.2 : Int)))) ∧
    ((c9State.settlements.map (fun q' => q'.id)).Nodup ∧
     c9Town ∈ c9State.settlements ∧
     ((derive_roads c9State).roads.filter
       (fun rd => rd.road_from == "settlement_1" &&
         rd.road_to == c9Town.id)).length = 1) := by
  refine ⟨derive_roads_c9.1 1 1 3 2, ⟨by decide, ?_⟩, ⟨by decide, by decide,
    ?_⟩⟩
  · exact derive_roads_c9.2.1 c9State c9Road (by decide)
  · exact derive_roads_c9.2.2 c9State
      { mkRealm "realm_1" "Ashenhold" "#505050" 0 "lowland" [] with
        capital_settlement_id := some "settlement_1" }
      "settlement_1" c9Town (by decide) (by decide) (by decide) (by decide)
      (by decide) (by decide) (by decide) (by decide) (by decide)

theorem listSwap_mem {α : Type} (l : List α) (i j : Nat) (x : α)
    (h : x ∈ listSwap l i j) : x ∈ l := by
  unfold listSwap at h
  split at h
  next a b hga hgb =>
    rcases List.mem_or_eq_of_mem_set h with h1 | h1
    · rcases List.mem_or_eq_of_mem_set h1 with h2 | h2
      · exact h2
      · subst h2
        exact List.get?_mem hgb
    · subst h1
      exact List.get?_mem hga
  next => exact h

theorem shuffleFold_mem {α : Type} (l0 : List α) :
    ∀ (ks : List Nat) (acc : List α × Rng),
      (∀ y ∈ acc.1, y ∈ l0) →
      ∀ x ∈ ((ks.foldl (fun (acc : List α × Rng) k =>
        let i := l0.length - 1 - k
        let (j, r') := acc.2.randbelow (i + 1)
        (listSwap acc.1 i j, r')) acc)).1, x ∈ l0
  | [], acc, hacc, x, h => hacc x h
  | k :: ks, acc, hacc, x, h => by
      simp only [List.foldl_cons] at h
      refine shuffleFold_mem l0 ks _ ?_ x h
      intro y hy
      exact hacc y (listSwap_mem acc.1 (l0.length - 1 - k)
        ((acc.2.randbelow (l0.length - 1 - k + 1)).1) y hy)

theorem Rng.shuffle_mem {α : Type} (r : Rng) (l : List α) (x : α)
    (h : x ∈ (r.shuffle l).1) : x ∈ l := by
  unfold Rng.shuffle at h
  exact shuffleFold_mem l (List.range (l.length - 1)) (l, r)
    (fun y hy => hy) x h

theorem fertileIdx_props (tiles : List Tile) (i : Nat)
    (h : i ∈ fertileIdxList tiles) :
    (tileAt tiles i).water = false ∧ (tileAt tiles i).biome ≠ .mountain := by
  unfold fertileIdxList at h
  have h1 := List.of_mem_filter h
  simp only [Bool.and_eq_true, Bool.not_eq_true', decide_eq_true_eq] at h1
  refine ⟨h1.1, ?_⟩
  rcases h1.2 with hb | hb | hb <;> rw [hb] <;> simp

theorem tileAt_lt_of_water_false (ts : List Tile) (i : Nat)
    (h : (tileAt ts i).water = false) : i < ts.length := by
  by_contra hc
  push_neg at hc
  rw [tileAt_oob ts i hc] at h
  exact absurd h (by decide)

theorem realmTilesOk_set (ts : List Tile) (n : Nat) (rid : Option String)
    (hok : realmTilesOk ts) (hw : (tileAt ts n).water = false)
    (hb : (tileAt ts n).biome ≠ .mountain) :
    realmTilesOk (ts.set n { tileAt ts n with realm_id := rid }) := by
  intro i hne
  rw [tileAt_set] at hne ⊢
  by_cases hc : n = i ∧ n < ts.length
  · rw [if_pos hc] at hne ⊢
    exact ⟨hw, hb⟩
  · rw [if_neg hc] at hne ⊢
    exact hok i hne

theorem realmTilesOk_clear (ts : List Tile) (n : Nat)
    (hok : realmTilesOk ts) :
    realmTilesOk (ts.set n { tileAt ts n with realm_id := none }) := by
  intro i hne
  rw [tileAt_set] at hne ⊢
  by_cases hc : n = i ∧ n < ts.length
  · rw [if_pos hc] at hne
    exact absurd rfl hne
  · rw [if_neg hc] at hne ⊢
    exact hok i hne

theorem realmTilesOk_of_eq {ts ts' : List Tile}
    (h : ∀ i, (tileAt ts' i).realm_id = (tileAt ts i).realm_id ∧
      (tileAt ts' i).water = (tileAt ts i).water ∧
      (tileAt ts' i).biome = (tileAt ts i).biome)
    (hok : realmTilesOk ts) : realmTilesOk ts' := by
  intro i hne
  rw [(h i).1] at hne
  rw [(h i).2.1, (h i).2.2]
  exact hok i hne

theorem riverWalk_rid (w hh fuel x y : Nat) (tiles : List Tile) (r : Rng)
    (i : Nat) :
    (tileAt (riverWalk w hh fuel x y tiles r).1 i).realm_id =
      (tileAt tiles i).realm_id := by
  rcases riverWalk_mark w hh fuel x y tiles r i with h | h <;> rw [h]

theorem carveFold_rid :
    ∀ (starts : List Tile) (st : GenState) (i : Nat),
      (tileAt (starts.foldl (fun st t =>
        let res := riverWalk st.width st.height 80 t.x t.y st.tiles st.rng
        { st with tiles := res.1, rng := res.2.1 }) st).tiles i).realm_id =
        (tileAt st.tiles i).realm_id
  | [], st, i => rfl
  | t :: rest, st, i => by
      simp only [List.foldl_cons]
      have h1 := riverWalk_rid st.width st.height 80 t.x t.y st.tiles st.rng i
      have h2 := carveFold_rid rest
        { st with
            tiles := (riverWalk st.width st.height 80 t.x t.y st.tiles
              st.rng).1,
            rng := (riverWalk st.width st.height 80 t.x t.y st.tiles
              st.rng).2.1 } i
      exact h2.trans h1

theorem carve_rid (st : GenState) (count : Nat) (i : Nat) :
    (tileAt (carve_rivers st count).tiles i).realm_id =
      (tileAt st.tiles i).realm_id := by
  unfold carve_rivers
  dsimp only
  split
  · rfl
  · exact carveFold_rid _ _ i

theorem base_realm_none (s : GenState) (i : Nat) :
    (tileAt (generate_base_tiles s).tiles i).realm_id = none := by
  unfold generate_base_tiles
  dsimp only
  rw [carve_rid]
  split
  · rcases enforce_mark
        { s with
          tiles := (buildContinentTiles s.width s.height s.base_sea_level
            s.rng).1,
          rng := (buildContinentTiles s.width s.height s.base_sea_level
            s.rng).2 } i with hm | hm
    · rw [hm]
      show (tileAt (buildContinentTiles s.width s.height s.base_sea_level
          s.rng).1 i).realm_id = none
      by_cases hi : i < s.height * s.width
      · obtain ⟨e, m, hem⟩ := (buildContinentTiles_spec s.width s.height
          s.base_sea_level s.rng).2 i hi
        rw [hem]
        rfl
      · have hlen : (buildContinentTiles s.width s.height s.base_sea_level
            s.rng).1.length ≤ i := by
          rw [(buildContinentTiles_spec s.width s.height s.base_sea_level
            s.rng).1]
          omega
        rw [tileAt_oob _ i hlen]
        rfl
    · rw [hm]
  · show (tileAt (buildArchipelagoTiles s.width s.height s.base_sea_level
        s.rng).1 i).realm_id = none
    by_cases hi : i < s.height * s.width
    · obtain ⟨e, m, hem⟩ := (buildArchipelagoTiles_spec s.width s.height
        s.base_sea_level s.rng).2 i hi
      rw [hem]
      rfl
    · have hlen : (buildArchipelagoTiles s.width s.height s.base_sea_level
          s.rng).1.length ≤ i := by
        rw [(buildArchipelagoTiles_spec s.width s.height s.base_sea_level
          s.rng).1]
        omega
      rw [tileAt_oob _ i hlen]
      rfl

theorem base_realmTilesOk (s : GenState) :
    realmTilesOk (generate_base_tiles s).tiles := by
  intro i hne
  exact absurd (base_realm_none s i) hne

theorem spawnAccept_ok (fertile : List Nat) (j : Nat) (s : GenState)
    (hok : realmTilesOk s.tiles)
    (hw : (tileAt s.tiles (fertile.getD j 0)).water = false)
    (hb : (tileAt s.tiles (fertile.getD j 0)).biome ≠ .mountain) :
    realmTilesOk (spawnAccept fertile j s).tiles := by
  unfold spawnAccept
  dsimp only
  exact realmTilesOk_set s.tiles _ _ hok hw hb

theorem spawnLoop_ok (target : Nat) (fertile : List Nat) :
    ∀ (rem j : Nat) (used : List (Nat × Nat)) (s : GenState),
      realmTilesOk s.tiles →
      (∀ k ∈ fertile, (tileAt s.tiles k).water = false ∧
        (tileAt s.tiles k).biome ≠ .mountain) →
      realmTilesOk (spawnLoop target fertile rem j used s).1.tiles
  | 0, j, used, s, hok, _ => hok
  | rem + 1, j, used, s, hok, hp => by
      unfold spawnLoop
      dsimp only
      split
      · exact hok
      · split
        · exact hok
        · split
          · exact spawnLoop_ok target fertile rem _ _ _ hok hp
          · next hjlt _ =>
            have hj : j < fertile.length := by omega
            have hmem : fertile.getD j 0 ∈ fertile := by
              rw [List.getD_eq_getElem fertile 0 hj]
              exact List.getElem_mem hj
            have hfp := hp _ hmem
            refine spawnLoop_ok target fertile rem _ _ _
              (spawnAccept_ok fertile j s hok hfp.1 hfp.2) ?_
            intro k hk
            have hc := coreEq_wb (spawnAccept_core fertile j s k)
            rw [hc.1, hc.2]
            exact hp k hk

theorem spawn_ok (s : GenState) (hok : realmTilesOk s.tiles) :
    realmTilesOk (spawn_initial_realms s).tiles := by
  unfold spawn_initial_realms
  dsimp only
  have hpool : ∀ k ∈ (s.rng.shuffle (fertileIdxList s.tiles)).1,
      (tileAt s.tiles k).water = false ∧
      (tileAt s.tiles k).biome ≠ .mountain := by
    intro k hk
    exact fertileIdx_props s.tiles k (Rng.shuffle_mem s.rng _ k hk)
  have h1 : realmTilesOk (spawnLoop (max 2 (min 6 (s.width * s.height / 1200)))
      (s.rng.shuffle (fertileIdxList s.tiles)).1
      (max 2 (min 6 (s.width * s.height / 1200)) * 2) 0 []
      { s with rng := (s.rng.shuffle (fertileIdxList s.tiles)).2 }).1.tiles :=
    spawnLoop_ok _ _ _ 0 [] _ hok hpool
  split
  next hcond =>
    have hlen : 0 < (s.rng.shuffle (fertileIdxList s.tiles)).1.length :=
      List.length_pos.mpr hcond.2
    have hmem : (s.rng.shuffle (fertileIdxList s.tiles)).1.getD 0 0 ∈
        (s.rng.shuffle (fertileIdxList s.tiles)).1 := by
      rw [List.getD_eq_getElem _ 0 hlen]
      exact List.getElem_mem hlen
    have hfp := hpool _ hmem
    have hcw := coreEq_wb (spawnLoop_core
      (max 2 (min 6 (s.width * s.height / 1200)))
      (s.rng.shuffle (fertileIdxList s.tiles)).1
      (max 2 (min 6 (s.width * s.height / 1200)) * 2) 0 []
      { s with rng := (s.rng.shuffle (fertileIdxList s.tiles)).2 }
      ((s.rng.shuffle (fertileIdxList s.tiles)).1.getD 0 0))
    exact realmTilesOk_set _ _ _ h1
      (by rw [hcw.1]; exact hfp.1)
      (by rw [hcw.2]; exact hfp.2)
  · exact h1

theorem expandVisitStep_ok (byR : List (String × List Nat)) (rid : String)
    (size : Nat) (c : Nat × Nat) (acc : GenState × Nat)
    (hok : realmTilesOk acc.1.tiles) :
    realmTilesOk (expandVisitStep byR rid size c acc).1.tiles := by
  unfold expandVisitStep
  dsimp only
  split
  · exact hok
  next hnot =>
    push_neg at hnot
    have hw : (tileAt acc.1.tiles (gridIdx acc.1.width c.1 c.2)).water =
        false := by
      rw [← Bool.not_eq_true]
      exact hnot.1
    split
    · exact realmTilesOk_set _ _ _ hok hw hnot.2
    · split
      · exact hok
      · split <;> split
        · exact realmTilesOk_set _ _ _ hok hw hnot.2
        · exact hok
        · exact realmTilesOk_set _ _ _ hok hw hnot.2
        · exact hok

theorem expandVisit_ok (byR : List (String × List Nat)) (rid : String)
    (size : Nat) :
    ∀ (cs : List (Nat × Nat)) (st : GenState) (grown : Nat),
      realmTilesOk st.tiles →
      realmTilesOk (expandVisit byR rid size cs st grown).1.tiles
  | [], st, grown, hok => hok
  | c :: rest, st, grown, hok => by
      unfold expandVisit
      exact expandVisit_ok byR rid size rest _ _
        (expandVisitStep_ok byR rid size c (st, grown) hok)

theorem expandLoop_ok (byR : List (String × List Nat)) (rid : String)
    (size desired : Nat) :
    ∀ (l : List Nat) (grown attempts : Nat) (st : GenState),
      realmTilesOk st.tiles →
      realmTilesOk (expandLoop byR rid size desired l grown attempts st).1.tiles
  | [], grown, attempts, st, hok => hok
  | ti :: rest, grown, attempts, st, hok => by
      unfold expandLoop
      dsimp only
      split
      · exact hok
      · split
        · exact expandVisit_ok byR rid size _ st grown hok
        · exact expandLoop_ok byR rid size desired rest _ _ _
            (expandVisit_ok byR rid size _ st grown hok)

theorem tickRealm_ok (byR : List (String × List Nat)) (year : Nat)
    (st : GenState) (p : String × List Nat) (hok : realmTilesOk st.tiles) :
    realmTilesOk (tickRealm byR year st p).tiles := by
  unfold tickRealm
  dsimp only
  split
  · exact hok
  · have h1 : realmTilesOk (expandLoop byR p.1 p.2.length
        (max 1 (p.2.length / 12)) (st.rng.shuffle p.2).1 0 0
        { st with rng := (st.rng.shuffle p.2).2 }).1.tiles :=
      expandLoop_ok byR p.1 p.2.length (max 1 (p.2.length / 12)) _ 0 0 _ hok
    split
    · simp only [updateRealm]
      exact h1
    · exact h1

theorem tickFold_ok (byR : List (String × List Nat)) (year : Nat) :
    ∀ (l : List (String × List Nat)) (st : GenState),
      realmTilesOk st.tiles →
      realmTilesOk (l.foldl (tickRealm byR year) st).tiles
  | [], st, hok => hok
  | p :: rest, st, hok => by
      simp only [List.foldl_cons]
      exact tickFold_ok byR year rest _ (tickRealm_ok byR year st p hok)

theorem tick_ok (s : GenState) (year : Nat) (hok : realmTilesOk s.tiles) :
    realmTilesOk (realm_expansion_tick s year).tiles := by
  unfold realm_expansion_tick
  exact tickFold_ok _ year _ s hok

theorem setRealmFoldNone_ok :
    ∀ (l : List Nat) (ts : List Tile), realmTilesOk ts →
      realmTilesOk (l.foldl
        (fun ts j => ts.set j { tileAt ts j with realm_id := none }) ts)
  | [], ts, hok => hok
  | j :: rest, ts, hok => by
      simp only [List.foldl_cons]
      exact setRealmFoldNone_ok rest _ (realmTilesOk_clear ts j hok)

theorem setRealmFoldSome_ok (v : String) :
    ∀ (l : List Nat) (ts : List Tile), realmTilesOk ts →
      (∀ j ∈ l, (tileAt ts j).realm_id ≠ none) →
      realmTilesOk (l.foldl
        (fun ts j => ts.set j { tileAt ts j with realm_id := some v }) ts)
  | [], ts, hok, _ => hok
  | j :: rest, ts, hok, hown => by
      simp only [List.foldl_cons]
      have hj := hown j (List.mem_cons_self j rest)
      have hprops := hok j hj
      refine setRealmFoldSome_ok v rest _
        (realmTilesOk_set ts j (some v) hok hprops.1 hprops.2) ?_
      intro k hk
      rw [tileAt_set]
      split
      · simp
      · exact hown k (List.mem_cons_of_mem j hk)

theorem crisis_ok (s : GenState) (year : Nat) (hok : realmTilesOk s.tiles) :
    realmTilesOk (random_crisis s year).tiles := by
  unfold random_crisis
  dsimp only
  split
  · exact hok
  · split
    · exact hok
    · split
      · exact hok
      · split
        · split
          · exact hok
          · simp only [appendEvent]
            exact setRealmFoldNone_ok _ s.tiles hok
        · split
          · exact hok
          · simp only [appendEvent]
            refine setRealmFoldSome_ok _ _ s.tiles hok ?_
            intro j hj
            have h1 := List.mem_of_mem_take hj
            have h2 := Rng.shuffle_mem _ _ j h1
            have h3 := List.of_mem_filter h2
            simp only [beq_iff_eq] at h3
            rw [h3]
            simp

theorem simLoop_ok (step : Nat) :
    ∀ (fuel current : Nat) (s : GenState), realmTilesOk s.tiles →
      realmTilesOk (simLoop step fuel current s).tiles
  | 0, current, s, hok => hok
  | fuel + 1, current, s, hok => by
      unfold simLoop
      dsimp only
      split
      · split
        · exact simLoop_ok step fuel (current + step) _
            (crisis_ok { realm_expansion_tick s (current + step) with
                rng := (realm_expansion_tick s (current + step)).rng.random.2 }
              (current + step) (tick_ok s (current + step) hok))
        · exact simLoop_ok step fuel (current + step) _
            (tick_ok s (current + step) hok)
      · exact hok

theorem simulate_history_ok (s : GenState) (hok : realmTilesOk s.tiles) :
    realmTilesOk (simulate_history s).tiles := by
  unfold simulate_history
  dsimp only
  split
  · exact hok
  · simp only [clearStrengths, setStrengths]
    exact simLoop_ok _ _ 0 _ hok

theorem rid_tileAt_set_sett (ts : List Tile) (n : Nat) (v : Option String)
    (i : Nat) :
    (tileAt (ts.set n { tileAt ts n with settlement_id := v }) i).realm_id =
      (tileAt ts i).realm_id := by
  rw [tileAt_set]
  split
  next hc =>
    obtain ⟨h1, -⟩ := hc
    subst h1
    rfl
  · rfl

theorem settlementPlace_rid (rid : String) (years ti sid : Nat)
    (st : GenState) (i : Nat) :
    (tileAt (settlementPlace rid years ti sid st).tiles i).realm_id =
      (tileAt st.tiles i).realm_id :=
  rid_tileAt_set_sett st.tiles ti (some ("settlement_" ++ toString sid)) i

theorem settlementExtraLoop_rid (rid : String) (extra years : Nat) :
    ∀ (l : List Nat) (placed sid : Nat) (st : GenState) (i : Nat),
      (tileAt (settlementExtraLoop rid extra years l placed sid st).1.tiles
        i).realm_id = (tileAt st.tiles i).realm_id
  | [], placed, sid, st, i => rfl
  | ti :: rest, placed, sid, st, i => by
      unfold settlementExtraLoop
      dsimp only
      split
      · rfl
      · split
        · exact settlementExtraLoop_rid rid extra years rest _ _ _ i
        · repeat' split
          all_goals
            first
              | exact settlementExtraLoop_rid rid extra years rest _ _ _ i
              | exact (settlementExtraLoop_rid rid extra years rest _ _ _
                  i).trans (settlementPlace_rid rid years ti sid st i)

set_option maxRecDepth 8000 in
theorem deriveSettlementsRealm_rid (st : GenState) (sid : Nat) (rid : String)
    (realm_tiles : List Nat) (i : Nat) :
    (tileAt (deriveSettlementsRealm st sid rid realm_tiles).1.tiles
      i).realm_id = (tileAt st.tiles i).realm_id := by
  unfold deriveSettlementsRealm
  dsimp only
  split
  · rfl
  · simp only [updateRealm]
    exact (settlementExtraLoop_rid rid _ _ _ 0 _ _ i).trans
      (rid_tileAt_set_sett st.tiles _ _ i)

theorem settFold_rid :
    ∀ (l : List (String × List Nat)) (acc : GenState × Nat) (i : Nat),
      (tileAt ((l.foldl
        (fun (acc : GenState × Nat) p =>
          deriveSettlementsRealm acc.1 acc.2 p.1 p.2) acc)).1.tiles
        i).realm_id = (tileAt acc.1.tiles i).realm_id
  | [], acc, i => rfl
  | p :: rest, acc, i => by
      simp only [List.foldl_cons]
      exact (settFold_rid rest _ i).trans
        (deriveSettlementsRealm_rid acc.1 acc.2 p.1 p.2 i)

theorem derive_settlements_rid (s : GenState) (i : Nat) :
    (tileAt (derive_settlements s).tiles i).realm_id =
      (tileAt s.tiles i).realm_id := by
  unfold derive_settlements
  exact settFold_rid _ (s, 1) i

theorem derive_settlements_ok (s : GenState) (hok : realmTilesOk s.tiles) :
    realmTilesOk (derive_settlements s).tiles :=
  realmTilesOk_of_eq
    (fun i => ⟨derive_settlements_rid s i,
      (coreEq_wb (derive_settlements_core s i)).1,
      (coreEq_wb (derive_settlements_core s i)).2⟩) hok

theorem riverCarveFold_setts :
    ∀ (starts : List Tile) (st : GenState),
      (starts.foldl (fun st t =>
        let res := riverWalk st.width st.height 80 t.x t.y st.tiles st.rng
        { st with tiles := res.1, rng := res.2.1 }) st).settlements =
        st.settlements
  | [], st => rfl
  | t :: rest, st => by
      simp only [List.foldl_cons]
      exact riverCarveFold_setts rest _

theorem carve_settlements (st : GenState) (count : Nat) :
    (carve_rivers st count).settlements = st.settlements := by
  unfold carve_rivers
  dsimp only
  split
  · rfl
  · exact riverCarveFold_setts _ _

theorem enforce_settlements (s : GenState) :
    (enforce_continent_connectivity s).settlements = s.settlements := by
  unfold enforce_continent_connectivity
  dsimp only
  split
  · rfl
  · split
    · rfl
    · rfl

theorem base_settlements (s : GenState) :
    (generate_base_tiles s).settlements = s.settlements := by
  unfold generate_base_tiles
  dsimp only
  rw [carve_settlements]
  split
  · rw [enforce_settlements]
  · rfl

theorem spawnLoop_setts (target : Nat) (fertile : List Nat) :
    ∀ (rem j : Nat) (used : List (Nat × Nat)) (s : GenState),
      (spawnLoop target fertile rem j used s).1.settlements = s.settlements
  | 0, j, used, s => rfl
  | rem + 1, j, used, s => by
      unfold spawnLoop
      dsimp only
      split
      · rfl
      · split
        · rfl
        · split
          · exact spawnLoop_setts target fertile rem _ _ _
          · exact spawnLoop_setts target fertile rem _ _ _

theorem spawn_settlements (s : GenState) :
    (spawn_initial_realms s).settlements = s.settlements := by
  unfold spawn_initial_realms
  dsimp only
  split
  · exact spawnLoop_setts _ _ _ 0 [] _
  · exact spawnLoop_setts _ _ _ 0 [] _

theorem expandVisitStep_setts (byR : List (String × List Nat)) (rid : String)
    (size : Nat) (c : Nat × Nat) (acc : GenState × Nat) :
    (expandVisitStep byR rid size c acc).1.settlements = acc.1.settlements := by
  unfold expandVisitStep
  dsimp only
  repeat' split
  all_goals rfl

theorem expandVisit_setts (byR : List (String × List Nat)) (rid : String)
    (size : Nat) :
    ∀ (coords : List (Nat × Nat)) (st : GenState) (grown : Nat),
      (expandVisit byR rid size coords st grown).1.settlements =
        st.settlements
  | [], st, grown => rfl
  | c :: rest, st, grown => by
      simp only [expandVisit]
      exact (expandVisit_setts byR rid size rest
        (expandVisitStep byR rid size c (st, grown)).1
        (expandVisitStep byR rid size c (st, grown)).2).trans
        (expandVisitStep_setts byR rid size c (st, grown))

theorem expandLoop_setts (byR : List (String × List Nat)) (rid : String)
    (size desired : Nat) :
    ∀ (l : List Nat) (grown attempts : Nat) (st : GenState),
      (expandLoop byR rid size desired l grown attempts st).1.settlements =
        st.settlements
  | [], grown, attempts, st => rfl
  | ti :: rest, grown, attempts, st => by
      unfold expandLoop
      dsimp only
      split
      · rfl
      · have h1 := expandVisit_setts byR rid size
          (neighborCoords st.width st.height (tileAt st.tiles ti).x
            (tileAt st.tiles ti).y) st grown
        split
        · exact h1
        · exact (expandLoop_setts byR rid size desired rest _ (attempts + 1)
            _).trans h1

theorem tickRealm_setts (byR : List (String × List Nat)) (year : Nat)
    (st : GenState) (p : String × List Nat) :
    (tickRealm byR year st p).settlements = st.settlements := by
  unfold tickRealm
  dsimp only
  split
  · rfl
  · split
    · simp only [updateRealm]
      exact expandLoop_setts _ _ _ _ _ 0 0 _
    · exact expandLoop_setts _ _ _ _ _ 0 0 _

theorem tickFold_setts (byR : List (String × List Nat)) (year : Nat) :
    ∀ (l : List (String × List Nat)) (st : GenState),
      (l.foldl (tickRealm byR year) st).settlements = st.settlements
  | [], st => rfl
  | p :: rest, st => by
      simp only [List.foldl_cons]
      exact (tickFold_setts byR year rest _).trans
        (tickRealm_setts byR year st p)

theorem tick_setts (s : GenState) (year : Nat) :
    (realm_expansion_tick s year).settlements = s.settlements := by
  unfold realm_expansion_tick
  exact tickFold_setts _ year _ s

theorem crisis_setts (s : GenState) (year : Nat) :
    (random_crisis s year).settlements = s.settlements := by
  unfold random_crisis
  dsimp only
  split
  · rfl
  · split
    · rfl
    · split
      · rfl
      · split
        · split
          · rfl
          · simp only [appendEvent]
        · split
          · rfl
          · simp only [appendEvent]

theorem simLoop_setts (step : Nat) :
    ∀ (fuel current : Nat) (s : GenState),
      (simLoop step fuel current s).settlements = s.settlements
  | 0, current, s => rfl
  | fuel + 1, current, s => by
      unfold simLoop
      dsimp only
      split
      · split
        · exact (simLoop_setts step fuel (current + step) _).trans
            ((crisis_setts { realm_expansion_tick s (current + step) with
                rng := (realm_expansion_tick s (current + step)).rng.random.2 }
              (current + step)).trans (tick_setts s (current + step)))
        · exact (simLoop_setts step fuel (current + step) _).trans
            (tick_setts s (current + step))
      · rfl

theorem simulate_history_setts (s : GenState) :
    (simulate_history s).settlements = s.settlements := by
  unfold simulate_history
  dsimp only
  split
  · rfl
  · simp only [clearStrengths, setStrengths]
    exact simLoop_setts _ _ 0 _

theorem roadsFold_settlements :
    ∀ (l : List Realm) (st : GenState),
      (l.foldl roadsRealm st).settlements = st.settlements
  | [], st => rfl
  | realm :: rest, st => by
      simp only [List.foldl_cons]
      exact (roadsFold_settlements rest _).trans
        (roadsRealm_settlements st realm)

theorem derive_roads_settlements (s : GenState) :
    (derive_roads s).settlements = s.settlements := by
  unfold derive_roads
  exact roadsFold_settlements s.realms s

theorem ruinLoop_settlements (border : List Nat) (years : Nat) :
    ∀ (k j : Nat) (s s' : GenState),
      ruinLoop border years k j s = some s' →
      s'.settlements = s.settlements
  | 0, j, s, s', h => by
      cases h
      rfl
  | k + 1, j, s, s', h => by
      unfold ruinLoop at h
      dsimp only at h
      split at h
      · cases h
      · have h2 := ruinLoop_settlements border years k (j + 1) _ s' h
        exact h2

theorem derive_ruins_settlements (s s' : GenState)
    (h : derive_ruins s = some s') : s'.settlements = s.settlements := by
  unfold derive_ruins at h
  dsimp only at h
  have h2 := ruinLoop_settlements _ s.years _ 0 _ s' h
  exact h2

theorem foldlMinKey_mem {α : Type} (key : α → Frac) :
    ∀ (cs : List α) (c0 : α) (l : List α), c0 ∈ l → (∀ x ∈ cs, x ∈ l) →
      (cs.foldl (fun best i => if key i < key best then i else best) c0) ∈ l
  | [], c0, l, h0, _ => h0
  | c :: cs, c0, l, h0, hcs => by
      simp only [List.foldl_cons]
      refine foldlMinKey_mem key cs _ l ?_
        (fun x hx => hcs x (List.mem_cons_of_mem c hx))
      split
      · exact hcs c (List.mem_cons_self c cs)
      · exact h0

theorem most_central_mem (tiles : List Tile) (cand : List Nat)
    (h : cand ≠ []) : most_central_tile tiles cand ∈ cand := by
  cases cand with
  | nil => exact absurd rfl h
  | cons c0 cs =>
    unfold most_central_tile
    dsimp only
    exact foldlMinKey_mem _ cs c0 (c0 :: cs) (List.mem_cons_self c0 cs)
      (fun x hx => List.mem_cons_of_mem c0 hx)

theorem insertByRealm_owned (P : String → Nat → Prop) :
    ∀ (acc : List (String × List Nat)) (rid : String) (i : Nat),
      (∀ p ∈ acc, ∀ j ∈ p.2, P p.1 j) → P rid i →
      ∀ p ∈ insertByRealm acc rid i, ∀ j ∈ p.2, P p.1 j
  | [], rid, i, hacc, hi => by
      intro p hp j hj
      simp only [insertByRealm, List.mem_singleton] at hp
      subst hp
      simp only [List.mem_singleton] at hj
      subst hj
      exact hi
  | (r, l) :: rest, rid, i, hacc, hi => by
      intro p hp j hj
      simp only [insertByRealm] at hp
      split at hp
      next heq =>
        rcases List.mem_cons.mp hp with h1 | h1
        · subst h1
          rcases List.mem_append.mp hj with h2 | h2
          · exact hacc (r, l) (List.mem_cons_self _ _) j h2
          · have h3 : j = i := by simpa using h2
            subst h3
            rw [heq]
            exact hi
        · exact hacc _ (List.mem_cons_of_mem _ h1) j hj
      next hne =>
        rcases List.mem_cons.mp hp with h1 | h1
        · subst h1
          exact hacc (r, l) (List.mem_cons_self _ _) j hj
        · exact insertByRealm_owned P rest rid i
            (fun q hq k hk => hacc q (List.mem_cons_of_mem _ hq) k hk) hi p
            h1 j hj

theorem byRealmFold_owned (s : GenState) :
    ∀ (ks : List Nat) (acc : List (String × List Nat)),
      (∀ p ∈ acc, ∀ j ∈ p.2, (tileAt s.tiles j).realm_id = some p.1) →
      ∀ p ∈ (ks.foldl (fun acc i =>
          match (tileAt s.tiles i).realm_id with
          | none => acc
          | some rid => insertByRealm acc rid i) acc),
        ∀ j ∈ p.2, (tileAt s.tiles j).realm_id = some p.1
  | [], acc, hacc => hacc
  | k :: ks, acc, hacc => by
      simp only [List.foldl_cons]
      apply byRealmFold_owned s ks
      cases hrk : (tileAt s.tiles k).realm_id with
      | none => exact hacc
      | some rid =>
          exact insertByRealm_owned
            (fun r j => (tileAt s.tiles j).realm_id = some r) acc rid k hacc
            hrk

theorem tilesByRealm_owned (s : GenState) :
    ∀ p ∈ tilesByRealm s, ∀ j ∈ p.2,
      (tileAt s.tiles j).realm_id = some p.1 := by
  unfold tilesByRealm
  exact byRealmFold_owned s _ [] (by intro p hp; cases hp)

theorem settlementPlace_setts (rid : String) (years ti sid : Nat)
    (st : GenState) (hq : settsOk st.tiles st.settlements)
    (hw : (tileAt st.tiles ti).water = false) :
    settsOk (settlementPlace rid years ti sid st).tiles
      (settlementPlace rid years ti sid st).settlements := by
  have hlt : ti < st.tiles.length := tileAt_lt_of_water_false st.tiles ti hw
  unfold settlementPlace
  dsimp only
  intro q hqm
  rcases List.mem_append.mp hqm with hold | hnew
  · obtain ⟨i, h1, h2, h3⟩ := hq q hold
    have hc := coreEq_tileAt_set_sett st.tiles ti
      (some ("settlement_" ++ toString sid)) i
    exact ⟨i, hc.1.trans h1, hc.2.1.trans h2, hc.2.2.2.2.2.1.trans h3⟩
  · have hq2 := List.mem_singleton.mp hnew
    subst hq2
    refine ⟨ti, ?_, ?_, ?_⟩ <;> rw [tileAt_set, if_pos ⟨rfl, hlt⟩]
    exact hw

theorem settlementExtraLoop_setts (rid : String) (extra years : Nat) :
    ∀ (l : List Nat) (placed sid : Nat) (st : GenState),
      settsOk st.tiles st.settlements →
      settsOk (settlementExtraLoop rid extra years l placed sid st).1.tiles
        (settlementExtraLoop rid extra years l placed sid st).1.settlements
  | [], placed, sid, st, hq => hq
  | ti :: rest, placed, sid, st, hq => by
      unfold settlementExtraLoop
      dsimp only
      split
      · exact hq
      · split
        · exact settlementExtraLoop_setts rid extra years rest _ _ _ hq
        · next hns =>
          push_neg at hns
          have hw : (tileAt st.tiles ti).water = false := by
            rw [← Bool.not_eq_true]
            exact hns.2
          repeat' split
          all_goals
            first
              | exact settlementExtraLoop_setts rid extra years rest _ _ _ hq
              | exact settlementExtraLoop_setts rid extra years rest _ _ _
                  (settlementPlace_setts rid years ti sid st hq hw)

set_option maxRecDepth 8000 in
theorem deriveSettlementsRealm_setts (st : GenState) (sid : Nat)
    (rid : String) (realm_tiles : List Nat)
    (hq : settsOk st.tiles st.settlements) (hok : realmTilesOk st.tiles)
    (hown : ∀ j ∈ realm_tiles, (tileAt st.tiles j).realm_id ≠ none) :
    settsOk (deriveSettlementsRealm st sid rid realm_tiles).1.tiles
      (deriveSettlementsRealm st sid rid realm_tiles).1.settlements := by
  unfold deriveSettlementsRealm
  dsimp only
  split
  next hne =>
    exact hq
  next hne =>
    have hcand : (if realm_tiles.filter (fun i =>
        !(tileAt st.tiles i).water &&
          decide (isFertileBiome (tileAt st.tiles i).biome)) = [] then
        realm_tiles
      else realm_tiles.filter (fun i =>
        !(tileAt st.tiles i).water &&
          decide (isFertileBiome (tileAt st.tiles i).biome))) ≠ [] := by
      split
      · exact hne
      next hf => exact hf
    have hcapmem := most_central_mem st.tiles _ hcand
    have hcapw : (tileAt st.tiles (most_central_tile st.tiles
        (if realm_tiles.filter (fun i =>
            !(tileAt st.tiles i).water &&
              decide (isFertileBiome (tileAt st.tiles i).biome)) = [] then
          realm_tiles
        else realm_tiles.filter (fun i =>
          !(tileAt st.tiles i).water &&
            decide (isFertileBiome (tileAt st.tiles i).biome))))).water =
        false := by
      by_cases hf : realm_tiles.filter (fun i =>
          !(tileAt st.tiles i).water &&
            decide (isFertileBiome (tileAt st.tiles i).biome)) = []
      · rw [if_pos hf] at hcapmem ⊢
        exact (hok _ (hown _ hcapmem)).1
      · rw [if_neg hf] at hcapmem ⊢
        have hp := List.of_mem_filter hcapmem
        simp only [Bool.and_eq_true, Bool.not_eq_true',
          decide_eq_true_eq] at hp
        exact hp.1
    have hlt := tileAt_lt_of_water_false _ _ hcapw
    generalize hg : most_central_tile st.tiles
      (if realm_tiles.filter (fun i =>
          !(tileAt st.tiles i).water &&
            decide (isFertileBiome (tileAt st.tiles i).biome)) = [] then
        realm_tiles
      else realm_tiles.filter (fun i =>
        !(tileAt st.tiles i).water &&
          decide (isFertileBiome (tileAt st.tiles i).biome))) = cIdx
      at hcapw hlt ⊢
    simp only [updateRealm]
    refine settlementExtraLoop_setts rid _ _ _ 0 _ _ ?_
    intro q hqm
    rcases List.mem_append.mp hqm with hold | hnew
    · obtain ⟨i, h1, h2, h3⟩ := hq q hold
      have hc := coreEq_tileAt_set_sett st.tiles cIdx
        (some ("settlement_" ++ toString sid)) i
      exact ⟨i, hc.1.trans h1, hc.2.1.trans h2, hc.2.2.2.2.2.1.trans h3⟩
    · have hq2 := List.mem_singleton.mp hnew
      subst hq2
      refine ⟨cIdx, ?_, ?_, ?_⟩ <;> rw [tileAt_set, if_pos ⟨rfl, hlt⟩]
      exact hcapw

theorem deriveSettlementsRealm_ok (st : GenState) (sid : Nat) (rid : String)
    (realm_tiles : List Nat) (hok : realmTilesOk st.tiles) :
    realmTilesOk (deriveSettlementsRealm st sid rid realm_tiles).1.tiles :=
  realmTilesOk_of_eq
    (fun i => ⟨deriveSettlementsRealm_rid st sid rid realm_tiles i,
      (coreEq_wb (deriveSettlementsRealm_core st sid rid realm_tiles i)).1,
      (coreEq_wb (deriveSettlementsRealm_core st sid rid realm_tiles i)).2⟩)
    hok

theorem settFold_setts :
    ∀ (l : List (String × List Nat)) (acc : GenState × Nat),
      settsOk acc.1.tiles acc.1.settlements → realmTilesOk acc.1.tiles →
      (∀ p ∈ l, ∀ j ∈ p.2, (tileAt acc.1.tiles j).realm_id ≠ none) →
      settsOk ((l.foldl
          (fun (acc : GenState × Nat) p =>
            deriveSettlementsRealm acc.1 acc.2 p.1 p.2) acc)).1.tiles
        ((l.foldl
          (fun (acc : GenState × Nat) p =>
            deriveSettlementsRealm acc.1 acc.2 p.1 p.2) acc)).1.settlements
  | [], acc, hq, _, _ => hq
  | p :: rest, acc, hq, hok, hown => by
      simp only [List.foldl_cons]
      refine settFold_setts rest _
        (deriveSettlementsRealm_setts acc.1 acc.2 p.1 p.2 hq hok
          (hown p (List.mem_cons_self p rest)))
        (deriveSettlementsRealm_ok acc.1 acc.2 p.1 p.2 hok) ?_
      intro q hq' j hj
      rw [deriveSettlementsRealm_rid]
      exact hown q (List.mem_cons_of_mem p hq') j hj

theorem derive_settlements_setts (s : GenState)
    (hq : settsOk s.tiles s.settlements) (hok : realmTilesOk s.tiles) :
    settsOk (derive_settlements s).tiles (derive_settlements s).settlements := by
  unfold derive_settlements
  refine settFold_setts _ (s, 1) hq hok ?_
  intro p hp j hj
  rw [tilesByRealm_owned s p hp j hj]
  simp

theorem realmTilesOk_of_forall_lt (ts : List Tile)
    (h : ∀ i, i < ts.length → ((tileAt ts i).realm_id ≠ none →
      (tileAt ts i).water = false ∧ (tileAt ts i).biome ≠ .mountain)) :
    realmTilesOk ts := by
  intro i hne
  by_cases hi : i < ts.length
  · exact h i hi hne
  · rw [tileAt_oob ts i (le_of_not_lt hi)] at hne
    exact absurd rfl hne

/-- C10.  The implicit ownership invariant: every tile whose `realm_id`
is non-null is a non-water, non-mountain tile.  The grid as built owns no
tiles; realm seeding only claims tiles of the fertile pool (non-water,
fertile-biome, hence non-mountain), the forced fallback placement
included; an expansion tick skips water and mountain neighbors; a crisis
only clears ownership or transfers it between already-owned tiles;
settlement derivation writes `settlement_id` only.  The invariant
therefore holds in the final document of every successful run, and —
consequently — every settlement record, capitals included, carries the
coordinates of a non-water tile of the grid. -/
theorem realm_ownership_invariant :
    (∀ s : GenState, realmTilesOk (generate_base_tiles s).tiles) ∧
    (∀ s : GenState, realmTilesOk s.tiles →
        realmTilesOk (spawn_initial_realms s).tiles) ∧
    (∀ (s : GenState) (year : Nat), realmTilesOk s.tiles →
        realmTilesOk (realm_expansion_tick s year).tiles) ∧
    (∀ (s : GenState) (year : Nat), realmTilesOk s.tiles →
        realmTilesOk (random_crisis s year).tiles) ∧
    (∀ s : GenState, realmTilesOk s.tiles →
        realmTilesOk (derive_settlements s).tiles) ∧
    (∀ s : GenState, settsOk s.tiles s.settlements → realmTilesOk s.tiles →
        settsOk (derive_settlements s).tiles
          (derive_settlements s).settlements) ∧
    (∀ (width height years seed : Nat) (sea_level : Frac) (mode : String)
        (tape : Nat → Nat) (doc : RegionDoc),
        generate_region width height years seed sea_level mode tape =
          some doc →
        realmTilesOk doc.tiles ∧ settsOk doc.tiles doc.settlements) := by
  refine ⟨?_, ?_, ?_, ?_, ?_, ?_, ?_⟩
  · exact base_realmTilesOk
  · exact fun s => spawn_ok s
  · exact fun s year => tick_ok s year
  · exact fun s year => crisis_ok s year
  · exact fun s => derive_settlements_ok s
  · exact fun s hq hok => derive_settlements_setts s hq hok
  · intro width height years seed sea_level mode tape doc h
    unfold generate_region at h
    dsimp only at h
    split at h
    · cases h
    next s6 heq =>
      cases h
      constructor
      · show realmTilesOk s6.tiles
        rw [derive_ruins_tiles _ s6 heq, derive_roads_tiles]
        exact derive_settlements_ok _
          (simulate_history_ok _ (spawn_ok _ (base_realmTilesOk _)))
      · show settsOk s6.tiles s6.settlements
        rw [derive_ruins_tiles _ s6 heq, derive_ruins_settlements _ s6 heq,
          derive_roads_tiles, derive_roads_settlements]
        refine derive_settlements_setts _ ?_
          (simulate_history_ok _ (spawn_ok _ (base_realmTilesOk _)))
        have hempty : (simulate_history (spawn_initial_realms
            (generate_base_tiles (initState width height years seed sea_level
              mode tape)))).settlements = [] := by
          rw [simulate_history_setts, spawn_settlements, base_settlements]
          rfl
        intro q hqm
        rw [hempty] at hqm
        cases hqm

/-- C10 witness: the ownership invariant holds on the concrete state
`c5aState` and is carried through one spawn, one expansion tick, one
crisis, and settlement derivation there; the complete 4×3 pipeline run
`c4SmallDoc` satisfies both the ownership invariant and the
settlements-on-land consequence. -/
theorem realm_ownership_invariant_witness :
    realmTilesOk c5aState.tiles ∧
    realmTilesOk (spawn_initial_realms c5aState).tiles ∧
    realmTilesOk (realm_expansion_tick c5aState 10).tiles ∧
    realmTilesOk (random_crisis c5aState 10).tiles ∧
    realmTilesOk (derive_settlements c5aState).tiles ∧
    settsOk (derive_settlements c5aState).tiles
      (derive_settlements c5aState).settlements ∧
    (generate_region 4 3 10 0 (fr 35 100) "continent" (fun _ => 0) =
       some c4SmallDoc ∧
     realmTilesOk c4SmallDoc.tiles ∧
     settsOk c4SmallDoc.tiles c4SmallDoc.settlements) := by
  have hok : realmTilesOk c5aState.tiles :=
    realmTilesOk_of_forall_lt _ (by decide)
  have hsq : settsOk c5aState.tiles c5aState.settlements :=
    fun q hqm => absurd hqm (List.not_mem_nil q)
  exact ⟨hok, realm_ownership_invariant.2.1 c5aState hok,
    realm_ownership_invariant.2.2.1 c5aState 10 hok,
    realm_ownership_invariant.2.2.2.1 c5aState 10 hok,
    realm_ownership_invariant.2.2.2.2.1 c5aState hok,
    realm_ownership_invariant.2.2.2.2.2.1 c5aState hsq hok,
    rfl,
    realm_ownership_invariant.2.2.2.2.2.2 4 3 10 0 (fr 35 100) "continent"
      (fun _ => 0) c4SmallDoc rfl⟩

theorem dfsPushFold_spec (tiles : List Tile) (w : Nat) :
    ∀ (cs : List (Nat × Nat)) (acc : List Nat × List Nat),
      ∃ p : List Nat,
        (cs.foldl (fun (acc : List Nat × List Nat) c =>
          let j := gridIdx w c.1 c.2
          if j ∉ acc.1 ∧ !(tileAt tiles j).water then (j :: acc.1, j :: acc.2)
          else acc) acc).1 = p ++ acc.1 ∧
        (cs.foldl (fun (acc : List Nat × List Nat) c =>
          let j := gridIdx w c.1 c.2
          if j ∉ acc.1 ∧ !(tileAt tiles j).water then (j :: acc.1, j :: acc.2)
          else acc) acc).2 = p ++ acc.2 ∧
        (acc.1.Nodup → (p ++ acc.1).Nodup) ∧
        (∀ k ∈ p, (∃ c ∈ cs, k = gridIdx w c.1 c.2) ∧
          (tileAt tiles k).water = false ∧ k ∉ acc.1) ∧
        (∀ c ∈ cs, (tileAt tiles (gridIdx w c.1 c.2)).water = false →
          gridIdx w c.1 c.2 ∈ (cs.foldl (fun (acc : List Nat × List Nat) c =>
            let j := gridIdx w c.1 c.2
            if j ∉ acc.1 ∧ !(tileAt tiles j).water then
              (j :: acc.1, j :: acc.2)
            else acc) acc).1)
  | [], acc => ⟨[], rfl, rfl, fun hd => hd, by simp, by simp⟩
  | c :: cs, acc => by
      simp only [List.foldl_cons]
      by_cases hc : gridIdx w c.1 c.2 ∉ acc.1 ∧
          !(tileAt tiles (gridIdx w c.1 c.2)).water
      · rw [if_pos hc]
        obtain ⟨p, h1, h2, h3, h4, h5⟩ := dfsPushFold_spec tiles w cs
          (gridIdx w c.1 c.2 :: acc.1, gridIdx w c.1 c.2 :: acc.2)
        have hw : (tileAt tiles (gridIdx w c.1 c.2)).water = false := by
          have := hc.2
          simp only [Bool.not_eq_true'] at this
          exact this
        refine ⟨p ++ [gridIdx w c.1 c.2], ?_, ?_, ?_, ?_, ?_⟩
        · rw [h1]; simp
        · rw [h2]; simp
        · intro hd
          have hd2 : (gridIdx w c.1 c.2 :: acc.1).Nodup := by
            exact List.nodup_cons.mpr ⟨hc.1, hd⟩
          have := h3 hd2
          simpa using this
        · intro k hk
          rcases List.mem_append.mp hk with hk | hk
          · obtain ⟨⟨c', hc', he⟩, hw', hn⟩ := h4 k hk
            exact ⟨⟨c', List.mem_cons_of_mem c hc', he⟩, hw',
              fun hmem => hn (List.mem_cons_of_mem _ hmem)⟩
          · have hk2 : k = gridIdx w c.1 c.2 := by simpa using hk
            subst hk2
            exact ⟨⟨c, List.mem_cons_self c cs, rfl⟩, hw, hc.1⟩
        · intro c' hc' hw'
          rcases List.mem_cons.mp hc' with h | h
          · subst h
            rw [h1]
            exact List.mem_append.mpr (Or.inr (List.mem_cons_self _ _))
          · exact h5 c' h hw'
      · rw [if_neg hc]
        obtain ⟨p, h1, h2, h3, h4, h5⟩ := dfsPushFold_spec tiles w cs acc
        refine ⟨p, h1, h2, h3, ?_, ?_⟩
        · intro k hk
          obtain ⟨⟨c', hc', he⟩, hw', hn⟩ := h4 k hk
          exact ⟨⟨c', List.mem_cons_of_mem c hc', he⟩, hw', hn⟩
        · intro c' hc' hw'
          rcases List.mem_cons.mp hc' with h | h
          · subst h
            have hmem : gridIdx w c'.1 c'.2 ∈ acc.1 := by
              by_contra hn
              exact hc ⟨hn, by rw [hw']; rfl⟩
            rw [h1]
            exact List.mem_append.mpr (Or.inr hmem)
          · exact h5 c' h hw'

theorem dfsPush_spec (tiles : List Tile) (w h : Nat) (i : Nat)
    (visited stack : List Nat) :
    ∃ p : List Nat,
      (dfsPush tiles w h i visited stack).1 = p ++ visited ∧
      (dfsPush tiles w h i visited stack).2 = p ++ stack ∧
      (visited.Nodup → (p ++ visited).Nodup) ∧
      (∀ k ∈ p, k ∈ nbrIdxs tiles w h i ∧
        (tileAt tiles k).water = false ∧ k ∉ visited) ∧
      (∀ m, m ∈ nbrIdxs tiles w h i → (tileAt tiles m).water = false →
        m ∈ (dfsPush tiles w h i visited stack).1) := by
  obtain ⟨p, h1, h2, h3, h4, h5⟩ := dfsPushFold_spec tiles w
    (neighborCoords w h (tileAt tiles i).x (tileAt tiles i).y)
    (visited, stack)
  refine ⟨p, h1, h2, h3, ?_, ?_⟩
  · intro k hk
    obtain ⟨⟨c, hc, he⟩, hw, hn⟩ := h4 k hk
    refine ⟨?_, hw, hn⟩
    unfold nbrIdxs
    exact List.mem_map.mpr ⟨c, hc, he.symm⟩
  · intro m hm hw
    unfold nbrIdxs at hm
    obtain ⟨c, hc, he⟩ := List.mem_map.mp hm
    subst he
    exact h5 c hc hw

theorem nodup_length_le (l : List Nat) (n : Nat) (hd : l.Nodup)
    (hb : ∀ k ∈ l, k < n) : l.length ≤ n := by
  have h1 : l.toFinset ⊆ Finset.range n := by
    intro x hx
    simp only [Finset.mem_range]
    exact hb x (List.mem_toFinset.mp hx)
  have h2 := Finset.card_le_card h1
  rwa [List.toFinset_card_of_nodup hd, Finset.card_range] at h2

theorem connVia_mono {tiles : List Tile} {w h : Nat} {S T : Nat → Prop}
    (himp : ∀ m, S m → T m) {a b : Nat} (hc : connVia tiles w h S a b) :
    connVia tiles w h T a b :=
  Relation.ReflTransGen.mono (fun _ _ hr => ⟨hr.1, hr.2.1, himp _ hr.2.2⟩) hc

theorem dfsAux_spec (tiles : List Tile) (w h : Nat) (V0 : List Nat)
    (start : Nat) :
    ∀ (fuel : Nat) (stack visited comp : List Nat),
      visited.Nodup →
      (∀ k ∈ visited, (tileAt tiles k).water = false) →
      (∀ k ∈ V0, k ∈ visited) →
      (∀ k ∈ visited, k ∈ V0 ∨ k ∈ stack ∨ k ∈ comp) →
      (∀ k ∈ stack, k ∈ visited ∧ k ∉ V0 ∧
        connVia tiles w h (fun m => m ∈ visited ∧ m ∉ V0) start k) →
      (∀ k ∈ comp, k ∈ visited ∧ k ∉ V0 ∧
        connVia tiles w h (fun m => m ∈ visited ∧ m ∉ V0) start k ∧
        (∀ m, m ∈ nbrIdxs tiles w h k → (tileAt tiles m).water = false →
          m ∈ visited)) →
      stack.length + 2 * tiles.length < fuel + 2 * visited.length →
      (∀ k ∈ visited, k ∈ (dfsAux tiles w h fuel stack visited comp).2) ∧
      (dfsAux tiles w h fuel stack visited comp).2.Nodup ∧
      (∀ k ∈ (dfsAux tiles w h fuel stack visited comp).2,
        (tileAt tiles k).water = false) ∧
      (∀ k ∈ (dfsAux tiles w h fuel stack visited comp).2,
        k ∈ V0 ∨ k ∈ (dfsAux tiles w h fuel stack visited comp).1) ∧
      (∀ k ∈ comp, k ∈ (dfsAux tiles w h fuel stack visited comp).1) ∧
      (∀ k ∈ (dfsAux tiles w h fuel stack visited comp).1,
        k ∈ (dfsAux tiles w h fuel stack visited comp).2 ∧ k ∉ V0 ∧
        connVia tiles w h
          (fun m => m ∈ (dfsAux tiles w h fuel stack visited comp).2 ∧
            m ∉ V0) start k ∧
        (∀ m, m ∈ nbrIdxs tiles w h k → (tileAt tiles m).water = false →
          m ∈ (dfsAux tiles w h fuel stack visited comp).2))
  | 0, stack, visited, comp, hnd, hvl, hv0, hcover, hstack, hcomp, hfuel => by
      have hvlen : visited.length ≤ tiles.length :=
        nodup_length_le visited tiles.length hnd
          (fun k hk => tileAt_lt_of_water_false tiles k (hvl k hk))
      have hse : stack = [] := by
        cases stack with
        | nil => rfl
        | cons a as => exfalso; simp only [List.length_cons] at hfuel; omega
      subst hse
      refine ⟨fun k hk => hk, hnd, hvl, ?_, fun k hk => hk, ?_⟩
      · intro k hk
        rcases hcover k hk with hc | hc | hc
        · exact Or.inl hc
        · cases hc
        · exact Or.inr hc
      · intro k hk
        obtain ⟨ha, hb, hc, hd⟩ := hcomp k hk
        exact ⟨ha, hb, hc, hd⟩
  | fuel + 1, [], visited, comp, hnd, hvl, hv0, hcover, hstack, hcomp,
      hfuel => by
      refine ⟨fun k hk => hk, hnd, hvl, ?_, fun k hk => hk, ?_⟩
      · intro k hk
        rcases hcover k hk with hc | hc | hc
        · exact Or.inl hc
        · cases hc
        · exact Or.inr hc
      · intro k hk
        obtain ⟨ha, hb, hc, hd⟩ := hcomp k hk
        exact ⟨ha, hb, hc, hd⟩
  | fuel + 1, i :: stack, visited, comp, hnd, hvl, hv0, hcover, hstack,
      hcomp, hfuel => by
      obtain ⟨p, h1, h2, h3, h4, h5⟩ := dfsPush_spec tiles w h i visited stack
      have hstep : dfsAux tiles w h (fuel + 1) (i :: stack) visited comp =
          dfsAux tiles w h fuel (dfsPush tiles w h i visited stack).2
            (dfsPush tiles w h i visited stack).1 (comp ++ [i]) := rfl
      rw [hstep]
      have hvsub : ∀ k ∈ visited, k ∈ (dfsPush tiles w h i visited stack).1 := by
        intro k hk
        rw [h1]
        exact List.mem_append.mpr (Or.inr hk)
      have hii := hstack i (List.mem_cons_self i stack)
      have hnd' : (dfsPush tiles w h i visited stack).1.Nodup := by
        rw [h1]
        exact h3 hnd
      have hvl' : ∀ k ∈ (dfsPush tiles w h i visited stack).1,
          (tileAt tiles k).water = false := by
        intro k hk
        rw [h1] at hk
        rcases List.mem_append.mp hk with hk | hk
        · exact (h4 k hk).2.1
        · exact hvl k hk
      have hv0' : ∀ k ∈ V0, k ∈ (dfsPush tiles w h i visited stack).1 :=
        fun k hk => hvsub k (hv0 k hk)
      have hcover' : ∀ k ∈ (dfsPush tiles w h i visited stack).1,
          k ∈ V0 ∨ k ∈ (dfsPush tiles w h i visited stack).2 ∨
          k ∈ comp ++ [i] := by
        intro k hk
        rw [h1] at hk
        rcases List.mem_append.mp hk with hk | hk
        · refine Or.inr (Or.inl ?_)
          rw [h2]
          exact List.mem_append.mpr (Or.inl hk)
        · rcases hcover k hk with hc | hc | hc
          · exact Or.inl hc
          · rcases List.mem_cons.mp hc with hc | hc
            · subst hc
              exact Or.inr (Or.inr (List.mem_append.mpr
                (Or.inr (List.mem_singleton.mpr rfl))))
            · refine Or.inr (Or.inl ?_)
              rw [h2]
              exact List.mem_append.mpr (Or.inr hc)
          · exact Or.inr (Or.inr (List.mem_append.mpr (Or.inl hc)))
      have hstack' : ∀ k ∈ (dfsPush tiles w h i visited stack).2,
          k ∈ (dfsPush tiles w h i visited stack).1 ∧ k ∉ V0 ∧
          connVia tiles w h
            (fun m => m ∈ (dfsPush tiles w h i visited stack).1 ∧ m ∉ V0)
            start k := by
        intro k hk
        rw [h2] at hk
        rcases List.mem_append.mp hk with hk | hk
        · obtain ⟨hnb, hw, hnv⟩ := h4 k hk
          have hkv : k ∈ (dfsPush tiles w h i visited stack).1 := by
            rw [h1]
            exact List.mem_append.mpr (Or.inl hk)
          have hknv0 : k ∉ V0 := fun hc => hnv (hv0 k hc)
          refine ⟨hkv, hknv0, ?_⟩
          refine Relation.ReflTransGen.tail
            (connVia_mono (fun m hm => ⟨hvsub m hm.1, hm.2⟩) hii.2.2) ?_
          exact ⟨hnb, hw, hkv, hknv0⟩
        · obtain ⟨ha, hb, hc⟩ := hstack k (List.mem_cons_of_mem i hk)
          exact ⟨hvsub k ha, hb,
            connVia_mono (fun m hm => ⟨hvsub m hm.1, hm.2⟩) hc⟩
      have hcomp' : ∀ k ∈ comp ++ [i],
          k ∈ (dfsPush tiles w h i visited stack).1 ∧ k ∉ V0 ∧
          connVia tiles w h
            (fun m => m ∈ (dfsPush tiles w h i visited stack).1 ∧ m ∉ V0)
            start k ∧
          (∀ m, m ∈ nbrIdxs tiles w h k → (tileAt tiles m).water = false →
            m ∈ (dfsPush tiles w h i visited stack).1) := by
        intro k hk
        rcases List.mem_append.mp hk with hk | hk
        · obtain ⟨ha, hb, hc, hd⟩ := hcomp k hk
          exact ⟨hvsub k ha, hb,
            connVia_mono (fun m hm => ⟨hvsub m hm.1, hm.2⟩) hc,
            fun m hm hw => hvsub m (hd m hm hw)⟩
        · have hki : k = i := List.mem_singleton.mp hk
          subst hki
          exact ⟨hvsub k hii.1, hii.2.1,
            connVia_mono (fun m hm => ⟨hvsub m hm.1, hm.2⟩) hii.2.2,
            fun m hm hw => h5 m hm hw⟩
      have hfuel' : (dfsPush tiles w h i visited stack).2.length +
          2 * tiles.length <
          fuel + 2 * (dfsPush tiles w h i visited stack).1.length := by
        have hl1 : (dfsPush tiles w h i visited stack).1.length =
            p.length + visited.length := by rw [h1, List.length_append]
        have hl2 : (dfsPush tiles w h i visited stack).2.length =
            p.length + stack.length := by rw [h2, List.length_append]
        simp only [List.length_cons] at hfuel
        omega
      obtain ⟨K1, K2, K3, K4, K5, K6⟩ := dfsAux_spec tiles w h V0 start fuel
        (dfsPush tiles w h i visited stack).2
        (dfsPush tiles w h i visited stack).1 (comp ++ [i]) hnd' hvl' hv0'
        hcover' hstack' hcomp' hfuel'
      refine ⟨fun k hk => K1 k (hvsub k hk), K2, K3, K4, ?_, K6⟩
      intro k hk
      exact K5 k (List.mem_append.mpr (Or.inl hk))

theorem dfsComponent_spec (tiles : List Tile) (w h : Nat) (V0 : List Nat)
    (start : Nat) (hnd0 : V0.Nodup)
    (hstart : (tileAt tiles start).water = false) (hsv : start ∉ V0)
    (hv0l : ∀ k ∈ V0, (tileAt tiles k).water = false) :
    (∀ k ∈ V0, k ∈
      (dfsAux tiles w h (2 * tiles.length + 2) [start] (start :: V0) []).2) ∧
    start ∈
      (dfsAux tiles w h (2 * tiles.length + 2) [start] (start :: V0) []).1 ∧
    (dfsAux tiles w h (2 * tiles.length + 2) [start] (start :: V0)
      []).2.Nodup ∧
    (∀ k ∈
      (dfsAux tiles w h (2 * tiles.length + 2) [start] (start :: V0) []).2,
      (tileAt tiles k).water = false) ∧
    (∀ k ∈
      (dfsAux tiles w h (2 * tiles.length + 2) [start] (start :: V0) []).2,
      k ∈ V0 ∨ k ∈
        (dfsAux tiles w h (2 * tiles.length + 2) [start] (start :: V0)
          []).1) ∧
    (∀ k ∈
      (dfsAux tiles w h (2 * tiles.length + 2) [start] (start :: V0) []).1,
      k ∈
        (dfsAux tiles w h (2 * tiles.length + 2) [start] (start :: V0)
          []).2 ∧
      k ∉ V0 ∧
      connVia tiles w h
        (fun m => m ∈
          (dfsAux tiles w h (2 * tiles.length + 2) [start] (start :: V0)
            []).1) start k ∧
      (∀ m, m ∈ nbrIdxs tiles w h k → (tileAt tiles m).water = false →
        m ∈
          (dfsAux tiles w h (2 * tiles.length + 2) [start] (start :: V0)
            []).2)) := by
  obtain ⟨K1, K2, K3, K4, K5, K6⟩ := dfsAux_spec tiles w h V0 start
    (2 * tiles.length + 2) [start] (start :: V0) []
    (List.nodup_cons.mpr ⟨hsv, hnd0⟩)
    (by
      intro k hk
      rcases List.mem_cons.mp hk with hk | hk
      · subst hk; exact hstart
      · exact hv0l k hk)
    (fun k hk => List.mem_cons_of_mem start hk)
    (by
      intro k hk
      rcases List.mem_cons.mp hk with hk | hk
      · subst hk
        exact Or.inr (Or.inl (List.mem_singleton.mpr rfl))
      · exact Or.inl hk)
    (by
      intro k hk
      have hks : k = start := List.mem_singleton.mp hk
      subst hks
      exact ⟨List.mem_cons_self k V0, hsv, Relation.ReflTransGen.refl⟩)
    (by intro k hk; cases hk)
    (by simp only [List.length_cons, List.length_nil]; omega)
  have hstartv : start ∈
      (dfsAux tiles w h (2 * tiles.length + 2) [start] (start :: V0) []).2 :=
    K1 start (List.mem_cons_self start V0)
  have hstartc : start ∈
      (dfsAux tiles w h (2 * tiles.length + 2) [start] (start :: V0) []).1 := by
    rcases K4 start hstartv with hc | hc
    · exact absurd hc hsv
    · exact hc
  refine ⟨fun k hk => K1 k (List.mem_cons_of_mem start hk), hstartc, K2, K3,
    K4, ?_⟩
  intro k hk
  obtain ⟨ha, hb, hc, hd⟩ := K6 k hk
  refine ⟨ha, hb, ?_, hd⟩
  refine connVia_mono ?_ hc
  intro m hm
  rcases K4 m hm.1 with hmv | hmv
  · exact absurd hmv hm.2
  · exact hmv

theorem floodFold_spec (tiles : List Tile) (w h : Nat) :
    ∀ (ls : List Nat) (acc : List (List Nat) × List Nat),
      (∀ st ∈ ls, (tileAt tiles st).water = false) →
      acc.2.Nodup →
      (∀ k ∈ acc.2, (tileAt tiles k).water = false) →
      (∀ k ∈ acc.2, ∃ cp ∈ acc.1, k ∈ cp) →
      (∀ cp ∈ acc.1, ∀ k ∈ cp, k ∈ acc.2) →
      (∀ cp ∈ acc.1, ∃ st, st ∈ cp ∧ ∀ k ∈ cp,
        connVia tiles w h (fun m => m ∈ cp) st k) →
      (∀ cp ∈ acc.1, ∀ k ∈ cp, ∀ m, m ∈ nbrIdxs tiles w h k →
        (tileAt tiles m).water = false → m ∈ acc.2) →
      List.Pairwise (fun cp cq => ∀ k ∈ cp, k ∉ cq) acc.1 →
      (∀ cp ∈ acc.1, cp ≠ []) →
      (∀ k ∈ acc.2, k ∈ (ls.foldl
        (fun (acc : List (List Nat) × List Nat) start =>
          if start ∈ acc.2 then acc
          else
            let (comp, visited') :=
              dfsAux tiles w h (2 * tiles.length + 2) [start]
                (start :: acc.2) []
            (acc.1 ++ [comp], visited')) acc).2) ∧
      (∀ cp ∈ acc.1, cp ∈ (ls.foldl
        (fun (acc : List (List Nat) × List Nat) start =>
          if start ∈ acc.2 then acc
          else
            let (comp, visited') :=
              dfsAux tiles w h (2 * tiles.length + 2) [start]
                (start :: acc.2) []
            (acc.1 ++ [comp], visited')) acc).1) ∧
      (∀ st ∈ ls, st ∈ (ls.foldl
        (fun (acc : List (List Nat) × List Nat) start =>
          if start ∈ acc.2 then acc
          else
            let (comp, visited') :=
              dfsAux tiles w h (2 * tiles.length + 2) [start]
                (start :: acc.2) []
            (acc.1 ++ [comp], visited')) acc).2) ∧
      ((ls.foldl
        (fun (acc : List (List Nat) × List Nat) start =>
          if start ∈ acc.2 then acc
          else
            let (comp, visited') :=
              dfsAux tiles w h (2 * tiles.length + 2) [start]
                (start :: acc.2) []
            (acc.1 ++ [comp], visited')) acc).2.Nodup) ∧
      (∀ k ∈ (ls.foldl
        (fun (acc : List (List Nat) × List Nat) start =>
          if start ∈ acc.2 then acc
          else
            let (comp, visited') :=
              dfsAux tiles w h (2 * tiles.length + 2) [start]
                (start :: acc.2) []
            (acc.1 ++ [comp], visited')) acc).2,
        (tileAt tiles k).water = false) ∧
      (∀ k ∈ (ls.foldl
        (fun (acc : List (List Nat) × List Nat) start =>
          if start ∈ acc.2 then acc
          else
            let (comp, visited') :=
              dfsAux tiles w h (2 * tiles.length + 2) [start]
                (start :: acc.2) []
            (acc.1 ++ [comp], visited')) acc).2,
        ∃ cp ∈ (ls.foldl
          (fun (acc : List (List Nat) × List Nat) start =>
            if start ∈ acc.2 then acc
            else
              let (comp, visited') :=
                dfsAux tiles w h (2 * tiles.length + 2) [start]
                  (start :: acc.2) []
              (acc.1 ++ [comp], visited')) acc).1, k ∈ cp) ∧
      (∀ cp ∈ (ls.foldl
        (fun (acc : List (List Nat) × List Nat) start =>
          if start ∈ acc.2 then acc
          else
            let (comp, visited') :=
              dfsAux tiles w h (2 * tiles.length + 2) [start]
                (start :: acc.2) []
            (acc.1 ++ [comp], visited')) acc).1,
        (∀ k ∈ cp, k ∈ (ls.foldl
          (fun (acc : List (List Nat) × List Nat) start =>
            if start ∈ acc.2 then acc
            else
              let (comp, visited') :=
                dfsAux tiles w h (2 * tiles.length + 2) [start]
                  (start :: acc.2) []
              (acc.1 ++ [comp], visited')) acc).2) ∧
        (∃ st, st ∈ cp ∧ ∀ k ∈ cp,
          connVia tiles w h (fun m => m ∈ cp) st k) ∧
        (∀ k ∈ cp, ∀ m, m ∈ nbrIdxs tiles w h k →
          (tileAt tiles m).water = false → m ∈ (ls.foldl
            (fun (acc : List (List Nat) × List Nat) start =>
              if start ∈ acc.2 then acc
              else
                let (comp, visited') :=
                  dfsAux tiles w h (2 * tiles.length + 2) [start]
                    (start :: acc.2) []
                (acc.1 ++ [comp], visited')) acc).2) ∧
        cp ≠ []) ∧
      List.Pairwise (fun cp cq => ∀ k ∈ cp, k ∉ cq) (ls.foldl
        (fun (acc : List (List Nat) × List Nat) start =>
          if start ∈ acc.2 then acc
          else
            let (comp, visited') :=
              dfsAux tiles w h (2 * tiles.length + 2) [start]
                (start :: acc.2) []
            (acc.1 ++ [comp], visited')) acc).1
  | [], acc, hls, hnd, hvl, hcov, hsub, hconn, hcl, hpw, hne =>
      ⟨fun k hk => hk, fun cp hcp => hcp, fun st hst => absurd hst
        (List.not_mem_nil st), hnd, hvl, hcov,
        fun cp hcp => ⟨hsub cp hcp, hconn cp hcp, hcl cp hcp, hne cp hcp⟩,
        hpw⟩
  | st :: ls, acc, hls, hnd, hvl, hcov, hsub, hconn, hcl, hpw, hne => by
      simp only [List.foldl_cons]
      by_cases hin : st ∈ acc.2
      · rw [if_pos hin]
        obtain ⟨G1, G2, G3, G4, G5, G6, G7, G8⟩ := floodFold_spec tiles w h
          ls acc (fun s hs => hls s (List.mem_cons_of_mem st hs)) hnd hvl
          hcov hsub hconn hcl hpw hne
        refine ⟨G1, G2, ?_, G4, G5, G6, G7, G8⟩
        intro s hs
        rcases List.mem_cons.mp hs with hs | hs
        · subst hs
          exact G1 s hin
        · exact G3 s hs
      · rw [if_neg hin]
        have hstl := hls st (List.mem_cons_self st ls)
        obtain ⟨C1, C1b, C2, C3, C4, C6⟩ := dfsComponent_spec tiles w h
          acc.2 st hnd hstl hin hvl
        have hacc2sub : ∀ k ∈ acc.2, k ∈
            (dfsAux tiles w h (2 * tiles.length + 2) [st] (st :: acc.2)
              []).2 := C1
        obtain ⟨G1, G2, G3, G4, G5, G6, G7, G8⟩ := floodFold_spec tiles w h
          ls (acc.1 ++ [(dfsAux tiles w h (2 * tiles.length + 2) [st]
            (st :: acc.2) []).1],
            (dfsAux tiles w h (2 * tiles.length + 2) [st] (st :: acc.2) []).2)
          (fun s hs => hls s (List.mem_cons_of_mem st hs)) C2 C3
          (by
            intro k hk
            rcases C4 k hk with hk2 | hk2
            · obtain ⟨cp, hcp, hkcp⟩ := hcov k hk2
              exact ⟨cp, List.mem_append.mpr (Or.inl hcp), hkcp⟩
            · exact ⟨_, List.mem_append.mpr (Or.inr
                (List.mem_singleton.mpr rfl)), hk2⟩)
          (by
            intro cp hcp k hk
            rcases List.mem_append.mp hcp with hcp | hcp
            · exact C1 k (hsub cp hcp k hk)
            · have hcpe := List.mem_singleton.mp hcp
              subst hcpe
              exact (C6 k hk).1)
          (by
            intro cp hcp
            rcases List.mem_append.mp hcp with hcp | hcp
            · exact hconn cp hcp
            · have hcpe := List.mem_singleton.mp hcp
              subst hcpe
              exact ⟨st, C1b, fun k hk => (C6 k hk).2.2.1⟩)
          (by
            intro cp hcp k hk m hm hw
            rcases List.mem_append.mp hcp with hcp | hcp
            · exact C1 m (hcl cp hcp k hk m hm hw)
            · have hcpe := List.mem_singleton.mp hcp
              subst hcpe
              exact (C6 k hk).2.2.2 m hm hw)
          (by
            rw [List.pairwise_append]
            refine ⟨hpw, List.pairwise_singleton _ _, ?_⟩
            intro cp hcp cq hcq k hk
            have hcqe := List.mem_singleton.mp hcq
            subst hcqe
            intro hkq
            exact (C6 k hkq).2.1 (hsub cp hcp k hk))
          (by
            intro cp hcp
            rcases List.mem_append.mp hcp with hcp | hcp
            · exact hne cp hcp
            · have hcpe := List.mem_singleton.mp hcp
              subst hcpe
              exact List.ne_nil_of_mem C1b)
        refine ⟨fun k hk => G1 k (C1 k hk),
          fun cp hcp => G2 cp (List.mem_append.mpr (Or.inl hcp)), ?_,
          G4, G5, G6, G7, G8⟩
        intro s hs
        rcases List.mem_cons.mp hs with hs | hs
        · subst hs
          exact G1 s ((C6 s C1b).1)
        · exact G3 s hs

theorem mem_landIndices (tiles : List Tile) (k : Nat) :
    k ∈ landIndices tiles ↔ (tileAt tiles k).water = false := by
  unfold landIndices
  constructor
  · intro hm
    have := List.of_mem_filter hm
    simpa using this
  · intro hw
    refine List.mem_filter.mpr ⟨List.mem_range.mpr
      (tileAt_lt_of_water_false tiles k hw), ?_⟩
    simpa using hw

theorem floodComponents_spec (tiles : List Tile) (w h : Nat) :
    (∀ k, (tileAt tiles k).water = false →
      k ∈ (floodComponents tiles w h).2) ∧
    (∀ k ∈ (floodComponents tiles w h).2,
      (tileAt tiles k).water = false) ∧
    (∀ k ∈ (floodComponents tiles w h).2,
      ∃ cp ∈ (floodComponents tiles w h).1, k ∈ cp) ∧
    (∀ cp ∈ (floodComponents tiles w h).1,
      (∀ k ∈ cp, (tileAt tiles k).water = false) ∧
      (∃ st, st ∈ cp ∧ ∀ k ∈ cp,
        connVia tiles w h (fun m => m ∈ cp) st k) ∧
      (∀ k ∈ cp, ∀ m, m ∈ nbrIdxs tiles w h k →
        (tileAt tiles m).water = false →
        ∃ cq ∈ (floodComponents tiles w h).1, m ∈ cq) ∧
      cp ≠ []) ∧
    List.Pairwise (fun cp cq => ∀ k ∈ cp, k ∉ cq)
      (floodComponents tiles w h).1 := by
  obtain ⟨G1, G2, G3, G4, G5, G6, G7, G8⟩ := floodFold_spec tiles w h
    (landIndices tiles) ([], [])
    (fun st hst => (mem_landIndices tiles st).mp hst)
    List.nodup_nil
    (by intro k hk; cases hk)
    (by intro k hk; cases hk)
    (by intro cp hcp; cases hcp)
    (by intro cp hcp; cases hcp)
    (by intro cp hcp; cases hcp)
    List.Pairwise.nil
    (by intro cp hcp; cases hcp)
  refine ⟨?_, G5, G6, ?_, G8⟩
  · intro k hk
    exact G3 k ((mem_landIndices tiles k).mpr hk)
  · intro cp hcp
    obtain ⟨h1, h2, h3, h4⟩ := G7 cp hcp
    exact ⟨fun k hk => G5 k (h1 k hk), h2,
      fun k hk m hm hw => G6 m (h3 k hk m hm hw), h4⟩

theorem insByLenDesc_perm (x : List Nat) :
    ∀ acc : List (List Nat), (insByLenDesc x acc).Perm (x :: acc)
  | [] => List.Perm.refl _
  | y :: ys => by
      unfold insByLenDesc
      split
      · exact ((insByLenDesc_perm x ys).cons y).trans (List.Perm.swap x y ys)
      · exact List.Perm.refl _

theorem sortFold_perm :
    ∀ (l acc : List (List Nat)),
      ((l.foldl (fun a x => insByLenDesc x a) acc)).Perm (l ++ acc)
  | [], acc => List.Perm.refl _
  | c :: cs, acc => by
      simp only [List.foldl_cons]
      refine (sortFold_perm cs (insByLenDesc c acc)).trans ?_
      refine ((insByLenDesc_perm c acc).append_left cs).trans ?_
      exact List.perm_middle

theorem sortByLenDesc_perm (l : List (List Nat)) :
    (sortByLenDesc l).Perm l := by
  unfold sortByLenDesc
  have := sortFold_perm l []
  simpa using this

theorem insByLenDesc_ne_nil (x : List Nat) :
    ∀ acc : List (List Nat), insByLenDesc x acc ≠ []
  | [] => by simp [insByLenDesc]
  | y :: ys => by
      unfold insByLenDesc
      split
      · simp
      · simp

theorem insByLenDesc_headI (x : List Nat) (acc : List (List Nat))
    (hne : acc ≠ []) :
    (insByLenDesc x acc).headI =
      if x.length ≤ acc.headI.length then acc.headI else x := by
  cases acc with
  | nil => exact absurd rfl hne
  | cons y ys =>
    show (insByLenDesc x (y :: ys)).headI =
      if x.length ≤ y.length then y else x
    unfold insByLenDesc
    by_cases hxy : x.length ≤ y.length
    · rw [if_pos hxy, if_pos hxy]
      rfl
    · rw [if_neg hxy, if_neg hxy]
      rfl

theorem sortFold_headI :
    ∀ (l acc : List (List Nat)), acc ≠ [] →
      (l.foldl (fun a x => insByLenDesc x a) acc) ≠ [] ∧
      ((l.foldl (fun a x => insByLenDesc x a) acc)).headI =
        l.foldl (fun (b : List Nat) x =>
          if x.length ≤ b.length then b else x) acc.headI
  | [], acc, hne => ⟨hne, rfl⟩
  | c :: cs, acc, hne => by
      simp only [List.foldl_cons]
      obtain ⟨h1, h2⟩ := sortFold_headI cs (insByLenDesc c acc)
        (insByLenDesc_ne_nil c acc)
      refine ⟨h1, ?_⟩
      rw [h2, insByLenDesc_headI c acc hne]

theorem sortByLenDesc_headI_eq (c : List Nat) (cs : List (List Nat)) :
    sortByLenDesc (c :: cs) ≠ [] ∧
    (sortByLenDesc (c :: cs)).headI =
      cs.foldl (fun (b : List Nat) x =>
        if x.length ≤ b.length then b else x) c := by
  unfold sortByLenDesc
  simp only [List.foldl_cons]
  have hini : insByLenDesc c [] = [c] := rfl
  rw [hini]
  obtain ⟨h1, h2⟩ := sortFold_headI cs [c] (by simp)
  exact ⟨h1, by rw [h2]; rfl⟩


theorem foldl_firstMax {α : Type} (key : α → Nat) :
    ∀ (xs : List α) (b : α),
      ∃ pre post, b :: xs = pre ++
          (xs.foldl (fun b x => if key x ≤ key b then b else x) b) :: post ∧
        (∀ y ∈ pre, key y <
          key (xs.foldl (fun b x => if key x ≤ key b then b else x) b)) ∧
        (∀ y ∈ b :: xs, key y ≤
          key (xs.foldl (fun b x => if key x ≤ key b then b else x) b))
  | [], b => ⟨[], [], rfl, by simp, by
      intro y hy
      have hyb : y = b := by simpa using hy
      subst hyb
      exact le_rfl⟩
  | x :: xs, b => by
      simp only [List.foldl_cons]
      by_cases hxb : key x ≤ key b
      · rw [if_pos hxb]
        obtain ⟨pre, post, heq, hlt, hle⟩ := foldl_firstMax key xs b
        cases pre with
        | nil =>
          simp only [List.nil_append, List.cons.injEq] at heq
          refine ⟨[], x :: xs, ?_, by simp, ?_⟩
          · rw [List.nil_append, ← heq.1]
          · intro y hy
            rcases List.mem_cons.mp hy with hy | hy
            · subst hy
              rw [← heq.1]
            · rcases List.mem_cons.mp hy with hy | hy
              · subst hy
                rw [← heq.1]
                exact hxb
              · exact hle y (List.mem_cons_of_mem b hy)
        | cons q pre' =>
          simp only [List.cons_append, List.cons.injEq] at heq
          refine ⟨b :: x :: pre', post, ?_, ?_, ?_⟩
          · simp only [List.cons_append]
            rw [← heq.2]
          · intro y hy
            rcases List.mem_cons.mp hy with hy | hy
            · subst hy
              have := hlt q (List.mem_cons_self q pre')
              rw [← heq.1] at this
              exact this
            · rcases List.mem_cons.mp hy with hy | hy
              · subst hy
                have hb := hlt q (List.mem_cons_self q pre')
                rw [← heq.1] at hb
                exact lt_of_le_of_lt hxb hb
              · exact hlt y (List.mem_cons_of_mem q hy)
          · intro y hy
            rcases List.mem_cons.mp hy with hy | hy
            · subst hy
              exact hle y (List.mem_cons_self y xs)
            · rcases List.mem_cons.mp hy with hy | hy
              · subst hy
                have hb := hle b (List.mem_cons_self b xs)
                exact le_trans hxb hb
              · exact hle y (List.mem_cons_of_mem b hy)
      · rw [if_neg hxb]
        push_neg at hxb
        obtain ⟨pre, post, heq, hlt, hle⟩ := foldl_firstMax key xs x
        refine ⟨b :: pre, post, ?_, ?_, ?_⟩
        · simp only [List.cons_append]
          rw [← heq]
        · intro y hy
          rcases List.mem_cons.mp hy with hy | hy
          · subst hy
            exact lt_of_lt_of_le hxb (hle x (List.mem_cons_self x xs))
          · exact hlt y hy
        · intro y hy
          rcases List.mem_cons.mp hy with hy | hy
          · subst hy
            exact le_of_lt (lt_of_lt_of_le hxb
              (hle x (List.mem_cons_self x xs)))
          · exact hle y hy

theorem sortByLenDesc_head_max (c : List Nat) (cs : List (List Nat)) :
    ∃ pre post, c :: cs = pre ++ (sortByLenDesc (c :: cs)).headI :: post ∧
      (∀ y ∈ pre, y.length < (sortByLenDesc (c :: cs)).headI.length) ∧
      (∀ y ∈ c :: cs, y.length ≤ (sortByLenDesc (c :: cs)).headI.length) := by
  rw [(sortByLenDesc_headI_eq c cs).2]
  exact foldl_firstMax List.length cs c

theorem convertToOcean_not_mem :
    ∀ (idcs : List Nat) (ts : List Tile) (k : Nat), k ∉ idcs →
      tileAt (convertToOcean ts idcs) k = tileAt ts k
  | [], ts, k, _ => rfl
  | j :: rest, ts, k, hk => by
      have hstep : convertToOcean ts (j :: rest) =
          convertToOcean (ts.set j
            { tileAt ts j with water := true, biome := .ocean, river := false, realm_id := none, settlement_id := none })
            rest := by
        simp only [convertToOcean, List.foldl_cons]
      rw [hstep,
        convertToOcean_not_mem rest _ k
          (fun hm => hk (List.mem_cons_of_mem j hm)),
        tileAt_set, if_neg]
      intro hc
      refine hk ?_
      rw [← hc.1]
      exact List.mem_cons_self j rest

theorem convertToOcean_length :
    ∀ (idcs : List Nat) (ts : List Tile),
      (convertToOcean ts idcs).length = ts.length
  | [], ts => rfl
  | j :: rest, ts => by
      have hstep : convertToOcean ts (j :: rest) =
          convertToOcean (ts.set j
            { tileAt ts j with water := true, biome := .ocean, river := false, realm_id := none, settlement_id := none })
            rest := by
        simp only [convertToOcean, List.foldl_cons]
      rw [hstep, convertToOcean_length rest _, List.length_set]

theorem convertToOcean_mem_water :
    ∀ (idcs : List Nat) (ts : List Tile) (k : Nat), k ∈ idcs →
      k < ts.length → (tileAt (convertToOcean ts idcs) k).water = true
  | [], ts, k, hk, _ => absurd hk (List.not_mem_nil k)
  | j :: rest, ts, k, hk, hlt => by
      have hstep : convertToOcean ts (j :: rest) =
          convertToOcean (ts.set j
            { tileAt ts j with water := true, biome := .ocean, river := false, realm_id := none, settlement_id := none })
            rest := by
        simp only [convertToOcean, List.foldl_cons]
      rw [hstep]
      by_cases hr : k ∈ rest
      · exact convertToOcean_mem_water rest _ k hr
          (by rw [List.length_set]; exact hlt)
      · have hkj : k = j := by
          rcases List.mem_cons.mp hk with hm | hm
          · exact hm
          · exact absurd hm hr
        subst hkj
        rw [convertToOcean_not_mem rest _ k hr, tileAt_set,
          if_pos ⟨rfl, hlt⟩]

theorem convertToOcean_xy (idcs : List Nat) (ts : List Tile) (k : Nat) :
    (tileAt (convertToOcean ts idcs) k).x = (tileAt ts k).x ∧
    (tileAt (convertToOcean ts idcs) k).y = (tileAt ts k).y := by
  rcases convertToOcean_mark idcs ts k with hm | hm <;> rw [hm] <;>
    exact ⟨rfl, rfl⟩

theorem gridIdx_mem_nbrIdxs (tiles : List Tile) (w h : Nat)
    (hwf : gridWF tiles w h) (a : Nat) (ha : a < h * w) (q : Int × Int)
    (hq : q = (((a % w : Nat) : Int) + 1, ((a / w : Nat) : Int)) ∨
          q = (((a % w : Nat) : Int) - 1, ((a / w : Nat) : Int)) ∨
          q = (((a % w : Nat) : Int), ((a / w : Nat) : Int) + 1) ∨
          q = (((a % w : Nat) : Int), ((a / w : Nat) : Int) - 1))
    (h1 : 0 ≤ q.1) (h2 : q.1 < (w : Int)) (h3 : 0 ≤ q.2)
    (h4 : q.2 < (h : Int)) :
    gridIdx w q.1.toNat q.2.toNat ∈ nbrIdxs tiles w h a := by
  unfold nbrIdxs
  rw [(hwf.2 a ha).1, (hwf.2 a ha).2]
  refine List.mem_map.mpr ⟨(q.1.toNat, q.2.toNat), ?_, rfl⟩
  unfold neighborCoords
  rw [List.mem_filterMap]
  refine ⟨q, ?_, ?_⟩
  · rcases hq with hq | hq | hq | hq <;> subst hq <;> simp
  · rw [if_pos ⟨h1, h2, h3, h4⟩]

theorem nbrIdxs_symm (tiles : List Tile) (w h : Nat)
    (hwf : gridWF tiles w h) (i j : Nat) (hi : i < h * w) (hj : j < h * w)
    (hmem : j ∈ nbrIdxs tiles w h i) : i ∈ nbrIdxs tiles w h j := by
  have hw0 : 0 < w := by
    rcases Nat.eq_zero_or_pos w with h0 | h0
    · subst h0; simp at hi
    · exact h0
  obtain ⟨hxi, hyi⟩ := hwf.2 i hi
  unfold nbrIdxs at hmem
  rw [hxi, hyi] at hmem
  obtain ⟨c, hc, he⟩ := List.mem_map.mp hmem
  unfold neighborCoords at hc
  rw [List.mem_filterMap] at hc
  obtain ⟨p, hp, hpe⟩ := hc
  split at hpe
  case isFalse => cases hpe
  case isTrue hguard =>
  obtain ⟨hg1, hg2, hg3, hg4⟩ := hguard
  injection hpe with hce
  rw [← hce] at he
  have hiexp : i = (i / w) * w + (i % w) := by
    rw [Nat.mul_comm]
    exact (Nat.div_add_mod i w).symm
  have hxlt : i % w < w := Nat.mod_lt i hw0
  have hylt : i / w < h := by
    rw [Nat.div_lt_iff_lt_mul hw0]
    exact hi
  have hp1w : p.1.toNat < w := by omega
  have hjmod : j % w = p.1.toNat := by
    rw [← he]
    show (p.2.toNat * w + p.1.toNat) % w = p.1.toNat
    rw [Nat.mul_comm p.2.toNat w, Nat.mul_add_mod]
    exact Nat.mod_eq_of_lt hp1w
  have hjdiv : j / w = p.2.toNat := by
    rw [← he]
    show (p.2.toNat * w + p.1.toNat) / w = p.2.toNat
    rw [Nat.add_comm, Nat.add_mul_div_right _ _ hw0,
      Nat.div_eq_of_lt hp1w, Nat.zero_add]
  have hjwlt : j % w < w := Nat.mod_lt j hw0
  have hjhlt : j / w < h := by
    rw [Nat.div_lt_iff_lt_mul hw0]
    exact hj
  simp only [List.mem_cons, List.mem_singleton, List.not_mem_nil,
    or_false] at hp
  rcases hp with hp | hp | hp | hp <;> subst hp <;>
    dsimp only at hg1 hg2 hg3 hg4 hjmod hjdiv he
  · have e1 : (((j % w : Nat) : Int) - 1).toNat = i % w := by omega
    have e2 : (((j / w : Nat) : Int)).toNat = i / w := by omega
    have hgi : gridIdx w (((j % w : Nat) : Int) - 1).toNat
        (((j / w : Nat) : Int)).toNat = i := by
      rw [e1, e2]
      show (i / w) * w + (i % w) = i
      exact hiexp.symm
    rw [← hgi]
    refine gridIdx_mem_nbrIdxs tiles w h hwf j hj
      (((j % w : Nat) : Int) - 1, ((j / w : Nat) : Int))
      (Or.inr (Or.inl rfl)) ?_ ?_ ?_ ?_ <;> dsimp only <;> omega
  · have e1 : (((j % w : Nat) : Int) + 1).toNat = i % w := by omega
    have e2 : (((j / w : Nat) : Int)).toNat = i / w := by omega
    have hgi : gridIdx w (((j % w : Nat) : Int) + 1).toNat
        (((j / w : Nat) : Int)).toNat = i := by
      rw [e1, e2]
      show (i / w) * w + (i % w) = i
      exact hiexp.symm
    rw [← hgi]
    refine gridIdx_mem_nbrIdxs tiles w h hwf j hj
      (((j % w : Nat) : Int) + 1, ((j / w : Nat) : Int))
      (Or.inl rfl) ?_ ?_ ?_ ?_ <;> dsimp only <;> omega
  · have e1 : (((j % w : Nat) : Int)).toNat = i % w := by omega
    have e2 : (((j / w : Nat) : Int) - 1).toNat = i / w := by omega
    have hgi : gridIdx w (((j % w : Nat) : Int)).toNat
        (((j / w : Nat) : Int) - 1).toNat = i := by
      rw [e1, e2]
      show (i / w) * w + (i % w) = i
      exact hiexp.symm
    rw [← hgi]
    refine gridIdx_mem_nbrIdxs tiles w h hwf j hj
      (((j % w : Nat) : Int), ((j / w : Nat) : Int) - 1)
      (Or.inr (Or.inr (Or.inr rfl))) ?_ ?_ ?_ ?_ <;> dsimp only <;> omega
  · have e1 : (((j % w : Nat) : Int)).toNat = i % w := by omega
    have e2 : (((j / w : Nat) : Int) + 1).toNat = i / w := by omega
    have hgi : gridIdx w (((j % w : Nat) : Int)).toNat
        (((j / w : Nat) : Int) + 1).toNat = i := by
      rw [e1, e2]
      show (i / w) * w + (i % w) = i
      exact hiexp.symm
    rw [← hgi]
    refine gridIdx_mem_nbrIdxs tiles w h hwf j hj
      (((j % w : Nat) : Int), ((j / w : Nat) : Int) + 1)
      (Or.inr (Or.inr (Or.inl rfl))) ?_ ?_ ?_ ?_ <;> dsimp only <;> omega

theorem connVia_carrier {tiles : List Tile} {w h : Nat} {S : Nat → Prop}
    {a b : Nat} (hc : connVia tiles w h S a b) :
    b = a ∨ ((tileAt tiles b).water = false ∧ S b) := by
  induction hc with
  | refl => exact Or.inl rfl
  | tail hab hbc ih => exact Or.inr ⟨hbc.2.1, hbc.2.2⟩

theorem connVia_symm (tiles : List Tile) (w h : Nat)
    (hwf : gridWF tiles w h) (S : Nat → Prop) (a : Nat)
    (ha : (tileAt tiles a).water = false) (hSa : S a) (b : Nat)
    (hc : connVia tiles w h S a b) : connVia tiles w h S b a := by
  induction hc with
  | refl => exact Relation.ReflTransGen.refl
  | @tail b' c' hab hbc ih =>
    refine Relation.ReflTransGen.head ?_ ih
    have hc'w : (tileAt tiles c').water = false := hbc.2.1
    have hb'w : (tileAt tiles b').water = false := by
      rcases connVia_carrier hab with he | hp
      · rw [he]; exact ha
      · exact hp.1
    have hSb' : S b' := by
      rcases connVia_carrier hab with he | hp
      · rw [he]; exact hSa
      · exact hp.2
    have hlb' : b' < h * w := by
      have := tileAt_lt_of_water_false tiles b' hb'w
      rwa [hwf.1] at this
    have hlc' : c' < h * w := by
      have := tileAt_lt_of_water_false tiles c' hc'w
      rwa [hwf.1] at this
    exact ⟨nbrIdxs_symm tiles w h hwf b' c' hlb' hlc' hbc.1, hb'w, hSb'⟩

theorem connVia_transfer {tiles tiles' : List Tile} {w h : Nat}
    (hxy : ∀ k, (tileAt tiles' k).x = (tileAt tiles k).x ∧
      (tileAt tiles' k).y = (tileAt tiles k).y)
    {S : Nat → Prop} (hS : ∀ m, S m → (tileAt tiles' m).water = false)
    {a b : Nat} (hc : connVia tiles w h S a b) :
    connVia tiles' w h S a b := by
  refine Relation.ReflTransGen.mono ?_ hc
  intro u v hr
  refine ⟨?_, hS v hr.2.2, hr.2.2⟩
  have hnbr : nbrIdxs tiles' w h u = nbrIdxs tiles w h u := by
    unfold nbrIdxs
    rw [(hxy u).1, (hxy u).2]
  rw [hnbr]
  exact hr.1

theorem gridWF_of_xy_len {tiles tiles' : List Tile} {w h : Nat}
    (hlen : tiles'.length = tiles.length)
    (hxy : ∀ k, (tileAt tiles' k).x = (tileAt tiles k).x ∧
      (tileAt tiles' k).y = (tileAt tiles k).y)
    (hwf : gridWF tiles w h) : gridWF tiles' w h :=
  ⟨hlen.trans hwf.1,
    fun i hi => ⟨(hxy i).1.trans (hwf.2 i hi).1,
      (hxy i).2.trans (hwf.2 i hi).2⟩⟩

theorem enforce_eq_self (s : GenState)
    (hc : landIndices s.tiles = [] ∨
      (floodComponents s.tiles s.width s.height).1.length ≤ 1) :
    enforce_continent_connectivity s = s := by
  unfold enforce_continent_connectivity
  dsimp only
  rcases hc with hc | hc
  · rw [if_pos hc]
  · by_cases hl : landIndices s.tiles = []
    · rw [if_pos hl]
    · rw [if_neg hl, if_pos hc]

theorem enforce_eq_convert (s : GenState)
    (hland : landIndices s.tiles ≠ [])
    (hcomps : 1 < (floodComponents s.tiles s.width s.height).1.length) :
    (enforce_continent_connectivity s).tiles =
      convertToOcean s.tiles
        (sortByLenDesc
          (floodComponents s.tiles s.width s.height).1).tail.flatten := by
  unfold enforce_continent_connectivity
  dsimp only
  rw [if_neg hland, if_neg (by omega)]

theorem enforce_gridWF (s : GenState) (hwf : gridWF s.tiles s.width s.height) :
    gridWF (enforce_continent_connectivity s).tiles s.width s.height := by
  by_cases hland : landIndices s.tiles = []
  · rw [enforce_eq_self s (Or.inl hland)]
    exact hwf
  · by_cases hc1 : (floodComponents s.tiles s.width s.height).1.length ≤ 1
    · rw [enforce_eq_self s (Or.inr hc1)]
      exact hwf
    · refine gridWF_of_xy_len ?_ ?_ hwf
      · rw [enforce_eq_convert s hland (by omega)]
        exact convertToOcean_length _ _
      · intro k
        rw [enforce_eq_convert s hland (by omega)]
        exact convertToOcean_xy _ _ k

theorem enforce_convert_spec (s : GenState)
    (hcomps : 1 < (floodComponents s.tiles s.width s.height).1.length) :
    (sortByLenDesc (floodComponents s.tiles s.width s.height).1).headI ∈
      (floodComponents s.tiles s.width s.height).1 ∧
    (∀ cp ∈ (floodComponents s.tiles s.width s.height).1, cp.length ≤
      (sortByLenDesc
        (floodComponents s.tiles s.width s.height).1).headI.length) ∧
    (∃ pre post, (floodComponents s.tiles s.width s.height).1 =
      pre ++ (sortByLenDesc
        (floodComponents s.tiles s.width s.height).1).headI :: post ∧
      ∀ cp ∈ pre, cp.length <
        (sortByLenDesc
          (floodComponents s.tiles s.width s.height).1).headI.length) ∧
    (∀ k, (tileAt (enforce_continent_connectivity s).tiles k).water =
        false ↔
      k ∈ (sortByLenDesc
        (floodComponents s.tiles s.width s.height).1).headI) := by
  obtain ⟨F1, F2, F3, F4, F5⟩ := floodComponents_spec s.tiles s.width
    s.height
  cases hcl : (floodComponents s.tiles s.width s.height).1 with
  | nil => rw [hcl] at hcomps; simp at hcomps
  | cons c cs =>
  rw [hcl] at hcomps
  obtain ⟨pre, post, hdec, hlt, hle⟩ := sortByLenDesc_head_max c cs
  have hsortne : sortByLenDesc (c :: cs) ≠ [] :=
    (sortByLenDesc_headI_eq c cs).1
  have hsperm := sortByLenDesc_perm (c :: cs)
  have hsorted : (sortByLenDesc (c :: cs)).headI ::
      (sortByLenDesc (c :: cs)).tail = sortByLenDesc (c :: cs) := by
    cases hs : sortByLenDesc (c :: cs) with
    | nil => exact absurd hs hsortne
    | cons a as => rfl
  have hkeptmem : (sortByLenDesc (c :: cs)).headI ∈ c :: cs := by
    refine hsperm.mem_iff.mp ?_
    rw [← hsorted]
    exact List.mem_cons_self _ _
  have hkeptmem' : (sortByLenDesc (c :: cs)).headI ∈
      (floodComponents s.tiles s.width s.height).1 := by
    rw [hcl]
    exact hkeptmem
  have hpairwise : List.Pairwise (fun cp cq => ∀ k ∈ cp, k ∉ cq)
      (sortByLenDesc (c :: cs)) := by
    rw [hcl] at F5
    refine (List.Perm.pairwise_iff ?_ hsperm).mpr F5
    intro cp cq hd k hk hk'
    exact hd k hk' hk
  have hdisj : ∀ cq ∈ (sortByLenDesc (c :: cs)).tail,
      ∀ k ∈ (sortByLenDesc (c :: cs)).headI, k ∉ cq := by
    have := hpairwise
    rw [← hsorted] at this
    exact (List.pairwise_cons.mp this).1
  have hland : landIndices s.tiles ≠ [] := by
    have hcmem : c ∈ (floodComponents s.tiles s.width s.height).1 := by
      rw [hcl]
      exact List.mem_cons_self c cs
    obtain ⟨hcl1, hcl2, hcl3, hcl4⟩ := F4 c hcmem
    obtain ⟨k0, hk0⟩ := List.exists_mem_of_ne_nil c hcl4
    intro hnil
    have := (mem_landIndices s.tiles k0).mpr (hcl1 k0 hk0)
    rw [hnil] at this
    cases this
  have henf := enforce_eq_convert s hland (by rw [hcl]; exact hcomps)
  rw [hcl] at henf
  refine ⟨hkeptmem, ?_, ?_, ?_⟩
  · intro cp hcp
    exact hle cp hcp
  · exact ⟨pre, post, hdec, hlt⟩
  · intro k
    constructor
    · intro hk
      rw [henf] at hk
      have hkorig : (tileAt s.tiles k).water = false := by
        rcases convertToOcean_mark
          ((sortByLenDesc (c :: cs)).tail.flatten) s.tiles k with hm | hm
        · rw [hm] at hk
          exact hk
        · rw [hm] at hk
          simp at hk
      obtain ⟨cp, hcp, hkcp⟩ := F3 k (F1 k hkorig)
      have hcpsort : cp ∈ sortByLenDesc (c :: cs) := by
        rw [hcl] at hcp
        exact hsperm.mem_iff.mpr hcp
      rw [← hsorted] at hcpsort
      rcases List.mem_cons.mp hcpsort with hcp2 | hcp2
      · rw [← hcp2]
        exact hkcp
      · exfalso
        have hkfl : k ∈ (sortByLenDesc (c :: cs)).tail.flatten :=
          List.mem_flatten.mpr ⟨cp, hcp2, hkcp⟩
        have hkw := convertToOcean_mem_water
          ((sortByLenDesc (c :: cs)).tail.flatten) s.tiles k hkfl
          (tileAt_lt_of_water_false s.tiles k hkorig)
        rw [hkw] at hk
        cases hk
    · intro hk
      have hkland : (tileAt s.tiles k).water = false := by
        obtain ⟨hcl1, hcl2, hcl3, hcl4⟩ := F4 _ hkeptmem'
        exact hcl1 k hk
      have hknot : k ∉ (sortByLenDesc (c :: cs)).tail.flatten := by
        intro hkfl
        obtain ⟨cq, hcq, hkq⟩ := List.mem_flatten.mp hkfl
        exact hdisj cq hcq k hk hkq
      rw [henf, convertToOcean_not_mem _ _ k hknot]
      exact hkland

theorem enforce_one_component (s : GenState)
    (hwf : gridWF s.tiles s.width s.height) :
    ∀ i j, (tileAt (enforce_continent_connectivity s).tiles i).water =
        false →
      (tileAt (enforce_continent_connectivity s).tiles j).water = false →
      landConn (enforce_continent_connectivity s).tiles s.width s.height
        i j := by
  intro i j hi hj
  by_cases hland : landIndices s.tiles = []
  · exfalso
    rw [enforce_eq_self s (Or.inl hland)] at hi
    have := (mem_landIndices s.tiles i).mpr hi
    rw [hland] at this
    cases this
  · by_cases hc1 : (floodComponents s.tiles s.width s.height).1.length ≤ 1
    · have henf := enforce_eq_self s (Or.inr hc1)
      rw [henf] at hi hj ⊢
      obtain ⟨F1, F2, F3, F4, F5⟩ := floodComponents_spec s.tiles s.width
        s.height
      obtain ⟨cpi, hcpi, hicpi⟩ := F3 i (F1 i hi)
      obtain ⟨cpj, hcpj, hjcpj⟩ := F3 j (F1 j hj)
      have hcpeq : cpi = cpj := by
        cases hcl : (floodComponents s.tiles s.width s.height).1 with
        | nil =>
          rw [hcl] at hcpi
          cases hcpi
        | cons c cs =>
          rw [hcl] at hc1 hcpi hcpj
          have hcs : cs = [] := by
            simp only [List.length_cons] at hc1
            exact List.eq_nil_of_length_eq_zero (by omega)
          subst hcs
          have h1 : cpi = c := List.mem_singleton.mp hcpi
          have h2 : cpj = c := List.mem_singleton.mp hcpj
          rw [h1, h2]
      subst hcpeq
      obtain ⟨hl1, ⟨st, hst, hconn⟩, hl3, hl4⟩ := F4 cpi hcpi
      have hsti := hconn i hicpi
      have hstj := hconn j hjcpj
      have hits := connVia_symm s.tiles s.width s.height hwf
        (fun m => m ∈ cpi) st (hl1 st hst) hst i hsti
      exact connVia_mono (fun m _ => trivial) (hits.trans hstj)
    · push_neg at hc1
      obtain ⟨hkmem, hmax, hdec, hiff⟩ := enforce_convert_spec s hc1
      have hikept := (hiff i).mp hi
      have hjkept := (hiff j).mp hj
      obtain ⟨F1, F2, F3, F4, F5⟩ := floodComponents_spec s.tiles s.width
        s.height
      obtain ⟨hl1, ⟨st, hst, hconn⟩, hl3, hl4⟩ := F4 _ hkmem
      have hwf' := enforce_gridWF s hwf
      have htrans : ∀ a, connVia s.tiles s.width s.height
          (fun m => m ∈ (sortByLenDesc
            (floodComponents s.tiles s.width s.height).1).headI) st a →
          connVia (enforce_continent_connectivity s).tiles s.width s.height
            (fun m => m ∈ (sortByLenDesc
              (floodComponents s.tiles s.width s.height).1).headI) st a := by
        intro a hc
        refine connVia_transfer ?_ ?_ hc
        · intro k
          by_cases hcland : landIndices s.tiles = []
          · exact absurd hcland hland
          · rw [enforce_eq_convert s hland hc1]
            exact convertToOcean_xy _ _ k
        · intro m hm
          exact (hiff m).mpr hm
      have hsti := htrans i (hconn i hikept)
      have hstj := htrans j (hconn j hjkept)
      have hits := connVia_symm (enforce_continent_connectivity s).tiles
        s.width s.height hwf'
        (fun m => m ∈ (sortByLenDesc
          (floodComponents s.tiles s.width s.height).1).headI) st
        ((hiff st).mpr hst) hst i hsti
      exact connVia_mono (fun m _ => trivial) (hits.trans hstj)

theorem riverWalk_xy (w hh fuel x y : Nat) (tiles : List Tile) (r : Rng)
    (i : Nat) :
    (tileAt (riverWalk w hh fuel x y tiles r).1 i).x = (tileAt tiles i).x ∧
    (tileAt (riverWalk w hh fuel x y tiles r).1 i).y = (tileAt tiles i).y := by
  rcases riverWalk_mark w hh fuel x y tiles r i with hm | hm <;> rw [hm] <;>
    exact ⟨rfl, rfl⟩

theorem carveFold_xy :
    ∀ (starts : List Tile) (st : GenState) (i : Nat),
      (tileAt (starts.foldl (fun st t =>
        let res := riverWalk st.width st.height 80 t.x t.y st.tiles st.rng
        { st with tiles := res.1, rng := res.2.1 }) st).tiles i).x =
        (tileAt st.tiles i).x ∧
      (tileAt (starts.foldl (fun st t =>
        let res := riverWalk st.width st.height 80 t.x t.y st.tiles st.rng
        { st with tiles := res.1, rng := res.2.1 }) st).tiles i).y =
        (tileAt st.tiles i).y
  | [], st, i => ⟨rfl, rfl⟩
  | t :: rest, st, i => by
      simp only [List.foldl_cons]
      have h1 := riverWalk_xy st.width st.height 80 t.x t.y st.tiles st.rng i
      have h2 := carveFold_xy rest
        { st with
            tiles := (riverWalk st.width st.height 80 t.x t.y st.tiles
              st.rng).1,
            rng := (riverWalk st.width st.height 80 t.x t.y st.tiles
              st.rng).2.1 } i
      exact ⟨h2.1.trans h1.1, h2.2.trans h1.2⟩

theorem carve_xy (st : GenState) (count : Nat) (i : Nat) :
    (tileAt (carve_rivers st count).tiles i).x = (tileAt st.tiles i).x ∧
    (tileAt (carve_rivers st count).tiles i).y = (tileAt st.tiles i).y := by
  unfold carve_rivers
  dsimp only
  split
  · exact ⟨rfl, rfl⟩
  · exact carveFold_xy _ _ i

theorem landConn_transfer {tiles tiles' : List Tile} {w h : Nat}
    (hxyw : ∀ k, (tileAt tiles' k).x = (tileAt tiles k).x ∧
      (tileAt tiles' k).y = (tileAt tiles k).y ∧
      (tileAt tiles' k).water = (tileAt tiles k).water)
    {a b : Nat} (hc : landConn tiles w h a b) : landConn tiles' w h a b := by
  refine Relation.ReflTransGen.mono ?_ hc
  intro u v hr
  refine ⟨?_, ?_, trivial⟩
  · have hnbr : nbrIdxs tiles' w h u = nbrIdxs tiles w h u := by
      unfold nbrIdxs
      rw [(hxyw u).1, (hxyw u).2.1]
    rw [hnbr]
    exact hr.1
  · rw [(hxyw v).2.2]
    exact hr.2.1

theorem buildContinent_gridWF (w h : Nat) (sl : Frac) (r : Rng) :
    gridWF (buildContinentTiles w h sl r).1 w h := by
  refine ⟨(buildContinentTiles_spec w h sl r).1, ?_⟩
  intro i hi
  obtain ⟨e, m, hem⟩ := (buildContinentTiles_spec w h sl r).2 i hi
  rw [hem]
  exact ⟨rfl, rfl⟩

theorem base_one_component (s : GenState) (hm : s.mode = "continent")
    (hwf : gridWF (buildContinentTiles s.width s.height s.base_sea_level
      s.rng).1 s.width s.height) :
    ∀ i j, (tileAt (generate_base_tiles s).tiles i).water = false →
      (tileAt (generate_base_tiles s).tiles j).water = false →
      landConn (generate_base_tiles s).tiles s.width s.height i j := by
  have hb : generate_base_tiles s =
      carve_rivers (enforce_continent_connectivity
        { s with
          tiles := (buildContinentTiles s.width s.height s.base_sea_level
            s.rng).1,
          rng := (buildContinentTiles s.width s.height s.base_sea_level
            s.rng).2 }) (max 4 (s.width * s.height / 700)) := by
    unfold generate_base_tiles
    dsimp only
    rw [if_pos hm]
  intro i j hi hj
  rw [hb] at hi hj ⊢
  have hxyw : ∀ k,
      (tileAt (carve_rivers (enforce_continent_connectivity
        { s with
          tiles := (buildContinentTiles s.width s.height s.base_sea_level
            s.rng).1,
          rng := (buildContinentTiles s.width s.height s.base_sea_level
            s.rng).2 }) (max 4 (s.width * s.height / 700))).tiles k).x =
        (tileAt (enforce_continent_connectivity
          { s with
            tiles := (buildContinentTiles s.width s.height s.base_sea_level
              s.rng).1,
            rng := (buildContinentTiles s.width s.height s.base_sea_level
              s.rng).2 }).tiles k).x ∧
      (tileAt (carve_rivers (enforce_continent_connectivity
        { s with
          tiles := (buildContinentTiles s.width s.height s.base_sea_level
            s.rng).1,
          rng := (buildContinentTiles s.width s.height s.base_sea_level
            s.rng).2 }) (max 4 (s.width * s.height / 700))).tiles k).y =
        (tileAt (enforce_continent_connectivity
          { s with
            tiles := (buildContinentTiles s.width s.height s.base_sea_level
              s.rng).1,
            rng := (buildContinentTiles s.width s.height s.base_sea_level
              s.rng).2 }).tiles k).y ∧
      (tileAt (carve_rivers (enforce_continent_connectivity
        { s with
          tiles := (buildContinentTiles s.width s.height s.base_sea_level
            s.rng).1,
          rng := (buildContinentTiles s.width s.height s.base_sea_level
            s.rng).2 }) (max 4 (s.width * s.height / 700))).tiles k).water =
        (tileAt (enforce_continent_connectivity
          { s with
            tiles := (buildContinentTiles s.width s.height s.base_sea_level
              s.rng).1,
            rng := (buildContinentTiles s.width s.height s.base_sea_level
              s.rng).2 }).tiles k).water := by
    intro k
    exact ⟨(carve_xy _ _ k).1, (carve_xy _ _ k).2, (carve_wb _ _ k).1⟩
  refine landConn_transfer hxyw ?_
  refine enforce_one_component
    { s with
      tiles := (buildContinentTiles s.width s.height s.base_sea_level
        s.rng).1,
      rng := (buildContinentTiles s.width s.height s.base_sea_level
        s.rng).2 } hwf i j ?_ ?_
  · rw [← (hxyw i).2.2]
    exact hi
  · rw [← (hxyw j).2.2]
    exact hj

theorem generate_region_one_component (width height years seed : Nat)
    (sea_level : Frac) (tape : Nat → Nat) (doc : RegionDoc)
    (h : generate_region width height years seed sea_level "continent"
      tape = some doc) :
    ∀ i j, (tileAt doc.tiles i).water = false →
      (tileAt doc.tiles j).water = false →
      landConn doc.tiles width height i j := by
  unfold generate_region at h
  dsimp only at h
  split at h
  · cases h
  next s6 heq =>
    cases h
    intro i j hi hj
    show landConn s6.tiles width height i j
    have hmode : (initState width height years seed sea_level "continent"
        tape).mode = "continent" := rfl
    have hwfb : gridWF (buildContinentTiles
        (initState width height years seed sea_level "continent" tape).width
        (initState width height years seed sea_level "continent" tape).height
        (initState width height years seed sea_level "continent"
          tape).base_sea_level
        (initState width height years seed sea_level "continent" tape).rng).1
        (initState width height years seed sea_level "continent" tape).width
        (initState width height years seed sea_level "continent"
          tape).height :=
      buildContinent_gridWF _ _ _ _
    have hxyw : ∀ k,
        (tileAt s6.tiles k).x =
          (tileAt (generate_base_tiles (initState width height years seed
            sea_level "continent" tape)).tiles k).x ∧
        (tileAt s6.tiles k).y =
          (tileAt (generate_base_tiles (initState width height years seed
            sea_level "continent" tape)).tiles k).y ∧
        (tileAt s6.tiles k).water =
          (tileAt (generate_base_tiles (initState width height years seed
            sea_level "continent" tape)).tiles k).water := by
      intro k
      have hcc : coreEq
          (tileAt (generate_base_tiles (initState width height years seed
            sea_level "continent" tape)).tiles k)
          (tileAt (derive_settlements (simulate_history
            (spawn_initial_realms (generate_base_tiles (initState width
              height years seed sea_level "continent" tape))))).tiles k) :=
        coreEq_trans (spawn_core _ k)
          (coreEq_trans (simulate_history_core _ k)
            (derive_settlements_core _ k))
      rw [derive_ruins_tiles _ s6 heq, derive_roads_tiles]
      exact ⟨hcc.1, hcc.2.1, hcc.2.2.2.2.2.1⟩
    refine landConn_transfer hxyw ?_
    have hone := base_one_component
      (initState width height years seed sea_level "continent" tape) hmode
      hwfb
    refine hone i j ?_ ?_
    · rw [← (hxyw i).2.2]
      exact hi
    · rw [← (hxyw j).2.2]
      exact hj

/-- C2.  In continent mode, connectivity enforcement leaves the non-water
tiles forming exactly one 4-connected component: on any wellformed grid,
any two non-water tiles of the enforced grid are joined by a 4-neighbor
path through non-water tiles.  When the flood fill finds more than one
component, the kept component is the first component (in row-major
discovery order) of maximal size — every component's size is at most the
kept one's, every component discovered before it is strictly smaller —
and the enforced grid's non-water tiles are exactly the kept component's
members, all others having been converted to ocean.  The property
carries to the final output: any two non-water tiles of the document of
a continent-mode run are 4-connected through non-water tiles. -/
theorem continent_connectivity_spec :
    (∀ s : GenState, gridWF s.tiles s.width s.height →
      ∀ i j,
        (tileAt (enforce_continent_connectivity s).tiles i).water = false →
        (tileAt (enforce_continent_connectivity s).tiles j).water = false →
        landConn (enforce_continent_connectivity s).tiles s.width s.height
          i j) ∧
    (∀ s : GenState,
      1 < (floodComponents s.tiles s.width s.height).1.length →
      (sortByLenDesc (floodComponents s.tiles s.width s.height).1).headI ∈
        (floodComponents s.tiles s.width s.height).1 ∧
      (∀ cp ∈ (floodComponents s.tiles s.width s.height).1, cp.length ≤
        (sortByLenDesc
          (floodComponents s.tiles s.width s.height).1).headI.length) ∧
      (∃ pre post, (floodComponents s.tiles s.width s.height).1 =
        pre ++ (sortByLenDesc
          (floodComponents s.tiles s.width s.height).1).headI :: post ∧
        ∀ cp ∈ pre, cp.length <
          (sortByLenDesc
            (floodComponents s.tiles s.width s.height).1).headI.length) ∧
      (∀ k, (tileAt (enforce_continent_connectivity s).tiles k).water =
          false ↔
        k ∈ (sortByLenDesc
          (floodComponents s.tiles s.width s.height).1).headI)) ∧
    (∀ (width height years seed : Nat) (sea_level : Frac)
        (tape : Nat → Nat) (doc : RegionDoc),
      generate_region width height years seed sea_level "continent" tape =
        some doc →
      ∀ i j, (tileAt doc.tiles i).water = false →
        (tileAt doc.tiles j).water = false →
        landConn doc.tiles width height i j) :=
  ⟨fun s hwf => enforce_one_component s hwf,
   fun s hc => enforce_convert_spec s hc,
   fun width height years seed sea_level tape doc hdoc =>
     generate_region_one_component width height years seed sea_level tape
       doc hdoc⟩

/-- C2 witness: on the 9×3 state `c5bState` (one land strip) the enforced
grid's land tiles 10 and 17 are 4-connected; on the 3×1 two-island state
`c2State` the flood fill finds two components and enforcement keeps
exactly the first-discovered one; the concrete 4×3 continent pipeline run
`c4SmallDoc` has its land tiles 1 and 10 4-connected. -/
theorem continent_connectivity_spec_witness :
    (gridWF c5bState.tiles c5bState.width c5bState.height ∧
     (tileAt (enforce_continent_connectivity c5bState).tiles 10).water =
       false ∧
     (tileAt (enforce_continent_connectivity c5bState).tiles 17).water =
       false ∧
     landConn (enforce_continent_connectivity c5bState).tiles
       c5bState.width c5bState.height 10 17) ∧
    (1 < (floodComponents c2State.tiles c2State.width
        c2State.height).1.length ∧
     (∀ k, (tileAt (enforce_continent_connectivity c2State).tiles k).water =
         false ↔
       k ∈ (sortByLenDesc (floodComponents c2State.tiles c2State.width
         c2State.height).1).headI)) ∧
    (generate_region 4 3 10 0 (fr 35 100) "continent" (fun _ => 0) =
       some c4SmallDoc ∧
     (tileAt c4SmallDoc.tiles 5).water = false ∧
     (tileAt c4SmallDoc.tiles 6).water = false ∧
     landConn c4SmallDoc.tiles 4 3 5 6) := by
  refine ⟨⟨by decide, by decide, by decide, ?_⟩, ⟨by decide, ?_⟩,
    ⟨?hpipe2, by decide, by decide, ?_⟩⟩
  · exact continent_connectivity_spec.1 c5bState (by decide) 10 17
      (by decide) (by decide)
  · exact (continent_connectivity_spec.2.1 c2State (by decide)).2.2.2
  case hpipe2 => rfl
  · exact continent_connectivity_spec.2.2 4 3 10 0 (fr 35 100)
      (fun _ => 0) c4SmallDoc rfl 5 6 (by decide) (by decide)
